import Mathlib

/-!
Verification of the kitty file transmission protocol engine
(src/kitty/file_transmission.py) against its natural-language specification.

Strings are modelled as lists of Unicode scalar values (List Nat); byte
strings as lists of byte values (List Nat, each < 256).  Python integers are
modelled as Int.  External OS and library services (filesystem, zlib, rsync,
hashing input) are modelled explicitly where the claims depend on them and as
documented opaque stand-ins where they do not.
-/

set_option maxHeartbeats 1000000

namespace KittyFT

/-- Unicode strings: lists of Unicode scalar values. -/
abbrev Str := List Nat

/-- Byte strings: lists of byte values (each < 256 when well formed). -/
abbrev Bytes := List Nat

/-- The semicolon code point / byte, the wire separator. -/
def semi : Nat := 59

/-- Valid Unicode scalar value: below 0x110000 and not a surrogate. -/
def ValidScalar (c : Nat) : Prop := c < 1114112 ∧ ¬(55296 ≤ c ∧ c < 57344)

instance (c : Nat) : Decidable (ValidScalar c) := by
  unfold ValidScalar; infer_instance

/-- Valid Unicode string: all scalars valid. -/
def ValidStr (s : Str) : Prop := ∀ c ∈ s, ValidScalar c

instance (s : Str) : Decidable (ValidStr s) := by
  unfold ValidStr; infer_instance

/-- Valid byte string: all bytes below 256. -/
def ValidBytes (b : Bytes) : Prop := ∀ x ∈ b, x < 256

instance (b : Bytes) : Decidable (ValidBytes b) := by
  unfold ValidBytes; infer_instance

/-- Predicate on a scalar stripped by control-code sanitization.
Modelled from the spec: sanitize_control_codes lives in kitty/utils.py which
is outside the sources given here; the spec says escaped strings strip C0
control characters other than tab and newline. -/
def isStrippedControl (c : Nat) : Bool := c < 32 && c ≠ 9 && c ≠ 10

/-- Modelled from the spec: sanitize_control_codes (kitty/utils.py, not in the
given sources) removes C0 control characters except tab and newline. -/
def sanitize_control_codes (s : Str) : Str := s.filter (fun c => !isStrippedControl c)

/-- A string left untouched by sanitization (no stripped control characters). -/
def NoStrippedControls (s : Str) : Prop := ∀ c ∈ s, isStrippedControl c = false

instance (s : Str) : Decidable (NoStrippedControls s) := by
  unfold NoStrippedControls; infer_instance

theorem sanitize_of_noControls (s : Str) (h : NoStrippedControls s) :
    sanitize_control_codes s = s := by
  unfold sanitize_control_codes
  induction s with
  | nil => rfl
  | cons c cs ih =>
    have hc := h c (List.mem_cons_self c cs)
    have hcs : NoStrippedControls cs := fun x hx => h x (List.mem_cons_of_mem c hx)
    simp [List.filter_cons, hc, ih hcs]

/-- Source: escape_semicolons, file_transmission.py line 40: double every
literal semicolon. -/
def escape_semicolons (x : Str) : Str :=
  x.flatMap (fun c => if c = semi then [semi, semi] else [c])

/-- Left-to-right replacement of double semicolons by single ones: the state
records whether a semicolon is pending from the previous step. -/
def unescAux : Str → Bool → Str
  | [], pend => if pend then [semi] else []
  | c :: rest, pend =>
    if pend then
      if c = semi then semi :: unescAux rest false
      else semi :: c :: unescAux rest false
    else
      if c = semi then unescAux rest true
      else c :: unescAux rest false

/-- Model of Python str.replace applied with the two-semicolon pattern at
deserialize time (file_transmission.py line 350). -/
def unescape_semicolons (s : Str) : Str := unescAux s false

theorem escape_eq_nil (s : Str) (h : escape_semicolons s = []) : s = [] := by
  cases s with
  | nil => rfl
  | cons c cs =>
    exfalso
    simp only [escape_semicolons, List.flatMap_cons] at h
    by_cases hc : c = semi <;> simp [hc] at h

theorem unescape_escape (s : Str) : unescape_semicolons (escape_semicolons s) = s := by
  unfold unescape_semicolons
  induction s with
  | nil => rfl
  | cons c cs ih =>
    by_cases hc : c = semi
    · subst hc
      have he : escape_semicolons (semi :: cs) = semi :: semi :: escape_semicolons cs := by
        simp [escape_semicolons, List.flatMap_cons]
      rw [he]
      show unescAux (semi :: semi :: escape_semicolons cs) false = _
      rw [unescAux, if_neg (by simp), if_pos rfl, unescAux, if_pos rfl, if_pos rfl, ih]
    · have he : escape_semicolons (c :: cs) = c :: escape_semicolons cs := by
        simp [escape_semicolons, List.flatMap_cons, hc]
      rw [he]
      show unescAux (c :: escape_semicolons cs) false = _
      rw [unescAux, if_neg (by simp), if_neg hc, ih]

theorem escape_of_noSemi (s : Str) (h : semi ∉ s) : escape_semicolons s = s := by
  induction s with
  | nil => rfl
  | cons c cs ih =>
    have hc : c ≠ semi := fun he => h (he ▸ List.mem_cons_self c cs)
    have hcs : semi ∉ cs := fun hm => h (List.mem_cons_of_mem c hm)
    simp only [escape_semicolons, List.flatMap_cons, if_neg hc]
    simp only [escape_semicolons] at ih
    rw [List.singleton_append, ih hcs]

/-- Fuel-driven digit expansion; the fuel bounds the number of divisions and
is irrelevant once at least the value itself. -/
def decimalNatF : Nat → Nat → List Nat
  | 0, n => [48 + n % 10]
  | fuel + 1, n => if n < 10 then [48 + n] else decimalNatF fuel (n / 10) ++ [48 + n % 10]

/-- Decimal digits of a natural number, most significant first, as ASCII codes. -/
def decimalNat (n : Nat) : List Nat := decimalNatF n n

theorem decimalNatF_irrel (f1 : Nat) :
    ∀ n f2, n ≤ f1 → n ≤ f2 → decimalNatF f1 n = decimalNatF f2 n := by
  induction f1 with
  | zero =>
    intro n f2 h1 h2
    have hn : n = 0 := Nat.le_zero.mp h1
    subst hn
    cases f2 with
    | zero => rfl
    | succ f => simp [decimalNatF]
  | succ f1 ih =>
    intro n f2 h1 h2
    cases f2 with
    | zero =>
      have hn : n = 0 := Nat.le_zero.mp h2
      subst hn
      simp [decimalNatF]
    | succ f2 =>
      simp only [decimalNatF]
      by_cases hn : n < 10
      · rw [if_pos hn, if_pos hn]
      · rw [if_neg hn, if_neg hn]
        have hd : n / 10 < n := Nat.div_lt_self (by omega) (by omega)
        rw [ih (n / 10) f1 (by omega) (by omega), ih (n / 10) f2 (by omega) (by omega)]

theorem decimalNat_eq (n : Nat) :
    decimalNat n = if n < 10 then [48 + n] else decimalNat (n / 10) ++ [48 + n % 10] := by
  unfold decimalNat
  by_cases hn : n < 10
  · rw [if_pos hn]
    cases n with
    | zero => rfl
    | succ m => simp [decimalNatF, hn]
  · rw [if_neg hn]
    cases hc : n with
    | zero => omega
    | succ m =>
      rw [← hc]
      have h1 : decimalNatF n n = decimalNatF (m + 1) n := by
        rw [hc]
      rw [h1]
      simp only [decimalNatF, if_neg hn]
      have hd : n / 10 < n := Nat.div_lt_self (by omega) (by omega)
      rw [decimalNatF_irrel m (n / 10) (n / 10) (by omega) (by omega)]

/-- Decimal rendering of a Python integer (str applied to an int). -/
def decimalInt (n : Int) : List Nat :=
  if n < 0 then 45 :: decimalNat n.natAbs else decimalNat n.toNat

/-- Step function for parsing one ASCII decimal digit. -/
def digitStep (a : Nat) (d : Nat) : Option Nat :=
  if 48 ≤ d ∧ d ≤ 57 then some (a * 10 + (d - 48)) else none

/-- Parse a run of ASCII decimal digits, accumulating from a. -/
def parseDigits (a : Nat) (ds : List Nat) : Option Nat :=
  ds.foldlM digitStep a

/-- Model of the Python int constructor applied to the serialized decimal
form: an optional sign followed by at least one digit. -/
def parsePyInt (s : List Nat) : Option Int :=
  match s with
  | [] => none
  | c :: rest =>
    if c = 45 then
      if rest = [] then none else (parseDigits 0 rest).map (fun n => -(n : Int))
    else if c = 43 then
      if rest = [] then none else (parseDigits 0 rest).map (fun n => (n : Int))
    else (parseDigits 0 (c :: rest)).map (fun n => (n : Int))

/-- Number of final weight needed for the digit-parsing round trip. -/
def pow10ForDigits (n : Nat) : Nat :=
  if h : n < 10 then 10 else pow10ForDigits (n / 10) * 10
termination_by n
decreasing_by
  exact Nat.div_lt_self (Nat.lt_of_lt_of_le (by omega) (Nat.le_of_not_lt h)) (by omega)

theorem parseDigits_append (a : Nat) (xs ys : List Nat) :
    parseDigits a (xs ++ ys) = (parseDigits a xs).bind (fun b => parseDigits b ys) := by
  unfold parseDigits
  rw [List.foldlM_append]
  rfl

theorem parseDigits_decimalNat (n : Nat) :
    ∀ a, parseDigits a (decimalNat n) = some (a * pow10ForDigits n + n) := by
  induction n using Nat.strong_induction_on with
  | _ n ih =>
    intro a
    by_cases h : n < 10
    · rw [decimalNat_eq, if_pos h, pow10ForDigits, dif_pos h]
      simp only [parseDigits, List.foldlM_cons, List.foldlM_nil, digitStep]
      rw [if_pos (by omega)]
      simp only [Option.pure_def, Option.bind_eq_bind, Option.some_bind, Option.some.injEq]
      omega
    · rw [decimalNat_eq, if_neg h, pow10ForDigits, dif_neg h, parseDigits_append]
      have hlt : n / 10 < n := Nat.div_lt_self (by omega) (by omega)
      rw [ih (n / 10) hlt a]
      simp only [Option.some_bind]
      simp only [parseDigits, List.foldlM_cons, List.foldlM_nil, digitStep]
      rw [if_pos (by omega)]
      simp only [Option.pure_def, Option.bind_eq_bind, Option.some_bind, Option.some.injEq]
      rw [Nat.add_sub_cancel_left, Nat.add_mul, ← Nat.mul_assoc]
      omega

theorem parseDigits_decimalNat_zero (n : Nat) :
    parseDigits 0 (decimalNat n) = some n := by
  rw [parseDigits_decimalNat n 0]
  simp

theorem decimalNat_ne_nil (n : Nat) : decimalNat n ≠ [] := by
  rw [decimalNat_eq]
  split
  · simp
  · simp

theorem decimalNat_head_digit (n : Nat) : ∀ c ∈ decimalNat n, 48 ≤ c ∧ c ≤ 57 := by
  induction n using Nat.strong_induction_on with
  | _ n ih =>
    intro c hc
    rw [decimalNat_eq] at hc
    split at hc
    · simp at hc
      omega
    · rename_i h
      rw [List.mem_append] at hc
      rcases hc with hc | hc
      · exact ih (n / 10) (Nat.div_lt_self (by omega) (by omega)) c hc
      · simp at hc
        have : n % 10 < 10 := Nat.mod_lt _ (by omega)
        omega

theorem parsePyInt_decimalInt (n : Int) : parsePyInt (decimalInt n) = some n := by
  unfold decimalInt
  by_cases h : n < 0
  · rw [if_pos h]
    simp only [parsePyInt]
    rw [if_pos trivial, if_neg (decimalNat_ne_nil _), parseDigits_decimalNat_zero]
    simp
    rw [abs_of_nonpos (le_of_lt h), neg_neg]
  · rw [if_neg h]
    have hfirst := decimalNat_head_digit n.toNat
    cases hd : decimalNat n.toNat with
    | nil => exact absurd hd (decimalNat_ne_nil _)
    | cons c cs =>
      have hc := hfirst c (hd ▸ List.mem_cons_self c cs)
      have hc45 : c ≠ 45 := by omega
      have hc43 : c ≠ 43 := by omega
      simp only [parsePyInt]
      rw [if_neg hc45, if_neg hc43, ← hd, parseDigits_decimalNat_zero]
      simp
      omega

/-- The base64 alphabet character (ASCII code) for a 6-bit value. -/
def b64char (k : Nat) : Nat :=
  if k < 26 then 65 + k
  else if k < 52 then 97 + (k - 26)
  else if k < 62 then 48 + (k - 52)
  else if k = 62 then 43 else 47

/-- Inverse base64 alphabet lookup. -/
def b64charVal (c : Nat) : Option Nat :=
  if 65 ≤ c ∧ c ≤ 90 then some (c - 65)
  else if 97 ≤ c ∧ c ≤ 122 then some (26 + (c - 97))
  else if 48 ≤ c ∧ c ≤ 57 then some (52 + (c - 48))
  else if c = 43 then some 62
  else if c = 47 then some 63
  else none

/-- Whether a byte is in the base64 alphabet. -/
def isB64Alpha (c : Nat) : Bool := (b64charVal c).isSome

/-- Model of Python base64.standard_b64encode on bytes. -/
def standard_b64encode : Bytes → Bytes
  | [] => []
  | [a] => [b64char (a / 4), b64char (a % 4 * 16), 61, 61]
  | [a, b] => [b64char (a / 4), b64char (a % 4 * 16 + b / 16), b64char (b % 16 * 4), 61]
  | a :: b :: c :: rest =>
      b64char (a / 4) :: b64char (a % 4 * 16 + b / 16) :: b64char (b % 16 * 4 + c / 64) ::
      b64char (c % 64) :: standard_b64encode rest

/-- Decode base64 in four-character groups with trailing padding. -/
def b64dGroups : Bytes → Option Bytes
  | [] => some []
  | w :: x :: y :: z :: rest => do
      let vw ← b64charVal w
      let vx ← b64charVal x
      if y = 61 then
        if z = 61 ∧ rest = [] then some [vw * 4 + vx / 16] else none
      else do
        let vy ← b64charVal y
        if z = 61 then
          if rest = [] then some [vw * 4 + vx / 16, vx % 16 * 16 + vy / 4] else none
        else do
          let vz ← b64charVal z
          let tail ← b64dGroups rest
          some ((vw * 4 + vx / 16) :: (vx % 16 * 16 + vy / 4) :: (vy % 4 * 64 + vz) :: tail)
  | _ => none

/-- Model of Python base64.standard_b64decode: characters outside the
alphabet and padding are discarded, then the stream is decoded in groups of
four; a malformed tail is an error. -/
def standard_b64decode (s : Bytes) : Option Bytes :=
  b64dGroups (s.filter (fun c => isB64Alpha c || c == 61))

theorem b64charVal_b64char : ∀ k, k < 64 → b64charVal (b64char k) = some k := by decide

theorem b64char_isAlpha : ∀ k, k < 64 → (isB64Alpha (b64char k) || b64char k == 61) = true := by
  decide

theorem b64char_ne_61 : ∀ k, k < 64 → b64char k ≠ 61 := by decide

theorem b64encode_filter (bs : Bytes) (h : ValidBytes bs) :
    (standard_b64encode bs).filter (fun c => isB64Alpha c || c == 61) =
      standard_b64encode bs := by
  rw [List.filter_eq_self]
  intro x hx
  induction bs using standard_b64encode.induct with
  | case1 => simp [standard_b64encode] at hx
  | case2 a =>
    have ha : a < 256 := h a (by simp)
    simp only [standard_b64encode, List.mem_cons, List.not_mem_nil, or_false] at hx
    rcases hx with h1 | h1 | h1 | h1 <;> subst h1
    · exact b64char_isAlpha _ (by omega)
    · exact b64char_isAlpha _ (by omega)
    · simp
    · simp
  | case3 a b =>
    have ha : a < 256 := h a (by simp)
    have hb : b < 256 := h b (by simp)
    simp only [standard_b64encode, List.mem_cons, List.not_mem_nil, or_false] at hx
    rcases hx with h1 | h1 | h1 | h1 <;> subst h1
    · exact b64char_isAlpha _ (by omega)
    · exact b64char_isAlpha _ (by omega)
    · exact b64char_isAlpha _ (by omega)
    · simp
  | case4 a b c rest ih =>
    have ha : a < 256 := h a (by simp)
    have hb : b < 256 := h b (by simp)
    have hc : c < 256 := h c (by simp)
    have hrest : ValidBytes rest := fun x hx => h x (by simp [hx])
    simp only [standard_b64encode, List.mem_cons] at hx
    rcases hx with h1 | h1 | h1 | h1 | h1
    · subst h1; exact b64char_isAlpha _ (by omega)
    · subst h1; exact b64char_isAlpha _ (by omega)
    · subst h1; exact b64char_isAlpha _ (by omega)
    · subst h1; exact b64char_isAlpha _ (by omega)
    · exact ih hrest h1

theorem b64dGroups_b64encode (bs : Bytes) (h : ValidBytes bs) :
    b64dGroups (standard_b64encode bs) = some bs := by
  induction bs using standard_b64encode.induct with
  | case1 => simp [standard_b64encode, b64dGroups]
  | case2 a =>
    have ha : a < 256 := h a (by simp)
    simp only [standard_b64encode, b64dGroups]
    rw [b64charVal_b64char _ (by omega), b64charVal_b64char _ (by omega)]
    simp only [Option.pure_def, Option.bind_eq_bind, Option.some_bind, if_true, and_self]
    have : a / 4 * 4 + a % 4 * 16 / 16 = a := by omega
    rw [this]
  | case3 a b =>
    have ha : a < 256 := h a (by simp)
    have hb : b < 256 := h b (by simp)
    simp only [standard_b64encode, b64dGroups]
    rw [b64charVal_b64char _ (by omega), b64charVal_b64char _ (by omega),
      b64charVal_b64char _ (by omega)]
    simp only [Option.bind_eq_bind, Option.some_bind]
    rw [if_neg (b64char_ne_61 _ (by omega))]
    simp only [Option.bind_eq_bind, Option.some_bind, if_true, and_self]
    have h1 : a / 4 * 4 + (a % 4 * 16 + b / 16) / 16 = a := by omega
    have h2 : (a % 4 * 16 + b / 16) % 16 * 16 + b % 16 * 4 / 4 = b := by omega
    rw [h1, h2]
  | case4 a b c rest ih =>
    have ha : a < 256 := h a (by simp)
    have hb : b < 256 := h b (by simp)
    have hc : c < 256 := h c (by simp)
    have hrest : ValidBytes rest := fun x hx => h x (by simp [hx])
    simp only [standard_b64encode, b64dGroups]
    rw [b64charVal_b64char _ (by omega), b64charVal_b64char _ (by omega),
      b64charVal_b64char _ (by omega), b64charVal_b64char _ (by omega)]
    simp only [Option.bind_eq_bind, Option.some_bind]
    rw [if_neg (b64char_ne_61 _ (by omega)), if_neg (b64char_ne_61 _ (by omega))]
    rw [ih hrest]
    simp only [Option.bind_eq_bind, Option.some_bind]
    have h1 : a / 4 * 4 + (a % 4 * 16 + b / 16) / 16 = a := by omega
    have h2 : (a % 4 * 16 + b / 16) % 16 * 16 + (b % 16 * 4 + c / 64) / 4 = b := by omega
    have h3 : (b % 16 * 4 + c / 64) % 4 * 64 + c % 64 = c := by omega
    rw [h1, h2, h3]

theorem b64decode_b64encode (bs : Bytes) (h : ValidBytes bs) :
    standard_b64decode (standard_b64encode bs) = some bs := by
  unfold standard_b64decode
  rw [b64encode_filter bs h, b64dGroups_b64encode bs h]

/-- UTF-8 encoding of one Unicode scalar value. -/
def utf8EncodeChar (c : Nat) : Bytes :=
  if c < 128 then [c]
  else if c < 2048 then [192 + c / 64, 128 + c % 64]
  else if c < 65536 then [224 + c / 4096, 128 + c / 64 % 64, 128 + c % 64]
  else [240 + c / 262144, 128 + c / 4096 % 64, 128 + c / 64 % 64, 128 + c % 64]

/-- UTF-8 encoding of a string (Python str.encode with the utf-8 codec). -/
def utf8Encode (s : Str) : Bytes := s.flatMap utf8EncodeChar

/-- Whether a byte is a UTF-8 continuation byte. -/
def isCont (b : Nat) : Bool := 128 ≤ b && b < 192

/-- Decode a single UTF-8 scalar from the front of a byte stream, returning
the scalar and the remaining bytes; strict checks reject bad continuation
bytes, overlong forms, surrogates and out-of-range values. -/
def utf8DecodeOne (bs : Bytes) : Option (Nat × Bytes) :=
  match bs with
  | [] => none
  | b :: rest =>
    if b < 128 then some (b, rest)
    else if b < 192 then none
    else if b < 224 then
      match rest with
      | b1 :: rest1 =>
        if isCont b1 ∧ 128 ≤ (b - 192) * 64 + (b1 - 128) then
          some ((b - 192) * 64 + (b1 - 128), rest1)
        else none
      | [] => none
    else if b < 240 then
      match rest with
      | b1 :: b2 :: rest2 =>
        if isCont b1 ∧ isCont b2 ∧ 2048 ≤ (b - 224) * 4096 + (b1 - 128) * 64 + (b2 - 128) ∧
            ¬(55296 ≤ (b - 224) * 4096 + (b1 - 128) * 64 + (b2 - 128) ∧
              (b - 224) * 4096 + (b1 - 128) * 64 + (b2 - 128) < 57344) then
          some ((b - 224) * 4096 + (b1 - 128) * 64 + (b2 - 128), rest2)
        else none
      | _ => none
    else if b < 248 then
      match rest with
      | b1 :: b2 :: b3 :: rest3 =>
        if isCont b1 ∧ isCont b2 ∧ isCont b3 ∧
            65536 ≤ (b - 240) * 262144 + (b1 - 128) * 4096 + (b2 - 128) * 64 + (b3 - 128) ∧
            (b - 240) * 262144 + (b1 - 128) * 4096 + (b2 - 128) * 64 + (b3 - 128) < 1114112 then
          some ((b - 240) * 262144 + (b1 - 128) * 4096 + (b2 - 128) * 64 + (b3 - 128), rest3)
        else none
      | _ => none
    else none

theorem utf8DecodeOne_length (bs : Bytes) (c : Nat) (rest : Bytes)
    (h : utf8DecodeOne bs = some (c, rest)) : rest.length < bs.length := by
  match bs with
  | [] => simp [utf8DecodeOne] at h
  | [b] =>
    simp only [utf8DecodeOne] at h
    split_ifs at h <;> simp_all
  | [b, b1] =>
    simp only [utf8DecodeOne] at h
    split_ifs at h <;> simp_all <;> omega
  | [b, b1, b2] =>
    simp only [utf8DecodeOne] at h
    split_ifs at h <;> simp_all <;> omega
  | b :: b1 :: b2 :: b3 :: t =>
    simp only [utf8DecodeOne] at h
    split_ifs at h <;> simp_all <;> omega

/-- Fuel-driven UTF-8 decoding loop; the fuel bounds the number of scalars
and is irrelevant once at least the byte length. -/
def utf8DecodeF : Nat → Bytes → Option Str
  | _, [] => some []
  | 0, _ :: _ => none
  | fuel + 1, b :: rest =>
    match utf8DecodeOne (b :: rest) with
    | none => none
    | some cr => (utf8DecodeF fuel cr.2).map (fun s => cr.1 :: s)

/-- Strict UTF-8 decoding (Python bytes.decode with the utf-8 codec), the
model of decode_utf8_buffer from the transfer kitten (not in the given
sources; the spec says values are decoded as UTF-8). -/
def utf8Decode (bs : Bytes) : Option Str := utf8DecodeF bs.length bs

theorem utf8DecodeF_irrel (f1 : Nat) :
    ∀ bs f2, bs.length ≤ f1 → bs.length ≤ f2 → utf8DecodeF f1 bs = utf8DecodeF f2 bs := by
  induction f1 with
  | zero =>
    intro bs f2 h1 h2
    have hb : bs = [] := List.length_eq_zero.mp (Nat.le_zero.mp h1)
    subst hb
    cases f2 <;> rfl
  | succ f1 ih =>
    intro bs f2 h1 h2
    cases bs with
    | nil => cases f2 <;> rfl
    | cons b rest =>
      cases f2 with
      | zero => simp at h2
      | succ f2 =>
        simp only [utf8DecodeF]
        cases hone : utf8DecodeOne (b :: rest) with
        | none => rfl
        | some cr =>
          have hlen := utf8DecodeOne_length (b :: rest) cr.1 cr.2 (by rw [hone])
          simp only [List.length_cons] at h1 h2 hlen
          show Option.map (fun s => cr.1 :: s) (utf8DecodeF f1 cr.2) =
            Option.map (fun s => cr.1 :: s) (utf8DecodeF f2 cr.2)
          rw [ih cr.2 f2 (by omega) (by omega)]

theorem utf8EncodeChar_bytes_lt (c : Nat) (h : c < 1114112) :
    ∀ b ∈ utf8EncodeChar c, b < 256 := by
  intro b hb
  unfold utf8EncodeChar at hb
  split_ifs at hb <;> simp [List.mem_cons] at hb <;> omega

theorem utf8EncodeChar_semi_iff (c : Nat) : semi ∈ utf8EncodeChar c ↔ c = semi := by
  unfold utf8EncodeChar semi
  constructor
  · intro hb
    split_ifs at hb <;> simp [List.mem_cons] at hb <;> omega
  · intro hc
    subst hc
    simp

theorem utf8EncodeChar_ne_nil (c : Nat) : utf8EncodeChar c ≠ [] := by
  unfold utf8EncodeChar
  split_ifs <;> simp

theorem utf8DecodeOne_encChar (c : Nat) (hv : ValidScalar c) (bs : Bytes) :
    utf8DecodeOne (utf8EncodeChar c ++ bs) = some (c, bs) := by
  obtain ⟨h1, h2⟩ := hv
  unfold utf8EncodeChar
  by_cases hc1 : c < 128
  · rw [if_pos hc1]
    show utf8DecodeOne (c :: bs) = _
    simp only [utf8DecodeOne]
    rw [if_pos hc1]
  · rw [if_neg hc1]
    by_cases hc2 : c < 2048
    · rw [if_pos hc2]
      show utf8DecodeOne ((192 + c / 64) :: (128 + c % 64) :: bs) = _
      simp only [utf8DecodeOne]
      rw [if_neg (by omega), if_neg (by omega), if_pos (by omega)]
      have he : (192 + c / 64 - 192) * 64 + (128 + c % 64 - 128) = c := by omega
      rw [he]
      rw [if_pos ⟨by simp [isCont]; omega, by omega⟩]
    · rw [if_neg hc2]
      by_cases hc3 : c < 65536
      · rw [if_pos hc3]
        show utf8DecodeOne ((224 + c / 4096) :: (128 + c / 64 % 64) :: (128 + c % 64) :: bs) = _
        simp only [utf8DecodeOne]
        rw [if_neg (by omega), if_neg (by omega), if_neg (by omega), if_pos (by omega)]
        have he : (224 + c / 4096 - 224) * 4096 + (128 + c / 64 % 64 - 128) * 64 +
            (128 + c % 64 - 128) = c := by omega
        rw [he]
        rw [if_pos ⟨by simp [isCont]; omega, by simp [isCont]; omega, by omega, h2⟩]
      · rw [if_neg hc3]
        show utf8DecodeOne ((240 + c / 262144) :: (128 + c / 4096 % 64) :: (128 + c / 64 % 64) ::
          (128 + c % 64) :: bs) = _
        simp only [utf8DecodeOne]
        rw [if_neg (by omega), if_neg (by omega), if_neg (by omega), if_neg (by omega),
          if_pos (by omega)]
        have he : (240 + c / 262144 - 240) * 262144 + (128 + c / 4096 % 64 - 128) * 4096 +
            (128 + c / 64 % 64 - 128) * 64 + (128 + c % 64 - 128) = c := by omega
        rw [he]
        rw [if_pos ⟨by simp [isCont]; omega, by simp [isCont]; omega, by simp [isCont]; omega,
          by omega, by omega⟩]

theorem utf8Decode_encChar (c : Nat) (hv : ValidScalar c) (bs : Bytes) :
    utf8Decode (utf8EncodeChar c ++ bs) = (utf8Decode bs).map (fun s => c :: s) := by
  have hne := utf8EncodeChar_ne_nil c
  cases he : utf8EncodeChar c with
  | nil => exact absurd he hne
  | cons b t =>
    have hone : utf8DecodeOne (b :: (t ++ bs)) = some (c, bs) := by
      have := utf8DecodeOne_encChar c hv bs
      rwa [he, List.cons_append] at this
    have hlen := utf8DecodeOne_length (b :: (t ++ bs)) c bs (by rw [hone])
    rw [List.cons_append]
    show utf8DecodeF (b :: (t ++ bs)).length (b :: (t ++ bs)) = _
    have hsucc : (b :: (t ++ bs)).length = (t ++ bs).length + 1 := by simp
    rw [hsucc]
    simp only [utf8DecodeF, hone]
    rw [utf8DecodeF_irrel _ bs bs.length (by simp [List.length_append]) (le_refl _)]
    rfl

theorem utf8Decode_utf8Encode (s : Str) (h : ValidStr s) :
    utf8Decode (utf8Encode s) = some s := by
  induction s with
  | nil => simp [utf8Encode, utf8Decode, utf8DecodeF]
  | cons c cs ih =>
    have hc : ValidScalar c := h c (List.mem_cons_self c cs)
    have hcs : ValidStr cs := fun x hx => h x (List.mem_cons_of_mem c hx)
    show utf8Decode (utf8EncodeChar c ++ utf8Encode cs) = _
    rw [utf8Decode_encChar c hc, ih hcs]
    rfl

theorem utf8Encode_append (a b : Str) :
    utf8Encode (a ++ b) = utf8Encode a ++ utf8Encode b := by
  unfold utf8Encode
  rw [List.flatMap_append]

theorem utf8Encode_semi_iff (s : Str) : semi ∈ utf8Encode s ↔ semi ∈ s := by
  unfold utf8Encode
  constructor
  · intro hb
    rw [List.mem_flatMap] at hb
    obtain ⟨c, hcs, hc⟩ := hb
    rw [utf8EncodeChar_semi_iff] at hc
    exact hc ▸ hcs
  · intro hs
    rw [List.mem_flatMap]
    exact ⟨semi, hs, by rw [utf8EncodeChar_semi_iff]⟩

theorem utf8Encode_bytes_lt (s : Str) (h : ValidStr s) : ValidBytes (utf8Encode s) := by
  intro b hb
  unfold utf8Encode at hb
  rw [List.mem_flatMap] at hb
  obtain ⟨c, hcs, hc⟩ := hb
  exact utf8EncodeChar_bytes_lt c (h c hcs).1 b hc

/-- Whether a byte string contains a semicolon (decides the has_semicolons
flag handed to the deserializer for each record). -/
def hasSemi (r : Bytes) : Bool := decide (semi ∈ r)

/-- Byte-at-a-time scanner state machine: pend records that the previous
byte was a semicolon whose role (escape or separator) is undecided. -/
def scanRecs : Bytes → Bytes → Bool → Bool → List (Bytes × Bool)
  | [], cur, flag, pend =>
    if pend then [(cur.reverse, flag), ([], false)] else [(cur.reverse, flag)]
  | b :: rest, cur, flag, pend =>
    if pend then
      if b = semi then scanRecs rest (semi :: semi :: cur) true false
      else (cur.reverse, flag) :: scanRecs rest [b] false false
    else
      if b = semi then scanRecs rest cur flag true
      else scanRecs rest (b :: cur) flag false

/-- Modelled from the spec: parse_ftc (transfer kitten, not in the given
sources) is a single pass over key=value pairs separated by semicolons,
where a doubled semicolon inside a value denotes an escaped semicolon.  The
record content keeps doubled semicolons verbatim and carries a flag telling
whether any were seen. -/
def splitRecs (bs cur : Bytes) (flag : Bool) : List (Bytes × Bool) :=
  scanRecs bs cur flag false

/-- Escape-soundness of a byte string: every semicolon occurs as part of a
doubled pair, so the scanner never splits inside it. -/
inductive EscOkB : Bytes → Prop
  | nil : EscOkB []
  | esc {r : Bytes} : EscOkB r → EscOkB (semi :: semi :: r)
  | chr {b : Nat} {r : Bytes} : b ≠ semi → EscOkB r → EscOkB (b :: r)

theorem escOkB_append {a b : Bytes} (ha : EscOkB a) (hb : EscOkB b) : EscOkB (a ++ b) := by
  induction ha with
  | nil => exact hb
  | esc _ ih => exact EscOkB.esc ih
  | chr hne _ ih => exact EscOkB.chr hne ih

theorem escOkB_of_noSemi {r : Bytes} (h : semi ∉ r) : EscOkB r := by
  induction r with
  | nil => exact EscOkB.nil
  | cons b t ih =>
    exact EscOkB.chr (fun he => h (he ▸ List.mem_cons_self b t))
      (ih (fun hm => h (List.mem_cons_of_mem b hm)))

theorem splitRecs_nil (cur : Bytes) (flag : Bool) :
    splitRecs [] cur flag = [(cur.reverse, flag)] := by
  simp [splitRecs, scanRecs]

theorem splitRecs_esc (rest2 cur : Bytes) (flag : Bool) :
    splitRecs (semi :: semi :: rest2) cur flag = splitRecs rest2 (semi :: semi :: cur) true := by
  simp [splitRecs, scanRecs]

theorem splitRecs_chr {b : Nat} (hb : b ≠ semi) (rest cur : Bytes) (flag : Bool) :
    splitRecs (b :: rest) cur flag = splitRecs rest (b :: cur) flag := by
  simp [splitRecs, scanRecs, hb]

theorem splitRecs_split {b2 : Nat} (hb2 : b2 ≠ semi) (rest2 cur : Bytes) (flag : Bool) :
    splitRecs (semi :: b2 :: rest2) cur flag =
      (cur.reverse, flag) :: splitRecs (b2 :: rest2) [] false := by
  simp [splitRecs, scanRecs, hb2]

theorem splitRecs_sep {r : Bytes} (h : EscOkB r) :
    ∀ rest cur flag, rest ≠ [] → rest.head? ≠ some semi →
      splitRecs (r ++ semi :: rest) cur flag =
        ((cur.reverse ++ r), flag || hasSemi r) :: splitRecs rest [] false := by
  induction h with
  | nil =>
    intro rest cur flag hne hhd
    cases rest with
    | nil => exact absurd rfl hne
    | cons b2 rest2 =>
      have hb2 : b2 ≠ semi := fun he => hhd (by simp [he])
      rw [List.nil_append, splitRecs_split hb2]
      simp [hasSemi]
  | esc hr ih =>
    intro rest cur flag hne hhd
    rename_i r0
    show splitRecs (semi :: semi :: (r0 ++ semi :: rest)) cur flag = _
    rw [splitRecs_esc]
    rw [ih rest (semi :: semi :: cur) true hne hhd]
    simp [hasSemi, List.reverse_cons]
  | chr hne1 hr ih =>
    intro rest cur flag hne hhd
    rename_i b r0
    show splitRecs (b :: (r0 ++ semi :: rest)) cur flag = _
    rw [splitRecs_chr hne1]
    rw [ih rest (b :: cur) flag hne hhd]
    have hsm : hasSemi (b :: r0) = hasSemi r0 := by
      simp [hasSemi, List.mem_cons, Ne.symm hne1]
    rw [hsm]
    simp

theorem splitRecs_last {r : Bytes} (h : EscOkB r) :
    ∀ cur flag, splitRecs r cur flag = [((cur.reverse ++ r), flag || hasSemi r)] := by
  induction h with
  | nil =>
    intro cur flag
    simp [splitRecs, scanRecs, hasSemi]
  | esc hr ih =>
    intro cur flag
    rename_i r0
    show splitRecs (semi :: semi :: r0) cur flag = _
    rw [splitRecs_esc]
    rw [ih (semi :: semi :: cur) true]
    simp [hasSemi, List.reverse_cons]
  | chr hne1 hr ih =>
    intro cur flag
    rename_i b r0
    show splitRecs (b :: r0) cur flag = _
    rw [splitRecs_chr hne1]
    rw [ih (b :: cur) flag]
    have hsm : hasSemi (b :: r0) = hasSemi r0 := by
      simp [hasSemi, List.mem_cons, Ne.symm hne1]
    rw [hsm]
    simp

/-- Well-formed wire record: scanner-safe, nonempty, not starting with a
semicolon. -/
def GoodRec (r : Bytes) : Prop := EscOkB r ∧ r ≠ [] ∧ r.head? ≠ some semi

/-- Join records with single semicolons (the found-flag logic of
get_serialized_fields). -/
def joinSemi : List Bytes → Bytes
  | [] => []
  | [r] => r
  | r :: rest => r ++ semi :: joinSemi rest

theorem joinSemi_head (r : Bytes) (rest : List Bytes) (hne : rest ≠ []) :
    joinSemi (r :: rest) = r ++ semi :: joinSemi rest := by
  cases rest with
  | nil => exact absurd rfl hne
  | cons a t => rfl

theorem splitRecs_joinSemi (rs : List Bytes) (hne : rs ≠ []) (h : ∀ r ∈ rs, GoodRec r) :
    splitRecs (joinSemi rs) [] false = rs.map (fun r => (r, hasSemi r)) := by
  induction rs with
  | nil => exact absurd rfl hne
  | cons r rest ih =>
    obtain ⟨hesc, hrne, hrhd⟩ := h r (List.mem_cons_self r rest)
    cases rest with
    | nil =>
      show splitRecs (joinSemi [r]) [] false = _
      have hj : joinSemi [r] = r := rfl
      rw [hj, splitRecs_last hesc]
      simp
    | cons r2 rest2 =>
      obtain ⟨h2esc, h2ne, h2hd⟩ := h r2 (by simp)
      rw [joinSemi_head r (r2 :: rest2) (by simp)]
      have hjne : joinSemi (r2 :: rest2) ≠ [] := by
        cases rest2 with
        | nil => exact h2ne
        | cons a t =>
          rw [joinSemi_head r2 (a :: t) (by simp)]
          intro hx
          exact h2ne (List.append_eq_nil.mp hx).1
      have hjhd : (joinSemi (r2 :: rest2)).head? ≠ some semi := by
        cases rest2 with
        | nil => exact h2hd
        | cons a t =>
          rw [joinSemi_head r2 (a :: t) (by simp)]
          cases r2 with
          | nil => exact absurd rfl h2ne
          | cons x xs =>
            simpa using h2hd
      rw [splitRecs_sep hesc _ [] false hjne hjhd]
      rw [ih (by simp) (fun x hx => h x (List.mem_cons_of_mem r hx))]
      simp

/-- ASCII/Unicode code points of a literal. -/
def strLit (s : String) : List Nat := s.toList.map Char.toNat

/-- Source: class Action, file_transmission.py line 168. -/
inductive Action
  | send
  | file
  | data
  | end_data
  | receive
  | invalid
  | cancel
  | status
  | finish
deriving DecidableEq

/-- The Python enum member name of an Action. -/
def Action.pyName : Action → Str
  | .send => strLit ("send")
  | .file => strLit ("file")
  | .data => strLit ("data")
  | .end_data => strLit ("end_data")
  | .receive => strLit ("receive")
  | .invalid => strLit ("invalid")
  | .cancel => strLit ("cancel")
  | .status => strLit ("status")
  | .finish => strLit ("finish")

/-- Python Enum lookup by member name (raising KeyError modelled as none). -/
def Action.ofName (s : Str) : Option Action :=
  if s = strLit ("send") then some .send
  else if s = strLit ("file") then some .file
  else if s = strLit ("data") then some .data
  else if s = strLit ("end_data") then some .end_data
  else if s = strLit ("receive") then some .receive
  else if s = strLit ("invalid") then some .invalid
  else if s = strLit ("cancel") then some .cancel
  else if s = strLit ("status") then some .status
  else if s = strLit ("finish") then some .finish
  else none

/-- Source: class Compression, file_transmission.py line 180. -/
inductive Compression
  | zlib
  | none
deriving DecidableEq

def Compression.pyName : Compression → Str
  | .zlib => strLit ("zlib")
  | .none => strLit ("none")

def Compression.ofName (s : Str) : Option Compression :=
  if s = strLit ("zlib") then some .zlib
  else if s = strLit ("none") then some .none
  else Option.none

/-- Source: class FileType, file_transmission.py line 185. -/
inductive FileType
  | regular
  | directory
  | symlink
  | link
deriving DecidableEq

def FileType.pyName : FileType → Str
  | .regular => strLit ("regular")
  | .directory => strLit ("directory")
  | .symlink => strLit ("symlink")
  | .link => strLit ("link")

def FileType.ofName (s : Str) : Option FileType :=
  if s = strLit ("regular") then some .regular
  else if s = strLit ("directory") then some .directory
  else if s = strLit ("symlink") then some .symlink
  else if s = strLit ("link") then some .link
  else none

/-- Source: class TransmissionType, file_transmission.py line 200. -/
inductive TransmissionType
  | simple
  | rsync
deriving DecidableEq

def TransmissionType.pyName : TransmissionType → Str
  | .simple => strLit ("simple")
  | .rsync => strLit ("rsync")

def TransmissionType.ofName (s : Str) : Option TransmissionType :=
  if s = strLit ("simple") then some .simple
  else if s = strLit ("rsync") then some .rsync
  else none

/-- Source: dataclass FileTransmissionCommand, file_transmission.py line 253,
with the field defaults of the source. -/
structure FileTransmissionCommand where
  action : Action := .invalid
  compression : Compression := .none
  ftype : FileType := .regular
  ttype : TransmissionType := .simple
  id : Str := []
  file_id : Str := []
  bypass : Str := []
  quiet : Int := 0
  mtime : Int := -1
  permissions : Int := -1
  size : Int := -1
  name : Str := []
  status : Str := []
  parent : Str := []
  data : Bytes := []
deriving DecidableEq

abbrev FTC := FileTransmissionCommand

/-- Wire encoding of an escaped string field: sanitize control codes, double
semicolons, encode as UTF-8 (file_transmission.py line 319). -/
def encPlainStr (v : Str) : Bytes := utf8Encode (escape_semicolons (sanitize_control_codes v))

/-- Wire encoding of a base64 string field (file_transmission.py line 317). -/
def encB64Str (v : Str) : Bytes := standard_b64encode (utf8Encode v)

/-- Modelled from the spec: FILE_TRANSFER_CODE is the reserved numeric OSC
prefix, imported from outside the given sources; its exact value does not
matter to any claim. -/
def FILE_TRANSFER_CODE : Nat := 5113

/-- The string form of the OSC prefix (oscHeader, line 37). -/
def oscHeader : Bytes := decimalNat FILE_TRANSFER_CODE

/-- Source: FileTransmissionCommand.get_serialized_fields (lines 293-323):
one key=value record per field differing from its default, in declaration
order; enums by name, bytes and base64 strings in base64, escaped strings
sanitized then semicolon-doubled, integers in decimal. -/
def FileTransmissionCommand.serializedFields (c : FTC) : List Bytes :=
  (if c.action = .invalid then [] else [strLit ("ac") ++ 61 :: utf8Encode c.action.pyName]) ++
  (if c.compression = .none then [] else
    [strLit ("zip") ++ 61 :: utf8Encode c.compression.pyName]) ++
  (if c.ftype = .regular then [] else [strLit ("ft") ++ 61 :: utf8Encode c.ftype.pyName]) ++
  (if c.ttype = .simple then [] else [strLit ("tt") ++ 61 :: utf8Encode c.ttype.pyName]) ++
  (if c.id = [] then [] else [strLit ("id") ++ 61 :: encPlainStr c.id]) ++
  (if c.file_id = [] then [] else [strLit ("fid") ++ 61 :: encPlainStr c.file_id]) ++
  (if c.bypass = [] then [] else [strLit ("pw") ++ 61 :: encB64Str c.bypass]) ++
  (if c.quiet = 0 then [] else [strLit ("q") ++ 61 :: decimalInt c.quiet]) ++
  (if c.mtime = -1 then [] else [strLit ("mod") ++ 61 :: decimalInt c.mtime]) ++
  (if c.permissions = -1 then [] else [strLit ("prm") ++ 61 :: decimalInt c.permissions]) ++
  (if c.size = -1 then [] else [strLit ("sz") ++ 61 :: decimalInt c.size]) ++
  (if c.name = [] then [] else [strLit ("n") ++ 61 :: encB64Str c.name]) ++
  (if c.status = [] then [] else [strLit ("st") ++ 61 :: encB64Str c.status]) ++
  (if c.parent = [] then [] else [strLit ("pr") ++ 61 :: encPlainStr c.parent]) ++
  (if c.data = [] then [] else [strLit ("d") ++ 61 :: standard_b64encode c.data])

/-- Source: FileTransmissionCommand.serialize (line 325): join the serialized
fields (with the optional OSC prefix first) with semicolons. -/
def FileTransmissionCommand.serialize (c : FTC) (withOsc : Bool) : Bytes :=
  joinSemi ((if withOsc then [oscHeader] else []) ++ c.serializedFields)

/-- Split a record at its first equals sign into key and value. -/
def splitKeyVal (r : Bytes) : Option (Bytes × Bytes) :=
  let k := r.takeWhile (fun b => !(b == 61))
  if k.length = r.length then none
  else some (k, r.drop (k.length + 1))

/-- Decode an escaped string value (deserialize, lines 348-351): UTF-8
decode, undo semicolon doubling when the record carried semicolons, then
sanitize control codes. -/
def decodePlainStr (val : Bytes) (has_semicolons : Bool) : Option Str := do
  let sval ← utf8Decode val
  let sval := if has_semicolons then unescape_semicolons sval else sval
  some (sanitize_control_codes sval)

/-- Decode a base64 string value (deserialize, lines 345-346, 351). -/
def decodeB64Str (val : Bytes) : Option Str := do
  let b ← standard_b64decode val
  let s ← utf8Decode b
  some (sanitize_control_codes s)

/-- Source: the handle_item closure of deserialize (lines 334-351): look the
key up in the serialized-name map (unknown keys ignored), decode the value
according to the field type, assign. -/
def handle_item (ans : FTC) (key val : Bytes) (has_semicolons : Bool) : Option FTC :=
  if key = strLit ("ac") then do
    let s ← utf8Decode val
    let a ← Action.ofName s
    some { ans with action := a }
  else if key = strLit ("zip") then do
    let s ← utf8Decode val
    let a ← Compression.ofName s
    some { ans with compression := a }
  else if key = strLit ("ft") then do
    let s ← utf8Decode val
    let a ← FileType.ofName s
    some { ans with ftype := a }
  else if key = strLit ("tt") then do
    let s ← utf8Decode val
    let a ← TransmissionType.ofName s
    some { ans with ttype := a }
  else if key = strLit ("id") then
    (decodePlainStr val has_semicolons).map (fun s => { ans with id := s })
  else if key = strLit ("fid") then
    (decodePlainStr val has_semicolons).map (fun s => { ans with file_id := s })
  else if key = strLit ("pw") then
    (decodeB64Str val).map (fun s => { ans with bypass := s })
  else if key = strLit ("q") then
    (parsePyInt val).map (fun n => { ans with quiet := n })
  else if key = strLit ("mod") then
    (parsePyInt val).map (fun n => { ans with mtime := n })
  else if key = strLit ("prm") then
    (parsePyInt val).map (fun n => { ans with permissions := n })
  else if key = strLit ("sz") then
    (parsePyInt val).map (fun n => { ans with size := n })
  else if key = strLit ("n") then
    (decodeB64Str val).map (fun s => { ans with name := s })
  else if key = strLit ("st") then
    (decodeB64Str val).map (fun s => { ans with status := s })
  else if key = strLit ("pr") then
    (decodePlainStr val has_semicolons).map (fun s => { ans with parent := s })
  else if key = strLit ("d") then
    (standard_b64decode val).map (fun b => { ans with data := b })
  else some ans

/-- Process one scanned record: split at the first equals sign (records
without one carry no known key and are ignored) and apply handle_item. -/
def procRec (ans : FTC) (rec : Bytes × Bool) : Option FTC :=
  match splitKeyVal rec.1 with
  | Option.none => some ans
  | Option.some kv => handle_item ans kv.1 kv.2 rec.2

/-- Source: FileTransmissionCommand.deserialize (lines 328-357): parse the
records, fold handle_item over them starting from a default command, and
reject the result when no valid action was specified. -/
def FileTransmissionCommand.deserialize (data : Bytes) : Option FTC := do
  let ans ← (splitRecs data [] false).foldlM procRec {}
  if ans.action = Action.invalid then Option.none else some ans

theorem takeWhile_key (k v : Bytes) (hk : (61 : Nat) ∉ k) :
    (k ++ 61 :: v).takeWhile (fun b => !(b == 61)) = k := by
  induction k with
  | nil => simp
  | cons a t ih =>
    have ha : a ≠ 61 := fun he => hk (by simp [he])
    have ht : (61 : Nat) ∉ t := fun hm => hk (by simp [hm])
    simp [List.takeWhile_cons, ha, ih ht]

theorem splitKeyVal_append (k v : Bytes) (hk : (61 : Nat) ∉ k) :
    splitKeyVal (k ++ 61 :: v) = some (k, v) := by
  unfold splitKeyVal
  rw [takeWhile_key k v hk]
  have hlen : k.length ≠ (k ++ 61 :: v).length := by
    simp [List.length_append]
  rw [if_neg hlen]
  have hdrop : (k ++ 61 :: v).drop (k.length + 1) = v := by
    have h1 : k ++ 61 :: v = (k ++ [61]) ++ v := by simp
    have h2 : (k ++ [61]).length = k.length + 1 := by simp
    rw [h1, ← h2, List.drop_left]
  rw [hdrop]

theorem hasSemi_record (k v : Bytes) (hk : semi ∉ k) :
    hasSemi (k ++ 61 :: v) = hasSemi v := by
  have hk2 : (59 : Nat) ∉ k := by simpa [semi] using hk
  simp [hasSemi, List.mem_append, List.mem_cons, hk2, semi]

theorem escape_semi_mem (s : Str) : semi ∈ escape_semicolons s ↔ semi ∈ s := by
  unfold escape_semicolons
  rw [List.mem_flatMap]
  constructor
  · rintro ⟨c, hc, hm⟩
    by_cases h : c = semi
    · exact h ▸ hc
    · simp [h] at hm
      exact hm ▸ hc
  · intro hs
    exact ⟨semi, hs, by simp⟩

theorem escape_valid (s : Str) (h : ValidStr s) : ValidStr (escape_semicolons s) := by
  intro x hx
  unfold escape_semicolons at hx
  rw [List.mem_flatMap] at hx
  obtain ⟨c, hc, hm⟩ := hx
  by_cases he : c = semi
  · subst he
    simp at hm
    subst hm
    exact ⟨by norm_num [semi], by norm_num [semi]⟩
  · simp [he] at hm
    exact hm ▸ h c hc

theorem escOkB_encPlainB (t : Str) : EscOkB (utf8Encode (escape_semicolons t)) := by
  induction t with
  | nil => exact EscOkB.nil
  | cons c cs ih =>
    have hstep : escape_semicolons (c :: cs) =
        (if c = semi then [semi, semi] else [c]) ++ escape_semicolons cs := by
      simp [escape_semicolons, List.flatMap_cons]
    rw [hstep, utf8Encode_append]
    by_cases hc : c = semi
    · subst hc
      rw [if_pos rfl]
      have : utf8Encode [semi, semi] = semi :: semi :: [] := by decide
      rw [this]
      exact EscOkB.esc ih
    · rw [if_neg hc]
      have hns : semi ∉ utf8Encode [c] := by
        intro hm
        rw [utf8Encode_semi_iff] at hm
        simp at hm
        exact hc hm.symm
      exact escOkB_append (escOkB_of_noSemi hns) ih

theorem decimalNat_no_semi (n : Nat) : semi ∉ decimalNat n := by
  intro hm
  have := decimalNat_head_digit n semi hm
  simp [semi] at this

theorem decimalInt_no_semi (n : Int) : semi ∉ decimalInt n := by
  unfold decimalInt
  split_ifs
  · intro hm
    rcases List.mem_cons.mp hm with h1 | h1
    · norm_num [semi] at h1
    · exact decimalNat_no_semi _ h1
  · exact decimalNat_no_semi _

theorem b64char_ne_semi : ∀ k, k < 64 → b64char k ≠ semi := by decide

theorem b64encode_chars (bs : Bytes) (h : ValidBytes bs) :
    ∀ x ∈ standard_b64encode bs, (∃ k, k < 64 ∧ x = b64char k) ∨ x = 61 := by
  intro x hx
  induction bs using standard_b64encode.induct with
  | case1 => simp [standard_b64encode] at hx
  | case2 a =>
    have ha : a < 256 := h a (by simp)
    simp only [standard_b64encode, List.mem_cons, List.not_mem_nil, or_false] at hx
    rcases hx with h1 | h1 | h1 | h1
    · exact Or.inl ⟨a / 4, by omega, h1⟩
    · exact Or.inl ⟨a % 4 * 16, by omega, h1⟩
    · exact Or.inr h1
    · exact Or.inr h1
  | case3 a b =>
    have ha : a < 256 := h a (by simp)
    have hb : b < 256 := h b (by simp)
    simp only [standard_b64encode, List.mem_cons, List.not_mem_nil, or_false] at hx
    rcases hx with h1 | h1 | h1 | h1
    · exact Or.inl ⟨a / 4, by omega, h1⟩
    · exact Or.inl ⟨a % 4 * 16 + b / 16, by omega, h1⟩
    · exact Or.inl ⟨b % 16 * 4, by omega, h1⟩
    · exact Or.inr h1
  | case4 a b c rest ih =>
    have ha : a < 256 := h a (by simp)
    have hb : b < 256 := h b (by simp)
    have hc : c < 256 := h c (by simp)
    have hrest : ValidBytes rest := fun y hy => h y (by simp [hy])
    simp only [standard_b64encode, List.mem_cons] at hx
    rcases hx with h1 | h1 | h1 | h1 | h1
    · exact Or.inl ⟨a / 4, by omega, h1⟩
    · exact Or.inl ⟨a % 4 * 16 + b / 16, by omega, h1⟩
    · exact Or.inl ⟨b % 16 * 4 + c / 64, by omega, h1⟩
    · exact Or.inl ⟨c % 64, by omega, h1⟩
    · exact ih hrest h1

theorem b64encode_no_semi (bs : Bytes) (h : ValidBytes bs) : semi ∉ standard_b64encode bs := by
  intro hm
  rcases b64encode_chars bs h semi hm with ⟨k, hk, he⟩ | he
  · exact b64char_ne_semi k hk he.symm
  · norm_num [semi] at he

theorem goodRec_record (k enc : Bytes) (hk : semi ∉ k) (hkne : k ≠ [])
    (hhd : k.head? ≠ some semi) (henc : EscOkB enc) : GoodRec (k ++ 61 :: enc) := by
  refine ⟨?_, ?_, ?_⟩
  · have h61 : (61 : Nat) ≠ semi := by norm_num [semi]
    exact escOkB_append (escOkB_of_noSemi hk) (EscOkB.chr h61 henc)
  · simp [hkne]
  · cases k with
    | nil => exact absurd rfl hkne
    | cons a t => simpa using hhd

theorem hasSemi_utf8 (x : Str) : hasSemi (utf8Encode x) = hasSemi x := by
  simp [hasSemi, utf8Encode_semi_iff]

theorem decodePlainStr_round (s : Str) (hv : ValidStr s) (hnc : NoStrippedControls s) :
    decodePlainStr (encPlainStr s) (hasSemi (encPlainStr s)) = some s := by
  unfold decodePlainStr encPlainStr
  rw [sanitize_of_noControls s hnc]
  rw [utf8Decode_utf8Encode _ (escape_valid s hv)]
  simp only [Option.bind_eq_bind, Option.some_bind]
  by_cases hsm : semi ∈ s
  · have hflag : hasSemi (utf8Encode (escape_semicolons s)) = true := by
      rw [hasSemi_utf8]
      simp [hasSemi, escape_semi_mem, hsm]
    rw [hflag]
    simp only [if_true]
    rw [unescape_escape, sanitize_of_noControls s hnc]
  · have hflag : hasSemi (utf8Encode (escape_semicolons s)) = false := by
      rw [hasSemi_utf8]
      simp [hasSemi, escape_semi_mem, hsm]
    rw [hflag]
    simp only [Bool.false_eq_true, if_false]
    rw [escape_of_noSemi s hsm, sanitize_of_noControls s hnc]

theorem decodeB64Str_round (s : Str) (hv : ValidStr s) (hnc : NoStrippedControls s) :
    decodeB64Str (encB64Str s) = some s := by
  unfold decodeB64Str encB64Str
  rw [b64decode_b64encode _ (utf8Encode_bytes_lt s hv)]
  simp only [Option.bind_eq_bind, Option.some_bind]
  rw [utf8Decode_utf8Encode s hv]
  simp only [Option.some_bind, Option.bind_eq_bind]
  rw [sanitize_of_noControls s hnc]

theorem procRec_ac (acc : FTC) (a : Action) (f : Bool) :
    procRec acc (strLit ("ac") ++ 61 :: utf8Encode a.pyName, f) = some { acc with action := a } := by
  simp only [procRec]
  rw [splitKeyVal_append _ _ (by decide)]
  show handle_item acc (strLit ("ac")) (utf8Encode a.pyName) f = _
  unfold handle_item
  rw [if_pos rfl]
  cases a <;> rfl

theorem procRec_zip (acc : FTC) (a : Compression) (f : Bool) :
    procRec acc (strLit ("zip") ++ 61 :: utf8Encode a.pyName, f) = some { acc with compression := a } := by
  simp only [procRec]
  rw [splitKeyVal_append _ _ (by decide)]
  show handle_item acc (strLit ("zip")) (utf8Encode a.pyName) f = _
  unfold handle_item
  rw [if_neg (by decide)]
  rw [if_pos rfl]
  cases a <;> rfl

theorem procRec_ft (acc : FTC) (a : FileType) (f : Bool) :
    procRec acc (strLit ("ft") ++ 61 :: utf8Encode a.pyName, f) = some { acc with ftype := a } := by
  simp only [procRec]
  rw [splitKeyVal_append _ _ (by decide)]
  show handle_item acc (strLit ("ft")) (utf8Encode a.pyName) f = _
  unfold handle_item
  rw [if_neg (by decide)]
  rw [if_neg (by decide)]
  rw [if_pos rfl]
  cases a <;> rfl

theorem procRec_tt (acc : FTC) (a : TransmissionType) (f : Bool) :
    procRec acc (strLit ("tt") ++ 61 :: utf8Encode a.pyName, f) = some { acc with ttype := a } := by
  simp only [procRec]
  rw [splitKeyVal_append _ _ (by decide)]
  show handle_item acc (strLit ("tt")) (utf8Encode a.pyName) f = _
  unfold handle_item
  rw [if_neg (by decide)]
  rw [if_neg (by decide)]
  rw [if_neg (by decide)]
  rw [if_pos rfl]
  cases a <;> rfl

theorem procRec_id (acc : FTC) (s : Str) (hv : ValidStr s) (hnc : NoStrippedControls s) :
    procRec acc (strLit ("id") ++ 61 :: encPlainStr s,
      hasSemi (strLit ("id") ++ 61 :: encPlainStr s)) = some { acc with id := s } := by
  simp only [procRec]
  rw [splitKeyVal_append _ _ (by decide)]
  show handle_item acc (strLit ("id")) (encPlainStr s)
    (hasSemi (strLit ("id") ++ 61 :: encPlainStr s)) = _
  rw [hasSemi_record _ _ (by decide)]
  unfold handle_item
  rw [if_neg (by decide)]
  rw [if_neg (by decide)]
  rw [if_neg (by decide)]
  rw [if_neg (by decide)]
  rw [if_pos rfl]
  rw [decodePlainStr_round s hv hnc]
  rfl

theorem procRec_fid (acc : FTC) (s : Str) (hv : ValidStr s) (hnc : NoStrippedControls s) :
    procRec acc (strLit ("fid") ++ 61 :: encPlainStr s,
      hasSemi (strLit ("fid") ++ 61 :: encPlainStr s)) = some { acc with file_id := s } := by
  simp only [procRec]
  rw [splitKeyVal_append _ _ (by decide)]
  show handle_item acc (strLit ("fid")) (encPlainStr s)
    (hasSemi (strLit ("fid") ++ 61 :: encPlainStr s)) = _
  rw [hasSemi_record _ _ (by decide)]
  unfold handle_item
  rw [if_neg (by decide)]
  rw [if_neg (by decide)]
  rw [if_neg (by decide)]
  rw [if_neg (by decide)]
  rw [if_neg (by decide)]
  rw [if_pos rfl]
  rw [decodePlainStr_round s hv hnc]
  rfl

theorem procRec_pw (acc : FTC) (s : Str) (hv : ValidStr s) (hnc : NoStrippedControls s)
    (f : Bool) :
    procRec acc (strLit ("pw") ++ 61 :: encB64Str s, f) = some { acc with bypass := s } := by
  simp only [procRec]
  rw [splitKeyVal_append _ _ (by decide)]
  show handle_item acc (strLit ("pw")) (encB64Str s) f = _
  unfold handle_item
  rw [if_neg (by decide)]
  rw [if_neg (by decide)]
  rw [if_neg (by decide)]
  rw [if_neg (by decide)]
  rw [if_neg (by decide)]
  rw [if_neg (by decide)]
  rw [if_pos rfl]
  rw [decodeB64Str_round s hv hnc]
  rfl

theorem procRec_q (acc : FTC) (n : Int) (f : Bool) :
    procRec acc (strLit ("q") ++ 61 :: decimalInt n, f) = some { acc with quiet := n } := by
  simp only [procRec]
  rw [splitKeyVal_append _ _ (by decide)]
  show handle_item acc (strLit ("q")) (decimalInt n) f = _
  unfold handle_item
  rw [if_neg (by decide)]
  rw [if_neg (by decide)]
  rw [if_neg (by decide)]
  rw [if_neg (by decide)]
  rw [if_neg (by decide)]
  rw [if_neg (by decide)]
  rw [if_neg (by decide)]
  rw [if_pos rfl]
  rw [parsePyInt_decimalInt n]
  rfl

theorem procRec_mod (acc : FTC) (n : Int) (f : Bool) :
    procRec acc (strLit ("mod") ++ 61 :: decimalInt n, f) = some { acc with mtime := n } := by
  simp only [procRec]
  rw [splitKeyVal_append _ _ (by decide)]
  show handle_item acc (strLit ("mod")) (decimalInt n) f = _
  unfold handle_item
  rw [if_neg (by decide)]
  rw [if_neg (by decide)]
  rw [if_neg (by decide)]
  rw [if_neg (by decide)]
  rw [if_neg (by decide)]
  rw [if_neg (by decide)]
  rw [if_neg (by decide)]
  rw [if_neg (by decide)]
  rw [if_pos rfl]
  rw [parsePyInt_decimalInt n]
  rfl

theorem procRec_prm (acc : FTC) (n : Int) (f : Bool) :
    procRec acc (strLit ("prm") ++ 61 :: decimalInt n, f) = some { acc with permissions := n } := by
  simp only [procRec]
  rw [splitKeyVal_append _ _ (by decide)]
  show handle_item acc (strLit ("prm")) (decimalInt n) f = _
  unfold handle_item
  rw [if_neg (by decide)]
  rw [if_neg (by decide)]
  rw [if_neg (by decide)]
  rw [if_neg (by decide)]
  rw [if_neg (by decide)]
  rw [if_neg (by decide)]
  rw [if_neg (by decide)]
  rw [if_neg (by decide)]
  rw [if_neg (by decide)]
  rw [if_pos rfl]
  rw [parsePyInt_decimalInt n]
  rfl

theorem procRec_sz (acc : FTC) (n : Int) (f : Bool) :
    procRec acc (strLit ("sz") ++ 61 :: decimalInt n, f) = some { acc with size := n } := by
  simp only [procRec]
  rw [splitKeyVal_append _ _ (by decide)]
  show handle_item acc (strLit ("sz")) (decimalInt n) f = _
  unfold handle_item
  rw [if_neg (by decide)]
  rw [if_neg (by decide)]
  rw [if_neg (by decide)]
  rw [if_neg (by decide)]
  rw [if_neg (by decide)]
  rw [if_neg (by decide)]
  rw [if_neg (by decide)]
  rw [if_neg (by decide)]
  rw [if_neg (by decide)]
  rw [if_neg (by decide)]
  rw [if_pos rfl]
  rw [parsePyInt_decimalInt n]
  rfl

theorem procRec_n (acc : FTC) (s : Str) (hv : ValidStr s) (hnc : NoStrippedControls s)
    (f : Bool) :
    procRec acc (strLit ("n") ++ 61 :: encB64Str s, f) = some { acc with name := s } := by
  simp only [procRec]
  rw [splitKeyVal_append _ _ (by decide)]
  show handle_item acc (strLit ("n")) (encB64Str s) f = _
  unfold handle_item
  rw [if_neg (by decide)]
  rw [if_neg (by decide)]
  rw [if_neg (by decide)]
  rw [if_neg (by decide)]
  rw [if_neg (by decide)]
  rw [if_neg (by decide)]
  rw [if_neg (by decide)]
  rw [if_neg (by decide)]
  rw [if_neg (by decide)]
  rw [if_neg (by decide)]
  rw [if_neg (by decide)]
  rw [if_pos rfl]
  rw [decodeB64Str_round s hv hnc]
  rfl

theorem procRec_st (acc : FTC) (s : Str) (hv : ValidStr s) (hnc : NoStrippedControls s)
    (f : Bool) :
    procRec acc (strLit ("st") ++ 61 :: encB64Str s, f) = some { acc with status := s } := by
  simp only [procRec]
  rw [splitKeyVal_append _ _ (by decide)]
  show handle_item acc (strLit ("st")) (encB64Str s) f = _
  unfold handle_item
  rw [if_neg (by decide)]
  rw [if_neg (by decide)]
  rw [if_neg (by decide)]
  rw [if_neg (by decide)]
  rw [if_neg (by decide)]
  rw [if_neg (by decide)]
  rw [if_neg (by decide)]
  rw [if_neg (by decide)]
  rw [if_neg (by decide)]
  rw [if_neg (by decide)]
  rw [if_neg (by decide)]
  rw [if_neg (by decide)]
  rw [if_pos rfl]
  rw [decodeB64Str_round s hv hnc]
  rfl

theorem procRec_pr (acc : FTC) (s : Str) (hv : ValidStr s) (hnc : NoStrippedControls s) :
    procRec acc (strLit ("pr") ++ 61 :: encPlainStr s,
      hasSemi (strLit ("pr") ++ 61 :: encPlainStr s)) = some { acc with parent := s } := by
  simp only [procRec]
  rw [splitKeyVal_append _ _ (by decide)]
  show handle_item acc (strLit ("pr")) (encPlainStr s)
    (hasSemi (strLit ("pr") ++ 61 :: encPlainStr s)) = _
  rw [hasSemi_record _ _ (by decide)]
  unfold handle_item
  rw [if_neg (by decide)]
  rw [if_neg (by decide)]
  rw [if_neg (by decide)]
  rw [if_neg (by decide)]
  rw [if_neg (by decide)]
  rw [if_neg (by decide)]
  rw [if_neg (by decide)]
  rw [if_neg (by decide)]
  rw [if_neg (by decide)]
  rw [if_neg (by decide)]
  rw [if_neg (by decide)]
  rw [if_neg (by decide)]
  rw [if_neg (by decide)]
  rw [if_pos rfl]
  rw [decodePlainStr_round s hv hnc]
  rfl

theorem procRec_d (acc : FTC) (bs : Bytes) (hv : ValidBytes bs) (f : Bool) :
    procRec acc (strLit ("d") ++ 61 :: standard_b64encode bs, f) =
      some { acc with data := bs } := by
  simp only [procRec]
  rw [splitKeyVal_append _ _ (by decide)]
  show handle_item acc (strLit ("d")) (standard_b64encode bs) f = _
  unfold handle_item
  rw [if_neg (by decide)]
  rw [if_neg (by decide)]
  rw [if_neg (by decide)]
  rw [if_neg (by decide)]
  rw [if_neg (by decide)]
  rw [if_neg (by decide)]
  rw [if_neg (by decide)]
  rw [if_neg (by decide)]
  rw [if_neg (by decide)]
  rw [if_neg (by decide)]
  rw [if_neg (by decide)]
  rw [if_neg (by decide)]
  rw [if_neg (by decide)]
  rw [if_neg (by decide)]
  rw [if_pos rfl]
  rw [b64decode_b64encode bs hv]
  rfl

/-- Valid field values for the round-trip claim: a real action, well-formed
Unicode in the string fields with no sanitized-away control characters, and
in-range bytes in the data field. -/
def ValidCmd (c : FTC) : Prop :=
  c.action ≠ .invalid ∧
  ValidStr c.id ∧ NoStrippedControls c.id ∧
  ValidStr c.file_id ∧ NoStrippedControls c.file_id ∧
  ValidStr c.bypass ∧ NoStrippedControls c.bypass ∧
  ValidStr c.name ∧ NoStrippedControls c.name ∧
  ValidStr c.status ∧ NoStrippedControls c.status ∧
  ValidStr c.parent ∧ NoStrippedControls c.parent ∧
  ValidBytes c.data

instance (c : FTC) : Decidable (ValidCmd c) := by
  unfold ValidCmd; infer_instance

theorem action_pyName_no_semi (a : Action) : semi ∉ utf8Encode a.pyName := by
  cases a <;> decide

theorem compression_pyName_no_semi (a : Compression) : semi ∉ utf8Encode a.pyName := by
  cases a <;> decide

theorem ftype_pyName_no_semi (a : FileType) : semi ∉ utf8Encode a.pyName := by
  cases a <;> decide

theorem ttype_pyName_no_semi (a : TransmissionType) : semi ∉ utf8Encode a.pyName := by
  cases a <;> decide

theorem mem_ite_nil {p : Prop} [Decidable p] {r x : Bytes} (h : x ∈ if p then ([] : List Bytes) else [r]) :
    x = r := by
  split at h
  · simp at h
  · simpa using h

theorem serializedFields_good (c : FTC) (h : ValidCmd c) :
    ∀ r ∈ c.serializedFields, GoodRec r := by
  obtain ⟨hact, hidv, hidn, hfidv, hfidn, hpwv, hpwn, hnv, hnn, hstv, hstn, hprv, hprn, hd⟩ := h
  intro r hr
  unfold FileTransmissionCommand.serializedFields at hr
  simp only [List.mem_append] at hr
  rcases hr with ((((((((((((((h1 | h1) | h1) | h1) | h1) | h1) | h1) | h1) | h1) | h1) | h1) | h1) | h1) | h1) | h1)
  all_goals rw [mem_ite_nil h1]
  · exact goodRec_record _ _ (by decide) (by decide) (by decide)
      (escOkB_of_noSemi (action_pyName_no_semi _))
  · exact goodRec_record _ _ (by decide) (by decide) (by decide)
      (escOkB_of_noSemi (compression_pyName_no_semi _))
  · exact goodRec_record _ _ (by decide) (by decide) (by decide)
      (escOkB_of_noSemi (ftype_pyName_no_semi _))
  · exact goodRec_record _ _ (by decide) (by decide) (by decide)
      (escOkB_of_noSemi (ttype_pyName_no_semi _))
  · exact goodRec_record _ _ (by decide) (by decide) (by decide) (escOkB_encPlainB _)
  · exact goodRec_record _ _ (by decide) (by decide) (by decide) (escOkB_encPlainB _)
  · exact goodRec_record _ _ (by decide) (by decide) (by decide)
      (escOkB_of_noSemi (b64encode_no_semi _ (utf8Encode_bytes_lt _ hpwv)))
  · exact goodRec_record _ _ (by decide) (by decide) (by decide)
      (escOkB_of_noSemi (decimalInt_no_semi _))
  · exact goodRec_record _ _ (by decide) (by decide) (by decide)
      (escOkB_of_noSemi (decimalInt_no_semi _))
  · exact goodRec_record _ _ (by decide) (by decide) (by decide)
      (escOkB_of_noSemi (decimalInt_no_semi _))
  · exact goodRec_record _ _ (by decide) (by decide) (by decide)
      (escOkB_of_noSemi (decimalInt_no_semi _))
  · exact goodRec_record _ _ (by decide) (by decide) (by decide)
      (escOkB_of_noSemi (b64encode_no_semi _ (utf8Encode_bytes_lt _ hnv)))
  · exact goodRec_record _ _ (by decide) (by decide) (by decide)
      (escOkB_of_noSemi (b64encode_no_semi _ (utf8Encode_bytes_lt _ hstv)))
  · exact goodRec_record _ _ (by decide) (by decide) (by decide) (escOkB_encPlainB _)
  · exact goodRec_record _ _ (by decide) (by decide) (by decide)
      (escOkB_of_noSemi (b64encode_no_semi _ hd))

theorem serializedFields_ne_nil (c : FTC) (hact : c.action ≠ .invalid) :
    c.serializedFields ≠ [] := by
  unfold FileTransmissionCommand.serializedFields
  rw [if_neg hact]
  simp


theorem stage_ac (acc : FTC) (a : Action) (hacc : acc.action = Action.invalid) :
    List.foldlM procRec acc
      ((if a = Action.invalid then [] else [strLit ("ac") ++ 61 :: utf8Encode a.pyName]).map
        (fun r => (r, hasSemi r))) = some { acc with action := a } := by
  by_cases hc : a = Action.invalid
  · rw [if_pos hc]
    have hid : { acc with action := a } = acc := by
      rw [hc, ← hacc]
    rw [hid]
    simp
  · rw [if_neg hc]
    simp only [List.map_cons, List.map_nil, List.foldlM_cons]
    rw [procRec_ac acc a _]
    simp

theorem stage_zip (acc : FTC) (a : Compression) (hacc : acc.compression = Compression.none) :
    List.foldlM procRec acc
      ((if a = Compression.none then [] else [strLit ("zip") ++ 61 :: utf8Encode a.pyName]).map
        (fun r => (r, hasSemi r))) = some { acc with compression := a } := by
  by_cases hc : a = Compression.none
  · rw [if_pos hc]
    have hid : { acc with compression := a } = acc := by
      rw [hc, ← hacc]
    rw [hid]
    simp
  · rw [if_neg hc]
    simp only [List.map_cons, List.map_nil, List.foldlM_cons]
    rw [procRec_zip acc a _]
    simp

theorem stage_ft (acc : FTC) (a : FileType) (hacc : acc.ftype = FileType.regular) :
    List.foldlM procRec acc
      ((if a = FileType.regular then [] else [strLit ("ft") ++ 61 :: utf8Encode a.pyName]).map
        (fun r => (r, hasSemi r))) = some { acc with ftype := a } := by
  by_cases hc : a = FileType.regular
  · rw [if_pos hc]
    have hid : { acc with ftype := a } = acc := by
      rw [hc, ← hacc]
    rw [hid]
    simp
  · rw [if_neg hc]
    simp only [List.map_cons, List.map_nil, List.foldlM_cons]
    rw [procRec_ft acc a _]
    simp

theorem stage_tt (acc : FTC) (a : TransmissionType) (hacc : acc.ttype = TransmissionType.simple) :
    List.foldlM procRec acc
      ((if a = TransmissionType.simple then [] else [strLit ("tt") ++ 61 :: utf8Encode a.pyName]).map
        (fun r => (r, hasSemi r))) = some { acc with ttype := a } := by
  by_cases hc : a = TransmissionType.simple
  · rw [if_pos hc]
    have hid : { acc with ttype := a } = acc := by
      rw [hc, ← hacc]
    rw [hid]
    simp
  · rw [if_neg hc]
    simp only [List.map_cons, List.map_nil, List.foldlM_cons]
    rw [procRec_tt acc a _]
    simp

theorem stage_id (acc : FTC) (a : Str) (hv : ValidStr a) (hnc : NoStrippedControls a) (hacc : acc.id = []) :
    List.foldlM procRec acc
      ((if a = [] then [] else [strLit ("id") ++ 61 :: encPlainStr a]).map
        (fun r => (r, hasSemi r))) = some { acc with id := a } := by
  by_cases hc : a = []
  · rw [if_pos hc]
    have hid : { acc with id := a } = acc := by
      rw [hc, ← hacc]
    rw [hid]
    simp
  · rw [if_neg hc]
    simp only [List.map_cons, List.map_nil, List.foldlM_cons]
    rw [procRec_id acc a hv hnc]
    simp

theorem stage_fid (acc : FTC) (a : Str) (hv : ValidStr a) (hnc : NoStrippedControls a) (hacc : acc.file_id = []) :
    List.foldlM procRec acc
      ((if a = [] then [] else [strLit ("fid") ++ 61 :: encPlainStr a]).map
        (fun r => (r, hasSemi r))) = some { acc with file_id := a } := by
  by_cases hc : a = []
  · rw [if_pos hc]
    have hid : { acc with file_id := a } = acc := by
      rw [hc, ← hacc]
    rw [hid]
    simp
  · rw [if_neg hc]
    simp only [List.map_cons, List.map_nil, List.foldlM_cons]
    rw [procRec_fid acc a hv hnc]
    simp

theorem stage_pw (acc : FTC) (a : Str) (hv : ValidStr a) (hnc : NoStrippedControls a) (hacc : acc.bypass = []) :
    List.foldlM procRec acc
      ((if a = [] then [] else [strLit ("pw") ++ 61 :: encB64Str a]).map
        (fun r => (r, hasSemi r))) = some { acc with bypass := a } := by
  by_cases hc : a = []
  · rw [if_pos hc]
    have hid : { acc with bypass := a } = acc := by
      rw [hc, ← hacc]
    rw [hid]
    simp
  · rw [if_neg hc]
    simp only [List.map_cons, List.map_nil, List.foldlM_cons]
    rw [procRec_pw acc a hv hnc _]
    simp

theorem stage_q (acc : FTC) (a : Int) (hacc : acc.quiet = 0) :
    List.foldlM procRec acc
      ((if a = 0 then [] else [strLit ("q") ++ 61 :: decimalInt a]).map
        (fun r => (r, hasSemi r))) = some { acc with quiet := a } := by
  by_cases hc : a = 0
  · rw [if_pos hc]
    have hid : { acc with quiet := a } = acc := by
      rw [hc, ← hacc]
    rw [hid]
    simp
  · rw [if_neg hc]
    simp only [List.map_cons, List.map_nil, List.foldlM_cons]
    rw [procRec_q acc a _]
    simp

theorem stage_mod (acc : FTC) (a : Int) (hacc : acc.mtime = -1) :
    List.foldlM procRec acc
      ((if a = -1 then [] else [strLit ("mod") ++ 61 :: decimalInt a]).map
        (fun r => (r, hasSemi r))) = some { acc with mtime := a } := by
  by_cases hc : a = -1
  · rw [if_pos hc]
    have hid : { acc with mtime := a } = acc := by
      rw [hc, ← hacc]
    rw [hid]
    simp
  · rw [if_neg hc]
    simp only [List.map_cons, List.map_nil, List.foldlM_cons]
    rw [procRec_mod acc a _]
    simp

theorem stage_prm (acc : FTC) (a : Int) (hacc : acc.permissions = -1) :
    List.foldlM procRec acc
      ((if a = -1 then [] else [strLit ("prm") ++ 61 :: decimalInt a]).map
        (fun r => (r, hasSemi r))) = some { acc with permissions := a } := by
  by_cases hc : a = -1
  · rw [if_pos hc]
    have hid : { acc with permissions := a } = acc := by
      rw [hc, ← hacc]
    rw [hid]
    simp
  · rw [if_neg hc]
    simp only [List.map_cons, List.map_nil, List.foldlM_cons]
    rw [procRec_prm acc a _]
    simp

theorem stage_sz (acc : FTC) (a : Int) (hacc : acc.size = -1) :
    List.foldlM procRec acc
      ((if a = -1 then [] else [strLit ("sz") ++ 61 :: decimalInt a]).map
        (fun r => (r, hasSemi r))) = some { acc with size := a } := by
  by_cases hc : a = -1
  · rw [if_pos hc]
    have hid : { acc with size := a } = acc := by
      rw [hc, ← hacc]
    rw [hid]
    simp
  · rw [if_neg hc]
    simp only [List.map_cons, List.map_nil, List.foldlM_cons]
    rw [procRec_sz acc a _]
    simp

theorem stage_n (acc : FTC) (a : Str) (hv : ValidStr a) (hnc : NoStrippedControls a) (hacc : acc.name = []) :
    List.foldlM procRec acc
      ((if a = [] then [] else [strLit ("n") ++ 61 :: encB64Str a]).map
        (fun r => (r, hasSemi r))) = some { acc with name := a } := by
  by_cases hc : a = []
  · rw [if_pos hc]
    have hid : { acc with name := a } = acc := by
      rw [hc, ← hacc]
    rw [hid]
    simp
  · rw [if_neg hc]
    simp only [List.map_cons, List.map_nil, List.foldlM_cons]
    rw [procRec_n acc a hv hnc _]
    simp

theorem stage_st (acc : FTC) (a : Str) (hv : ValidStr a) (hnc : NoStrippedControls a) (hacc : acc.status = []) :
    List.foldlM procRec acc
      ((if a = [] then [] else [strLit ("st") ++ 61 :: encB64Str a]).map
        (fun r => (r, hasSemi r))) = some { acc with status := a } := by
  by_cases hc : a = []
  · rw [if_pos hc]
    have hid : { acc with status := a } = acc := by
      rw [hc, ← hacc]
    rw [hid]
    simp
  · rw [if_neg hc]
    simp only [List.map_cons, List.map_nil, List.foldlM_cons]
    rw [procRec_st acc a hv hnc _]
    simp

theorem stage_pr (acc : FTC) (a : Str) (hv : ValidStr a) (hnc : NoStrippedControls a) (hacc : acc.parent = []) :
    List.foldlM procRec acc
      ((if a = [] then [] else [strLit ("pr") ++ 61 :: encPlainStr a]).map
        (fun r => (r, hasSemi r))) = some { acc with parent := a } := by
  by_cases hc : a = []
  · rw [if_pos hc]
    have hid : { acc with parent := a } = acc := by
      rw [hc, ← hacc]
    rw [hid]
    simp
  · rw [if_neg hc]
    simp only [List.map_cons, List.map_nil, List.foldlM_cons]
    rw [procRec_pr acc a hv hnc]
    simp

theorem stage_d (acc : FTC) (a : Bytes) (hv : ValidBytes a) (hacc : acc.data = []) :
    List.foldlM procRec acc
      ((if a = [] then [] else [strLit ("d") ++ 61 :: standard_b64encode a]).map
        (fun r => (r, hasSemi r))) = some { acc with data := a } := by
  by_cases hc : a = []
  · rw [if_pos hc]
    have hid : { acc with data := a } = acc := by
      rw [hc, ← hacc]
    rw [hid]
    simp
  · rw [if_neg hc]
    simp only [List.map_cons, List.map_nil, List.foldlM_cons]
    rw [procRec_d acc a hv _]
    simp

theorem deserialize_serialize_core (c : FTC) (h : ValidCmd c) :
    FileTransmissionCommand.deserialize (c.serialize false) = some c := by
  obtain ⟨hact, hidv, hidn, hfidv, hfidn, hpwv, hpwn, hnv, hnn, hstv, hstn, hprv, hprn, hd⟩ := h
  have hser : c.serialize false = joinSemi c.serializedFields := by
    simp [FileTransmissionCommand.serialize]
  unfold FileTransmissionCommand.deserialize
  rw [hser, splitRecs_joinSemi _ (serializedFields_ne_nil c hact)
    (serializedFields_good c
      ⟨hact, hidv, hidn, hfidv, hfidn, hpwv, hpwn, hnv, hnn, hstv, hstn, hprv, hprn, hd⟩)]
  unfold FileTransmissionCommand.serializedFields
  simp only [List.map_append, List.foldlM_append]
  rw [stage_ac ({} : FTC) c.action rfl]
  simp only [Option.bind_eq_bind, Option.some_bind]
  rw [stage_zip { action := c.action } c.compression rfl]
  simp only [Option.bind_eq_bind, Option.some_bind]
  rw [stage_ft { action := c.action, compression := c.compression } c.ftype rfl]
  simp only [Option.bind_eq_bind, Option.some_bind]
  rw [stage_tt { action := c.action, compression := c.compression, ftype := c.ftype } c.ttype rfl]
  simp only [Option.bind_eq_bind, Option.some_bind]
  rw [stage_id { action := c.action, compression := c.compression, ftype := c.ftype, ttype := c.ttype } c.id hidv hidn rfl]
  simp only [Option.bind_eq_bind, Option.some_bind]
  rw [stage_fid { action := c.action, compression := c.compression, ftype := c.ftype, ttype := c.ttype, id := c.id } c.file_id hfidv hfidn rfl]
  simp only [Option.bind_eq_bind, Option.some_bind]
  rw [stage_pw { action := c.action, compression := c.compression, ftype := c.ftype, ttype := c.ttype, id := c.id, file_id := c.file_id } c.bypass hpwv hpwn rfl]
  simp only [Option.bind_eq_bind, Option.some_bind]
  rw [stage_q { action := c.action, compression := c.compression, ftype := c.ftype, ttype := c.ttype, id := c.id, file_id := c.file_id, bypass := c.bypass } c.quiet rfl]
  simp only [Option.bind_eq_bind, Option.some_bind]
  rw [stage_mod { action := c.action, compression := c.compression, ftype := c.ftype, ttype := c.ttype, id := c.id, file_id := c.file_id, bypass := c.bypass, quiet := c.quiet } c.mtime rfl]
  simp only [Option.bind_eq_bind, Option.some_bind]
  rw [stage_prm { action := c.action, compression := c.compression, ftype := c.ftype, ttype := c.ttype, id := c.id, file_id := c.file_id, bypass := c.bypass, quiet := c.quiet, mtime := c.mtime } c.permissions rfl]
  simp only [Option.bind_eq_bind, Option.some_bind]
  rw [stage_sz { action := c.action, compression := c.compression, ftype := c.ftype, ttype := c.ttype, id := c.id, file_id := c.file_id, bypass := c.bypass, quiet := c.quiet, mtime := c.mtime, permissions := c.permissions } c.size rfl]
  simp only [Option.bind_eq_bind, Option.some_bind]
  rw [stage_n { action := c.action, compression := c.compression, ftype := c.ftype, ttype := c.ttype, id := c.id, file_id := c.file_id, bypass := c.bypass, quiet := c.quiet, mtime := c.mtime, permissions := c.permissions, size := c.size } c.name hnv hnn rfl]
  simp only [Option.bind_eq_bind, Option.some_bind]
  rw [stage_st { action := c.action, compression := c.compression, ftype := c.ftype, ttype := c.ttype, id := c.id, file_id := c.file_id, bypass := c.bypass, quiet := c.quiet, mtime := c.mtime, permissions := c.permissions, size := c.size, name := c.name } c.status hstv hstn rfl]
  simp only [Option.bind_eq_bind, Option.some_bind]
  rw [stage_pr { action := c.action, compression := c.compression, ftype := c.ftype, ttype := c.ttype, id := c.id, file_id := c.file_id, bypass := c.bypass, quiet := c.quiet, mtime := c.mtime, permissions := c.permissions, size := c.size, name := c.name, status := c.status } c.parent hprv hprn rfl]
  simp only [Option.bind_eq_bind, Option.some_bind]
  rw [stage_d { action := c.action, compression := c.compression, ftype := c.ftype, ttype := c.ttype, id := c.id, file_id := c.file_id, bypass := c.bypass, quiet := c.quiet, mtime := c.mtime, permissions := c.permissions, size := c.size, name := c.name, status := c.status, parent := c.parent } c.data hd rfl]
  simp only [Option.bind_eq_bind, Option.some_bind]
  split_ifs with hx
  · exact absurd hx hact
  · rfl

/-- Claim C1, counterexample: the claim as stated quantifies over commands
whose string fields may contain control characters, but serialization
strips them (sanitize_control_codes), so a command whose id holds the
control character U+0001 does not survive the round trip. -/
theorem C1_control_char_counterexample :
    FileTransmissionCommand.deserialize
        (FileTransmissionCommand.serialize { action := .send, id := [97, 1] } false) ≠
      some { action := .send, id := [97, 1] } := by
  decide

/-- Claim C1 (amended): for every command with a real action, well-formed
Unicode string fields containing no control characters that sanitization
strips (tab and newline are kept), and in-range data bytes, deserializing
the serialization returns the command unchanged; semicolons in string
fields are doubled on the way out and undoubled on the way back. -/
theorem C1_round_trip (c : FTC) (h : ValidCmd c) :
    FileTransmissionCommand.deserialize (c.serialize false) = some c :=
  deserialize_serialize_core c h

/-- A concrete command exercising semicolons, multibyte text, tabs and
binary data, used to witness the round trip. -/
def c1sample : FTC :=
  { action := .file
    ttype := .rsync
    id := [97, 98, semi, 99]
    file_id := [102, 49]
    bypass := [100]
    quiet := 1
    mtime := -5
    permissions := 420
    size := 9
    name := [955, 47, 116]
    status := [9, 48]
    parent := [semi, semi]
    data := [0, 255, 10] }

/-- Claim C1, witness: the sample command is valid and round-trips. -/
theorem C1_round_trip_witness :
    ValidCmd c1sample ∧
      FileTransmissionCommand.deserialize (c1sample.serialize false) = some c1sample :=
  ⟨by decide, C1_round_trip _ (by decide)⟩

/-- Right rotation of a 32-bit word. -/
def rotr32 (k x : Nat) : Nat := (x / 2 ^ k + x % 2 ^ k * 2 ^ (32 - k)) % 4294967296

/-- The SHA-256 round constants. -/
def sha256K : List Nat := [
  1116352408, 1899447441, 3049323471, 3921009573, 961987163, 1508970993, 2453635748, 2870763221,
  3624381080, 310598401, 607225278, 1426881987, 1925078388, 2162078206, 2614888103, 3248222580,
  3835390401, 4022224774, 264347078, 604807628, 770255983, 1249150122, 1555081692, 1996064986,
  2554220882, 2821834349, 2952996808, 3210313671, 3336571891, 3584528711, 113926993, 338241895,
  666307205, 773529912, 1294757372, 1396182291, 1695183700, 1986661051, 2177026350, 2456956037,
  2730485921, 2820302411, 3259730800, 3345764771, 3516065817, 3600352804, 4094571909, 275423344,
  430227734, 506948616, 659060556, 883997877, 958139571, 1322822218, 1537002063, 1747873779,
  1955562222, 2024104815, 2227730452, 2361852424, 2428436474, 2756734187, 3204031479, 3329325298]

/-- The SHA-256 initial hash values. -/
def sha256H0 : List Nat := [1779033703, 3144134277, 1013904242, 2773480762, 1359893119, 2600822924, 528734635, 1541459225]

/-- Big-endian eight-byte encoding of a bit length. -/
def be64 (n : Nat) : Bytes :=
  [n / 72057594037927936 % 256, n / 281474976710656 % 256, n / 1099511627776 % 256,
   n / 4294967296 % 256, n / 16777216 % 256, n / 65536 % 256, n / 256 % 256, n % 256]

/-- SHA-256 message padding. -/
def sha256Pad (msg : Bytes) : Bytes :=
  msg ++ 128 :: List.replicate ((119 - msg.length % 64) % 64) 0 ++ be64 (8 * msg.length)

/-- Group bytes into big-endian 32-bit words. -/
def bytesToWords : Bytes → List Nat
  | a :: b :: c :: d :: rest => (a * 16777216 + b * 65536 + c * 256 + d) :: bytesToWords rest
  | _ => []

/-- Group a word stream into 16-word blocks. -/
def wordsToBlocks : List Nat → List (List Nat)
  | w0 :: w1 :: w2 :: w3 :: w4 :: w5 :: w6 :: w7 ::
    w8 :: w9 :: w10 :: w11 :: w12 :: w13 :: w14 :: w15 :: rest =>
      [w0, w1, w2, w3, w4, w5, w6, w7, w8, w9, w10, w11, w12, w13, w14, w15] ::
        wordsToBlocks rest
  | _ => []

/-- Message-schedule extension, most recent word first. -/
def sha256Extend : Nat → List Nat → List Nat
  | 0, rws => rws
  | n + 1, rws =>
    let u := rws.getD 14 0
    let v := rws.getD 1 0
    let s0 := rotr32 7 u ^^^ rotr32 18 u ^^^ u / 8
    let s1 := rotr32 17 v ^^^ rotr32 19 v ^^^ v / 1024
    sha256Extend n (((rws.getD 15 0 + s0 + rws.getD 6 0 + s1) % 4294967296) :: rws)

/-- One SHA-256 compression round. -/
def sha256Round (st : List Nat) (kw : Nat × Nat) : List Nat :=
  match st with
  | [a, b, c, d, e, f, g, h] =>
    let s1 := rotr32 6 e ^^^ rotr32 11 e ^^^ rotr32 25 e
    let ch := (e &&& f) ^^^ ((e ^^^ 4294967295) &&& g)
    let t1 := (h + s1 + ch + kw.1 + kw.2) % 4294967296
    let s0 := rotr32 2 a ^^^ rotr32 13 a ^^^ rotr32 22 a
    let mj := (a &&& b) ^^^ (a &&& c) ^^^ (b &&& c)
    let t2 := (s0 + mj) % 4294967296
    [(t1 + t2) % 4294967296, a, b, c, (d + t1) % 4294967296, e, f, g]
  | _ => st

/-- Process one 16-word block. -/
def sha256Block (H : List Nat) (blk : List Nat) : List Nat :=
  let W := (sha256Extend 48 blk.reverse).reverse
  let st := (sha256K.zip W).foldl sha256Round H
  (H.zip st).map (fun p => (p.1 + p.2) % 4294967296)

/-- The SHA-256 digest of a byte string, as 32 bytes. -/
def sha256 (msg : Bytes) : Bytes :=
  let H := (wordsToBlocks (bytesToWords (sha256Pad msg))).foldl sha256Block sha256H0
  H.flatMap (fun w => [w / 16777216 % 256, w / 65536 % 256, w / 256 % 256, w % 256])

/-- A lowercase hex digit character. -/
def hexChar (n : Nat) : Nat := if n < 10 then 48 + n else 87 + n

/-- Lowercase hex rendering of bytes (hexdigest). -/
def bytesToHex (bs : Bytes) : Str := bs.flatMap (fun b => [hexChar (b / 16), hexChar (b % 16)])

/-- Source: encode_bypass, file_transmission.py lines 50-53: the sha256:
prefix followed by the lowercase hex digest of the SHA-256 hash of the
UTF-8 encoding of the request id, a semicolon and the passphrase. -/
def encode_bypass (request_id bypass : Str) : Str :=
  strLit ("sha256:") ++ bytesToHex (sha256 (utf8Encode (request_id ++ semi :: bypass)))

/-- Source: ErrorCode enum, file_transmission.py line 205. -/
inductive ErrorCode
  | OK
  | STARTED
  | CANCELED
  | PROGRESS
  | EINVAL
  | EPERM
  | EISDIR
  | ENOENT
deriving DecidableEq

def ErrorCode.pyName : ErrorCode → Str
  | .OK => strLit ("OK")
  | .STARTED => strLit ("STARTED")
  | .CANCELED => strLit ("CANCELED")
  | .PROGRESS => strLit ("PROGRESS")
  | .EINVAL => strLit ("EINVAL")
  | .EPERM => strLit ("EPERM")
  | .EISDIR => strLit ("EISDIR")
  | .ENOENT => strLit ("ENOENT")

/-- Source: TransmissionError, file_transmission.py lines 208-234; the code
may be an ErrorCode or a POSIX errno name string. -/
structure TransmissionError where
  code : ErrorCode ⊕ Str := Sum.inl .EINVAL
  human_msg : Str := strLit ("Generic error")
  transmit : Bool := true
  file_id : Str := []
  name : Str := []
  size : Int := -1
  ttype : TransmissionType := .simple
deriving DecidableEq

/-- Source: TransmissionError.as_ftc (lines 228-234): a status command whose
status field is CODE or CODE:message. -/
def TransmissionError.as_ftc (e : TransmissionError) (request_id : Str) : FTC :=
  let base := match e.code with
    | Sum.inl c => c.pyName
    | Sum.inr s => s
  let nm := if e.human_msg ≠ [] then base ++ 58 :: e.human_msg else base
  { action := .status, id := request_id, file_id := e.file_id, status := nm,
    name := e.name, size := e.size, ttype := e.ttype }

/-- An OSError carrying its errno name (errno.errorcode lookup already
applied, with the EFAIL fallback of send_fail_on_os_error). -/
structure OSError where
  errname : Str := strLit ("EFAIL")
deriving DecidableEq

/-- A raised Python exception: TransmissionError, OSError, or any other. -/
inductive PyErr
  | transmission (e : TransmissionError)
  | os (e : OSError)
  | generic (msg : Str)
deriving DecidableEq

/-- File kind distinctions made by the source via the stat module. -/
inductive FileKind
  | regular
  | directory
  | symlink
  | other
deriving DecidableEq

/-- An lstat result: the fields the source reads. -/
structure FSStat where
  st_dev : Nat := 0
  st_ino : Nat := 0
  kind : FileKind := .regular
  perm : Int := 0
  st_mtime_ns : Int := 0
  st_size : Int := 0
  st_nlink : Nat := 1
deriving DecidableEq

/-- One filesystem node: stat plus the data the source reads through it. -/
structure FSNode where
  stat : FSStat := {}
  content : Bytes := []
  target : Str := []
  children : List Str := []
deriving DecidableEq

/-- The filesystem model: a path-indexed table of nodes, a realpath oracle
for OS-level symlink resolution, an unreadable-path list for access checks,
the home and temporary directories, and a fresh inode counter for created
nodes.  Directory children lists are part of the model input and are not
updated by engine writes; no claim observes a directory listing after a
write. -/
structure FS where
  table : List (Str × FSNode) := []
  realpaths : List (Str × Str) := []
  unreadable : List Str := []
  home : Str := []
  tmpdir : Str := []
  fresh : Nat := 1000
deriving DecidableEq

/-- Association-list lookup keyed by strings (Python dict get). -/
def alookup {α : Type} (k : Str) : List (Str × α) → Option α
  | [] => none
  | (k2, v) :: rest => if k2 = k then some v else alookup k rest

/-- Association-list insert-or-update preserving insertion order (Python
dict assignment). -/
def aset {α : Type} (k : Str) (v : α) : List (Str × α) → List (Str × α)
  | [] => [(k, v)]
  | (k2, v2) :: rest => if k2 = k then (k2, v) :: rest else (k2, v2) :: aset k v rest

/-- Association-list removal (Python dict pop). -/
def aerase {α : Type} (k : Str) : List (Str × α) → List (Str × α)
  | [] => []
  | (k2, v) :: rest => if k2 = k then rest else (k2, v) :: aerase k rest

def FS.lstat (fs : FS) (p : Str) : Option FSStat := (alookup p fs.table).map (fun n => n.stat)

def FS.access_r (fs : FS) (p : Str) : Bool := decide (p ∉ fs.unreadable)

def FS.listdir (fs : FS) (p : Str) : Option (List Str) :=
  match alookup p fs.table with
  | some n => if n.stat.kind = .directory then some n.children else none
  | none => none

def FS.realpath (fs : FS) (p : Str) : Option Str := alookup p fs.realpaths

/-- The POSIX path separator. -/
def pathSep : Nat := 47

def os_path_isabs (p : Str) : Bool := p.head? == some pathSep

/-- Model of os.path.join for the uses in the source (a nonempty base and a
relative entry). -/
def os_path_join (a b : Str) : Str :=
  if a.getLast? = some pathSep then a ++ b else a ++ pathSep :: b

/-- Split a path at separators. -/
def splitOnSepAux : Str → Str → List Str
  | [], cur => [cur.reverse]
  | c :: rest, cur =>
    if c = pathSep then cur.reverse :: splitOnSepAux rest [] else splitOnSepAux rest (c :: cur)

def splitOnSep (p : Str) : List Str := splitOnSepAux p []

/-- Model of posixpath.dirname: the part before the last separator, with
trailing separators stripped unless the result is all separators. -/
def os_path_dirname (p : Str) : Str :=
  match (p.reverse).findIdx? (fun c => c == pathSep) with
  | none => []
  | some j =>
    let i := p.length - 1 - j
    let head := p.take (i + 1)
    if head.all (fun c => c = pathSep) then head
    else (head.reverse.dropWhile (fun c => c = pathSep)).reverse

/-- Model of os.path.expanduser: a leading tilde is replaced by the home
directory (named-user forms are outside the model). -/
def os_path_expanduser (fs : FS) (p : Str) : Str :=
  if p.head? = some 126 then fs.home ++ p.drop 1 else p

/-- Cumulative ancestor paths of the components of a path. -/
def cumPaths : List Str → Str → List Str
  | [], _ => []
  | c :: rest, acc =>
    let q := if acc = [] then c
      else if acc = [pathSep] then pathSep :: c
      else acc ++ pathSep :: c
    q :: cumPaths rest q

def pathPrefixes (p : Str) : List Str :=
  cumPaths ((splitOnSep p).filter (fun c => c ≠ []))
    (if os_path_isabs p then [pathSep] else [])

/-- Create one directory if missing (os.makedirs step with exist_ok). -/
def FS.makedirs1 (fs : FS) (p : Str) : Except OSError FS :=
  match alookup p fs.table with
  | some n =>
    if n.stat.kind = .directory then .ok fs
    else .error { errname := strLit ("EEXIST") }
  | none =>
    .ok { fs with
      table := aset p { stat := { st_ino := fs.fresh, kind := .directory } } fs.table,
      fresh := fs.fresh + 1 }

/-- Model of os.makedirs with exist_ok: create every missing ancestor. -/
def FS.makedirs (fs : FS) (p : Str) : Except OSError FS :=
  (pathPrefixes p).foldlM FS.makedirs1 fs

/-- Model of os.unlink with FileNotFoundError suppressed. -/
def FS.unlink (fs : FS) (p : Str) : FS := { fs with table := aerase p fs.table }

def FS.chmod (fs : FS) (p : Str) (m : Int) : Except OSError FS :=
  match alookup p fs.table with
  | none => .error { errname := strLit ("ENOENT") }
  | some n =>
    .ok { fs with table := aset p { n with stat := { n.stat with perm := m } } fs.table }

def FS.utime (fs : FS) (p : Str) (t : Int) : Except OSError FS :=
  match alookup p fs.table with
  | none => .error { errname := strLit ("ENOENT") }
  | some n =>
    .ok { fs with table := aset p { n with stat := { n.stat with st_mtime_ns := t } } fs.table }

def FS.symlink (fs : FS) (target p : Str) : Except OSError FS :=
  match alookup p fs.table with
  | some _ => .error { errname := strLit ("EEXIST") }
  | none =>
    .ok { fs with
      table := aset p { stat := { st_ino := fs.fresh, kind := .symlink }, target := target }
        fs.table,
      fresh := fs.fresh + 1 }

def FS.link (fs : FS) (src p : Str) : Except OSError FS :=
  match alookup src fs.table with
  | none => .error { errname := strLit ("ENOENT") }
  | some n =>
    match alookup p fs.table with
    | some _ => .error { errname := strLit ("EEXIST") }
    | none => .ok { fs with table := aset p n fs.table }

/-- Model of the os.open call of DestFile.write_data: create or truncate a
regular file with the given mode. -/
def FS.openTrunc (fs : FS) (p : Str) (perm : Int) : FS :=
  match alookup p fs.table with
  | some n => { fs with table := aset p { n with content := [] } fs.table }
  | none =>
    { fs with
      table := aset p { stat := { st_ino := fs.fresh, kind := .regular, perm := perm } } fs.table,
      fresh := fs.fresh + 1 }

/-- Append bytes to a file opened by openTrunc (sequential writes). -/
def FS.writeBytes (fs : FS) (p : Str) (data : Bytes) : FS :=
  match alookup p fs.table with
  | some n => { fs with table := aset p { n with content := n.content ++ data } fs.table }
  | none => fs

/-- The write position of an open file (file.tell). -/
def FS.tell (fs : FS) (p : Str) : Nat :=
  match alookup p fs.table with
  | some n => n.content.length
  | none => 0

/-- Model of os.path.relpath via component comparison. -/
def relCompsDrop : List Str → List Str → List Str × List Str
  | a :: as2, b :: bs2 => if a = b then relCompsDrop as2 bs2 else (a :: as2, b :: bs2)
  | as2, bs2 => (as2, bs2)

def joinComps : List Str → Str
  | [] => []
  | [c] => c
  | c :: rest => c ++ pathSep :: joinComps rest

def os_path_relpath (p base : Str) : Str :=
  let pc := (splitOnSep p).filter (fun c => c ≠ [])
  let bc := (splitOnSep base).filter (fun c => c ≠ [])
  let pr := relCompsDrop pc bc
  let ups := List.replicate pr.2.length [46, 46]
  let r := joinComps (ups ++ pr.1)
  if r = [] then [46] else r

/-- Modelled from the spec: zlib decompression is an external library; both
the IdentityDecompressor and the ZlibDecompressor of the source are
modelled as passing the payload through, since no claim depends on the
compressed encoding of data. -/
def decompressData (c : Compression) (data : Bytes) (is_last : Bool) : Bytes := data

/-- Total UTF-8 decoding approximating the Python replace error handler:
one replacement character per undecodable byte. -/
def utf8DecodeReplaceF : Nat → Bytes → Str
  | _, [] => []
  | 0, _ :: _ => []
  | fuel + 1, b :: rest =>
    match utf8DecodeOne (b :: rest) with
    | some cr => cr.1 :: utf8DecodeReplaceF fuel cr.2
    | none => 65533 :: utf8DecodeReplaceF fuel rest

def utf8DecodeReplace (bs : Bytes) : Str := utf8DecodeReplaceF bs.length bs

/-- The open write handle of a DestFile; PatchFile (rsync) is an opaque
library sink per the spec and is modelled as writing directly, like a
plain file. -/
structure ActualFile where
  isPatch : Bool
  path : Str
deriving DecidableEq

/-- Source: class DestFile, file_transmission.py lines 379-405. -/
structure DestFile where
  name : Str
  existing_stat : Option FSStat
  needs_unlink : Bool
  mtime : Int
  file_id : Str
  permissions : Int
  ftype : FileType
  ttype : TransmissionType
  link_target : Bytes
  needs_data_sent : Bool
  compression : Compression
  closed : Bool
  actual_file : Option ActualFile
  failed : Bool
  bytes_written : Nat
deriving DecidableEq

/-- Source: DestFile.__init__ (lines 381-405): resolve the name against
home then the temporary directory, record the existing stat, decide
needs_unlink, mask permissions, mark directories closed. -/
def DestFile.ofCmd (fs : FS) (ftc : FTC) : DestFile :=
  let name1 := if os_path_isabs ftc.name then ftc.name else os_path_expanduser fs ftc.name
  let name := if os_path_isabs name1 then name1 else os_path_join fs.tmpdir name1
  let est := fs.lstat name
  let needs_unlink := match est with
    | some st => st.st_nlink > 1 ∨ st.kind = .symlink
    | none => False
  { name := name
    existing_stat := est
    needs_unlink := needs_unlink
    mtime := ftc.mtime
    file_id := ftc.file_id
    permissions := if ftc.permissions ≠ -1 then ftc.permissions.emod 4096 else ftc.permissions
    ftype := ftc.ftype
    ttype := ftc.ttype
    link_target := []
    needs_data_sent := ftc.ttype ≠ .simple
    compression := ftc.compression
    closed := ftc.ftype = .directory
    actual_file := none
    failed := false
    bytes_written := 0 }

/-- Source: DestFile.close (lines 410-415); closing the write handle has no
modelled filesystem effect (PatchFile commit is opaque per the spec). -/
def DestFile.close (df : DestFile) : DestFile :=
  if ¬df.closed then { df with closed := true, actual_file := none } else df

/-- Source: DestFile.make_parent_dirs (lines 417-421). -/
def DestFile.make_parent_dirs (fs : FS) (df : DestFile) : Except OSError (FS × Str) :=
  let d := os_path_dirname df.name
  if d ≠ [] then (FS.makedirs fs d).map (fun fs2 => (fs2, d))
  else .ok (fs, d)

/-- Source: DestFile.apply_metadata (lines 423-435): chmod and utime when
the fields are not defaults; the symlink variant uses the link-preserving
calls, identical in this model. -/
def DestFile.apply_metadata (fs : FS) (df : DestFile) (is_symlink : Bool) : Except OSError FS := do
  let fs ← if df.permissions ≠ -1 then FS.chmod fs df.name df.permissions else pure fs
  if df.mtime ≠ -1 then FS.utime fs df.name df.mtime else pure fs

/-- Source: DestFile.unlink_existing_if_needed (lines 437-442). -/
def DestFile.unlink_existing_if_needed (fs : FS) (df : DestFile) (force : Bool) : FS × DestFile :=
  if force ∨ df.needs_unlink then
    (FS.unlink fs df.name, { df with existing_stat := none, needs_unlink := false })
  else (fs, df)

/-- Resolve the decoded link target through its prefix grammar
(write_data, lines 456-468). -/
def resolveLinkTarget (all_files : List (Str × DestFile)) (df : DestFile) (base : Str)
    (lt0 : Str) : Except PyErr Str :=
  if lt0.take 4 = strLit ("fid:") then
    match alookup (lt0.drop 4) all_files with
    | some tgt =>
      .ok (if df.ftype = .symlink then os_path_relpath tgt.name (os_path_dirname df.name)
        else tgt.name)
    | none => .error (.generic (strLit ("KeyError")))
  else if lt0.take 8 = strLit ("fid_abs:") then
    match alookup (lt0.drop 8) all_files with
    | some tgt => .ok tgt.name
    | none => .error (.generic (strLit ("KeyError")))
  else if lt0.take 5 = strLit ("path:") then
    let lt1 := lt0.drop 5
    .ok (if ¬os_path_isabs lt1 ∧ df.ftype = .link then os_path_join base lt1 else lt1)
  else
    .error (.transmission
      { human_msg := strLit ("Unknown link target type"), file_id := df.file_id })

/-- Source: DestFile.write_data (lines 444-491).  On an error the partial
filesystem effects preceding the raise are not modelled; no claim observes
them. -/
def DestFile.write_data (fs : FS) (all_files : List (Str × DestFile)) (df : DestFile)
    (data : Bytes) (is_last : Bool) : Except PyErr (DestFile × FS) :=
  if df.ftype = .directory then
    .error (.transmission
      { code := Sum.inl .EISDIR
        file_id := df.file_id
        human_msg := strLit ("Cannot write data to a directory entry") })
  else if df.closed then
    .error (.transmission
      { file_id := df.file_id, human_msg := strLit ("Cannot write to a closed file") })
  else if df.ftype = .symlink ∨ df.ftype = .link then
    let df :=
      { df with
        link_target := df.link_target ++ data,
        bytes_written := df.bytes_written + data.length }
    if is_last then do
      let lt0 := utf8DecodeReplace df.link_target
      let pr ← (df.make_parent_dirs fs).mapError PyErr.os
      let fs := pr.1
      let base := pr.2
      let ufs := df.unlink_existing_if_needed fs true
      let fs := ufs.1
      let df := ufs.2
      let lt ← resolveLinkTarget all_files df base lt0
      let fs ← (if df.ftype = .symlink then FS.symlink fs lt df.name
        else FS.link fs lt df.name).mapError PyErr.os
      let df := df.close
      let fs ← (df.apply_metadata fs true).mapError PyErr.os
      .ok (df, fs)
    else .ok (df, fs)
  else do
    let decompressed := decompressData df.compression data is_last
    let ofs ← (if df.actual_file = none then do
        let pr ← (df.make_parent_dirs fs).mapError PyErr.os
        let fs := pr.1
        if df.ttype = .rsync then
          pure (fs, { df with actual_file := some { isPatch := true, path := df.name } })
        else
          let ufs := df.unlink_existing_if_needed fs false
          let fs := FS.openTrunc ufs.1 df.name df.permissions
          pure (fs, { ufs.2 with actual_file := some { isPatch := false, path := df.name } })
      else pure (fs, df) : Except PyErr (FS × DestFile))
    let fs := ofs.1
    let df := ofs.2
    let wfs := if decompressed ≠ [] ∨ is_last then
        let fs2 := FS.writeBytes fs df.name decompressed
        (fs2, { df with bytes_written := FS.tell fs2 df.name })
      else (fs, df)
    let fs := wfs.1
    let df := wfs.2
    if is_last then do
      let df := df.close
      let fs ← (df.apply_metadata fs false).mapError PyErr.os
      .ok (df, fs)
    else .ok (df, fs)

/-- Source: EXPIRE_TIME, file_transmission.py line 35 (minutes). -/
def EXPIRE_TIME : Nat := 10

/-- Source: MAX_ACTIVE_RECEIVES and MAX_ACTIVE_SENDS, line 36. -/
def MAX_ACTIVE_RECEIVES : Nat := 10

def MAX_ACTIVE_SENDS : Nat := 10

/-- Source: class ActiveReceive, file_transmission.py lines 494-552. -/
structure ActiveReceive where
  id : Str
  bypass_ok : Option Bool
  files : List (Str × DestFile)
  last_activity_at : Nat
  send_acknowledgements : Bool
  send_errors : Bool
  accepted : Bool := false
deriving DecidableEq

/-- Source: ActiveReceive.__init__ (lines 499-508); the configured bypass
passphrase (get_options().file_transfer_confirmation_bypass) is the
cfgBypass parameter, and monotonic() is the now parameter. -/
def ActiveReceive.init (request_id : Str) (quiet : Int) (bypass : Str) (cfgBypass : Str)
    (now : Nat) : ActiveReceive :=
  { id := request_id
    bypass_ok := if bypass ≠ [] then
        some (if cfgBypass ≠ [] then decide (encode_bypass request_id cfgBypass = bypass)
          else false)
      else none
    files := []
    last_activity_at := now
    send_acknowledgements := quiet < 1
    send_errors := quiet < 2 }

def ActiveReceive.is_expired (now : Nat) (ar : ActiveReceive) : Bool :=
  decide (now - ar.last_activity_at > 60 * EXPIRE_TIME)

/-- Source: ActiveReceive.close (lines 514-517): close every DestFile and
clear the map (closing handles has no modelled filesystem effect). -/
def ActiveReceive.close (ar : ActiveReceive) : ActiveReceive := { ar with files := [] }

def ActiveReceive.cancel (ar : ActiveReceive) : ActiveReceive := ar.close

/-- Source: ActiveReceive.start_file (lines 522-530): update the activity
clock, reject duplicate file ids, otherwise create and register a
DestFile. -/
def ActiveReceive.start_file (fs : FS) (now : Nat) (ar : ActiveReceive) (ftc : FTC) :
    ActiveReceive × Except PyErr DestFile :=
  let ar := { ar with last_activity_at := now }
  match alookup ftc.file_id ar.files with
  | some _ =>
    (ar, .error (.transmission
      { human_msg := strLit ("The file_id ") ++ ftc.file_id ++ strLit (" already exists")
        file_id := ftc.file_id }))
  | none =>
    let df := DestFile.ofCmd fs ftc
    ({ ar with files := aset ftc.file_id df ar.files }, .ok df)

/-- Source: ActiveReceive.add_data (lines 532-545): a missing file id is an
error, a failed file swallows data, a write exception marks the file
failed and closed and propagates. -/
def ActiveReceive.add_data (fs : FS) (now : Nat) (ar : ActiveReceive) (ftc : FTC) :
    ActiveReceive × FS × Except PyErr DestFile :=
  let ar := { ar with last_activity_at := now }
  match alookup ftc.file_id ar.files with
  | none =>
    (ar, fs, .error (.transmission
      { file_id := ftc.file_id
        human_msg := strLit ("Cannot write to a file without first starting it") }))
  | some df =>
    if df.failed then (ar, fs, .ok df)
    else
      match DestFile.write_data fs ar.files df ftc.data (ftc.action = .end_data) with
      | .ok dfs =>
        ({ ar with files := aset ftc.file_id dfs.1 ar.files }, dfs.2, .ok dfs.1)
      | .error e =>
        let df2 := DestFile.close { df with failed := true }
        ({ ar with files := aset ftc.file_id df2 ar.files }, fs, .error e)

/-- Stable insertion into a list sorted by descending name length: an
element stays behind every strictly longer one and goes in front of ties
(matching the stability of Python sorted with reverse=True). -/
def insertDescLen (x : DestFile) : List DestFile → List DestFile
  | [] => [x]
  | y :: ys =>
    if x.name.length < y.name.length then y :: insertDescLen x ys else x :: y :: ys

/-- Stable sort by descending name length (sorted with key len and
reverse=True, line 548). -/
def sortDescLen : List DestFile → List DestFile
  | [] => []
  | x :: xs => insertDescLen x (sortDescLen xs)

/-- The directory entries of a session in commit order (line 548). -/
def ActiveReceive.commitDirs (ar : ActiveReceive) : List DestFile :=
  sortDescLen ((ar.files.map Prod.snd).filter (fun df => df.ftype = .directory))

/-- Source: ActiveReceive.commit (lines 547-552): reapply metadata on each
directory entry, longest path first, ignoring OSError failures. -/
def ActiveReceive.commit (fs : FS) (ar : ActiveReceive) : FS :=
  ar.commitDirs.foldl
    (fun fs2 df =>
      match DestFile.apply_metadata fs2 df false with
      | .ok fs3 => fs3
      | .error _ => fs2)
    fs

/-- Modelled from the spec: rsync delta chunks are produced by an opaque
library (delta_for_file, §6.6 of the spec); no claim depends on their
contents. -/
def delta_for_file (fs : FS) (path : Str) (sig : List Bytes) : List Bytes := []

/-- An open read handle: path plus position. -/
structure OpenFile where
  path : Str
  pos : Nat
deriving DecidableEq

/-- Source: class SourceFile, file_transmission.py lines 555-614; the
signature loader is modelled as its accumulated chunk list. -/
structure SourceFile where
  file_id : Str
  path : Str
  ttype : TransmissionType
  waiting_for_signature : Bool
  transmitted : Bool
  stat : FSStat
  compression : Compression
  target : Bytes
  open_file : Option OpenFile
  signature_loader : Option (List Bytes)
  delta_loader : Option (List Bytes)
deriving DecidableEq

/-- Source: SourceFile.__init__ (lines 557-576): stat without following
symlinks (failure raises OSError), reject directories, stash readlink for
symlinks, open regular files and pick the compressor. -/
def SourceFile.ofCmd (fs : FS) (ftc : FTC) : Except PyErr SourceFile :=
  match alookup ftc.name fs.table with
  | none => .error (.os { errname := strLit ("ENOENT") })
  | some node =>
    if node.stat.kind = .directory then
      .error (.transmission
        { code := Sum.inl .EINVAL
          human_msg := strLit ("Cannot send a directory")
          file_id := ftc.file_id })
    else
      let waiting := ftc.ttype = .rsync
      if node.stat.kind = .symlink then
        .ok { file_id := ftc.file_id
              path := ftc.name
              ttype := ftc.ttype
              waiting_for_signature := waiting
              transmitted := false
              stat := node.stat
              compression := .none
              target := utf8Encode node.target
              open_file := none
              signature_loader := if waiting then some [] else none
              delta_loader := none }
      else
        .ok { file_id := ftc.file_id
              path := ftc.name
              ttype := ftc.ttype
              waiting_for_signature := waiting
              transmitted := false
              stat := node.stat
              compression := if ftc.compression = .zlib then .zlib else .none
              target := []
              open_file := some { path := ftc.name, pos := 0 }
              signature_loader := if waiting then some [] else none
              delta_loader := none }

def SourceFile.ready_to_transmit (sf : SourceFile) : Bool :=
  !sf.transmitted && !sf.waiting_for_signature

def SourceFile.close (sf : SourceFile) : SourceFile :=
  { sf with open_file := none, signature_loader := none, delta_loader := none }

/-- Source: SourceFile.next_chunk (lines 589-614) with the one-megabyte
default read size; compression is modelled as the identity (the zlib
encoding is opaque to every claim). -/
def SourceFile.next_chunk (fs : FS) (sf : SourceFile) : SourceFile × Bytes × Nat :=
  let dres : SourceFile × Bytes :=
    if sf.target ≠ [] then ({ sf with transmitted := true }, sf.target)
    else
      match sf.open_file with
      | none => ({ sf with transmitted := true }, [])
      | some of =>
        match sf.delta_loader with
        | none =>
          let content := match alookup of.path fs.table with
            | some n => n.content
            | none => []
          let data := (content.drop of.pos).take 1048576
          let newpos := of.pos + data.length
          let sf := { sf with open_file := some { of with pos := newpos } }
          let sf := if data = [] ∨ sf.stat.st_size ≤ (newpos : Int) then
              { sf with transmitted := true }
            else sf
          (sf, data)
        | some [] => ({ sf with transmitted := true, delta_loader := some [] }, [])
        | some (d :: rest) => ({ sf with delta_loader := some rest }, d)
  let sf := dres.1
  let data := dres.2
  let sf := if sf.transmitted then sf.close else sf
  (sf, data, data.length)

/-- Source: class ActiveSend, file_transmission.py lines 617-704. -/
structure ActiveSend where
  id : Str
  expected_num_of_args : Int
  bypass_ok : Option Bool
  accepted : Bool
  last_activity_at : Nat
  send_acknowledgements : Bool
  send_errors : Bool
  file_specs : List (Str × Str)
  queued_files_map : List (Str × SourceFile)
  active_file : Option SourceFile
  pending_chunks : List FTC
  metadata_sent : Bool
deriving DecidableEq

/-- Source: ActiveSend.__init__ (lines 619-635). -/
def ActiveSend.init (request_id : Str) (quiet : Int) (bypass : Str) (num_of_args : Int)
    (cfgBypass : Str) (now : Nat) : ActiveSend :=
  { id := request_id
    expected_num_of_args := num_of_args
    bypass_ok := if bypass ≠ [] then
        some (if cfgBypass ≠ [] then decide (encode_bypass request_id cfgBypass = bypass)
          else false)
      else none
    accepted := false
    last_activity_at := now
    send_acknowledgements := quiet < 1
    send_errors := quiet < 2
    file_specs := []
    queued_files_map := []
    active_file := none
    pending_chunks := []
    metadata_sent := false }

/-- Source: ActiveSend.spec_complete (lines 637-639). -/
def ActiveSend.spec_complete (asd : ActiveSend) : Bool :=
  decide (asd.expected_num_of_args ≤ (asd.file_specs.length : Int))

/-- Source: ActiveSend.add_file_spec (lines 641-645). -/
def ActiveSend.add_file_spec (now : Nat) (asd : ActiveSend) (cmd : FTC) :
    ActiveSend × Except PyErr Unit :=
  let asd := { asd with last_activity_at := now }
  if asd.file_specs.length > 8192 ∨ asd.spec_complete then
    (asd, .error (.transmission
      { code := Sum.inl .EINVAL, human_msg := strLit ("Too many file specs") }))
  else ({ asd with file_specs := asd.file_specs ++ [(cmd.file_id, cmd.name)] }, .ok ())

/-- Source: ActiveSend.add_send_file (lines 647-651). -/
def ActiveSend.add_send_file (fs : FS) (now : Nat) (asd : ActiveSend) (cmd : FTC) :
    ActiveSend × Except PyErr Unit :=
  let asd := { asd with last_activity_at := now }
  if asd.queued_files_map.length > 32768 then
    (asd, .error (.transmission
      { code := Sum.inl .EINVAL, human_msg := strLit ("Too many queued files") }))
  else
    match SourceFile.ofCmd fs cmd with
    | .error e => (asd, .error e)
    | .ok sf =>
      ({ asd with queued_files_map := aset cmd.file_id sf asd.queued_files_map }, .ok ())

/-- Source: ActiveSend.add_signature_data (lines 653-665). -/
def ActiveSend.add_signature_data (fs : FS) (now : Nat) (asd : ActiveSend) (cmd : FTC) :
    ActiveSend × Except PyErr Unit :=
  let asd := { asd with last_activity_at := now }
  match alookup cmd.file_id asd.queued_files_map with
  | none =>
    (asd, .error (.transmission
      { code := Sum.inl .EINVAL
        human_msg := strLit ("Signature data for unknown file_id: ") ++ cmd.file_id }))
  | some af =>
    match af.signature_loader with
    | none =>
      (asd, .error (.transmission
        { code := Sum.inl .EINVAL
          human_msg := strLit ("Signature data for file that is not using rsync: ") ++
            cmd.file_id }))
    | some sl =>
      let sl2 := sl ++ [cmd.data]
      let af2 := if cmd.action = .end_data then
          { af with
            signature_loader := some sl2,
            waiting_for_signature := false,
            delta_loader := some (delta_for_file fs af.path sl2) }
        else { af with signature_loader := some sl2 }
      ({ asd with queued_files_map := aset cmd.file_id af2 asd.queued_files_map }, .ok ())

def ActiveSend.is_expired (now : Nat) (asd : ActiveSend) : Bool :=
  decide (now - asd.last_activity_at > 60 * EXPIRE_TIME)

def ActiveSend.close (asd : ActiveSend) : ActiveSend := { asd with active_file := none }

/-- Source: split_for_transfer, file_transmission.py lines 56-69, with the
4096-byte chunk size; the fuel (at least the data length) makes the loop
structural. -/
def splitForTransferF : Nat → Bytes → Str → Str → Bool → List FTC
  | 0, _, _, _, _ => []
  | fuel + 1, data, sid, fid, mark =>
    if data = [] then []
    else
      let ac := if mark ∧ data.length ≤ 4096 then Action.end_data else Action.data
      { action := ac, id := sid, file_id := fid, data := data.take 4096 } ::
        splitForTransferF fuel (data.drop 4096) sid fid mark

def split_for_transfer (data : Bytes) (session_id file_id : Str) (mark_last : Bool) :
    List FTC :=
  splitForTransferF data.length data session_id file_id mark_last

/-- The pull loop inside ActiveSend.next_chunk (lines 689-695): read chunks
until the file completes or a nonempty chunk appears.  In this model every
pull either completes the file or returns data, so any positive fuel
suffices. -/
def nextChunkLoop : Nat → FS → SourceFile → SourceFile × Bytes
  | 0, _, af => (af, [])
  | fuel + 1, fs, af =>
    let r := af.next_chunk fs
    if r.1.transmitted then (r.1, r.2.1)
    else if r.2.1 ≠ [] then (r.1, r.2.1)
    else nextChunkLoop fuel fs r.1

/-- Source: ActiveSend.next_chunk (lines 676-701). -/
def ActiveSend.next_chunk (fuel now : Nat) (fs : FS) (asd : ActiveSend) :
    ActiveSend × Option FTC :=
  let asd := { asd with last_activity_at := now }
  match asd.pending_chunks with
  | c :: rest => ({ asd with pending_chunks := rest }, some c)
  | [] =>
    let picked : Option (ActiveSend × SourceFile) :=
      match asd.active_file with
      | some af => some (asd, af)
      | none =>
        match asd.queued_files_map.find? (fun kv => kv.2.ready_to_transmit) with
        | some kv =>
          some ({ asd with
                  active_file := some kv.2,
                  queued_files_map := aerase kv.1 asd.queued_files_map }, kv.2)
        | none => none
    match picked with
    | none => (asd, none)
    | some p =>
      let asd := p.1
      let r := nextChunkLoop fuel fs p.2
      let af2 := r.1
      let chunk := r.2
      let asd := if af2.transmitted then { asd with active_file := none }
        else { asd with active_file := some af2 }
      if chunk ≠ [] then
        match split_for_transfer chunk [] af2.file_id af2.transmitted with
        | c :: rest => ({ asd with pending_chunks := asd.pending_chunks ++ rest }, some c)
        | [] => (asd, none)
      else if af2.transmitted then
        (asd, some { action := .end_data, file_id := af2.file_id })
      else (asd, none)

/-- Source: ActiveSend.return_chunk (lines 703-704). -/
def ActiveSend.return_chunk (asd : ActiveSend) (ftc : FTC) : ActiveSend :=
  { asd with pending_chunks := ftc :: asd.pending_chunks }

/-- Keys of an association list after aset: membership characterization. -/
theorem aset_fst_mem {α : Type} (k : Str) (v : α) (l : List (Str × α)) (x : Str)
    (hx : x ∈ (aset k v l).map Prod.fst) : x ∈ l.map Prod.fst ∨ x = k := by
  induction l with
  | nil =>
    simp [aset] at hx
    exact Or.inr hx
  | cons p rest ih =>
    simp only [aset] at hx
    split at hx
    · simp only [List.map_cons, List.mem_cons] at hx
      rcases hx with h1 | h1
      · exact Or.inl (by simp [h1])
      · exact Or.inl (by simp only [List.map_cons, List.mem_cons]; exact Or.inr h1)
    · simp only [List.map_cons, List.mem_cons] at hx
      rcases hx with h1 | h1
      · exact Or.inl (by simp [h1])
      · rcases ih h1 with h2 | h2
        · exact Or.inl (by simp only [List.map_cons, List.mem_cons]; exact Or.inr h2)
        · exact Or.inr h2

theorem aset_fst_nodup {α : Type} (k : Str) (v : α) (l : List (Str × α))
    (h : (l.map Prod.fst).Nodup) : ((aset k v l).map Prod.fst).Nodup := by
  induction l with
  | nil => simp [aset]
  | cons p rest ih =>
    simp only [List.map_cons, List.nodup_cons] at h
    simp only [aset]
    split
    · simp only [List.map_cons, List.nodup_cons]
      exact h
    · rename_i hne
      simp only [List.map_cons, List.nodup_cons]
      constructor
      · intro hmem
        rcases aset_fst_mem k v rest p.1 hmem with h1 | h1
        · exact h.1 h1
        · exact hne h1
      · exact ih h.2

/-- No two DestFile entries share a file id within one session. -/
def FilesNodup (ar : ActiveReceive) : Prop := (ar.files.map Prod.fst).Nodup

instance (ar : ActiveReceive) : Decidable (FilesNodup ar) := by
  unfold FilesNodup; infer_instance

theorem insertDescLen_perm (x : DestFile) (l : List DestFile) :
    (insertDescLen x l).Perm (x :: l) := by
  induction l with
  | nil => rfl
  | cons y ys ih =>
    simp only [insertDescLen]
    split
    · exact ((ih.cons y).trans (List.Perm.swap x y ys))
    · rfl

theorem sortDescLen_perm (l : List DestFile) : (sortDescLen l).Perm l := by
  induction l with
  | nil => rfl
  | cons x xs ih =>
    simp only [sortDescLen]
    exact (insertDescLen_perm x (sortDescLen xs)).trans (ih.cons x)

theorem insertDescLen_pairwise (x : DestFile) (l : List DestFile)
    (h : l.Pairwise (fun a b => b.name.length ≤ a.name.length)) :
    (insertDescLen x l).Pairwise (fun a b => b.name.length ≤ a.name.length) := by
  induction l with
  | nil => simp [insertDescLen]
  | cons y ys ih =>
    simp only [insertDescLen]
    rw [List.pairwise_cons] at h
    split
    · rename_i hlt
      rw [List.pairwise_cons]
      constructor
      · intro z hz
        have hz2 := (insertDescLen_perm x ys).mem_iff.mp hz
        simp only [List.mem_cons] at hz2
        rcases hz2 with h1 | h1
        · subst h1; omega
        · exact h.1 z h1
      · exact ih h.2
    · rename_i hge
      rw [List.pairwise_cons]
      constructor
      · intro z hz
        simp only [List.mem_cons] at hz
        rcases hz with h1 | h1
        · subst h1; omega
        · have := h.1 z h1
          omega
      · rw [List.pairwise_cons]
        exact h

theorem sortDescLen_pairwise (l : List DestFile) :
    (sortDescLen l).Pairwise (fun a b => b.name.length ≤ a.name.length) := by
  induction l with
  | nil => simp [sortDescLen]
  | cons x xs ih =>
    simp only [sortDescLen]
    exact insertDescLen_pairwise x (sortDescLen xs) ih

theorem alookup_aset {α : Type} (k : Str) (v : α) (l : List (Str × α)) :
    alookup k (aset k v l) = some v := by
  induction l with
  | nil => simp [aset, alookup]
  | cons p rest ih =>
    simp only [aset]
    split
    · rename_i he
      simp [alookup, he]
    · rename_i he
      simp [alookup, he, ih]

/-- Claim C5: within one ActiveReceive no two DestFile entries ever share a
file_id.  start_file called with an already-present file_id returns the
EINVAL-coded TransmissionError and leaves the file map unchanged, and
start_file, add_data, close and cancel all preserve distinctness of the
file ids. -/
theorem C5_unique_file_ids (fs : FS) (now : Nat) (ar : ActiveReceive) (ftc : FTC)
    (hnd : FilesNodup ar) :
    ((∃ df0, alookup ftc.file_id ar.files = some df0) →
      (ar.start_file fs now ftc).1.files = ar.files ∧
      (ar.start_file fs now ftc).2 = .error (.transmission
        { code := Sum.inl .EINVAL
          human_msg := strLit ("The file_id ") ++ ftc.file_id ++ strLit (" already exists")
          file_id := ftc.file_id })) ∧
    FilesNodup (ar.start_file fs now ftc).1 ∧
    FilesNodup (ar.add_data fs now ftc).1 ∧
    FilesNodup ar.close ∧
    FilesNodup ar.cancel := by
  refine ⟨?_, ?_, ?_, ?_, ?_⟩
  · rintro ⟨df0, hdf⟩
    simp [ActiveReceive.start_file, hdf]
  · unfold FilesNodup
    cases hdf : alookup ftc.file_id ar.files with
    | some df0 =>
      have hfiles : (ar.start_file fs now ftc).1.files = ar.files := by
        simp [ActiveReceive.start_file, hdf]
      rw [hfiles]
      exact hnd
    | none =>
      have hfiles : (ar.start_file fs now ftc).1.files =
          aset ftc.file_id (DestFile.ofCmd fs ftc) ar.files := by
        simp [ActiveReceive.start_file, hdf]
      rw [hfiles]
      exact aset_fst_nodup _ _ _ hnd
  · unfold FilesNodup
    cases hdf : alookup ftc.file_id ar.files with
    | none =>
      have hfiles : (ar.add_data fs now ftc).1.files = ar.files := by
        simp [ActiveReceive.add_data, hdf]
      rw [hfiles]
      exact hnd
    | some df =>
      by_cases hfail : df.failed
      · have hfiles : (ar.add_data fs now ftc).1.files = ar.files := by
          simp [ActiveReceive.add_data, hdf, hfail]
        rw [hfiles]
        exact hnd
      · cases hw : DestFile.write_data fs ar.files df ftc.data (ftc.action = .end_data) with
        | ok dfs =>
          have hfiles : (ar.add_data fs now ftc).1.files =
              aset ftc.file_id dfs.1 ar.files := by
            simp [ActiveReceive.add_data, hdf, hfail, hw]
          rw [hfiles]
          exact aset_fst_nodup _ _ _ hnd
        | error e =>
          have hfiles : (ar.add_data fs now ftc).1.files =
              aset ftc.file_id (DestFile.close { df with failed := true }) ar.files := by
            simp [ActiveReceive.add_data, hdf, hfail, hw]
          rw [hfiles]
          exact aset_fst_nodup _ _ _ hnd
  · exact List.nodup_nil
  · exact List.nodup_nil

/-- A sample DestFile registered in the session used to witness C5. -/
def c5df : DestFile :=
  { name := [47, 97]
    existing_stat := none
    needs_unlink := false
    mtime := -1
    file_id := [102]
    permissions := -1
    ftype := .regular
    ttype := .simple
    link_target := []
    needs_data_sent := false
    compression := .none
    closed := false
    actual_file := none
    failed := false
    bytes_written := 0 }

/-- A session holding c5df, used to witness C5. -/
def c5ar : ActiveReceive :=
  { id := [49]
    bypass_ok := none
    files := [([102], c5df)]
    last_activity_at := 0
    send_acknowledgements := true
    send_errors := true }

/-- Claim C5, witness: a duplicate start_file on a concrete session leaves
the map unchanged. -/
theorem C5_unique_file_ids_witness :
    FilesNodup c5ar ∧
      (c5ar.start_file {} 3 { action := .file, id := [49], file_id := [102] }).1.files =
        c5ar.files :=
  ⟨by decide,
    ((C5_unique_file_ids {} 3 c5ar { action := .file, id := [49], file_id := [102] }
      (by decide)).1 ⟨c5df, by decide⟩).1⟩

/-- Claim C6: a directory DestFile is constructed closed, writing data to a
directory DestFile fails with EISDIR (the directory check precedes the
closed check), writing to any other closed DestFile fails with the
closed-file message, and in the directory case no bytes are written: the
session-level add_data leaves the filesystem unchanged and the stored
bytes_written count is untouched. -/
theorem C6_write_data_guards (fs : FS) (all : List (Str × DestFile)) (df : DestFile)
    (data : Bytes) (is_last : Bool) (ftc : FTC) (now : Nat) (ar : ActiveReceive) :
    (ftc.ftype = .directory → (DestFile.ofCmd fs ftc).closed = true) ∧
    (df.ftype = .directory →
      DestFile.write_data fs all df data is_last = .error (.transmission
        { code := Sum.inl .EISDIR
          file_id := df.file_id
          human_msg := strLit ("Cannot write data to a directory entry") })) ∧
    (df.ftype ≠ .directory → df.closed = true →
      DestFile.write_data fs all df data is_last = .error (.transmission
        { file_id := df.file_id
          human_msg := strLit ("Cannot write to a closed file") })) ∧
    (df.ftype = .directory → alookup ftc.file_id ar.files = some df → df.failed = false →
      (ar.add_data fs now ftc).2.1 = fs ∧
      (alookup ftc.file_id (ar.add_data fs now ftc).1.files).map
          (fun d => d.bytes_written) = some df.bytes_written) := by
  refine ⟨?_, ?_, ?_, ?_⟩
  · intro hdir
    simp [DestFile.ofCmd, hdir]
  · intro hdir
    simp [DestFile.write_data, hdir]
  · intro hdir hcl
    simp [DestFile.write_data, hdir, hcl]
  · intro hdir hdf hfail
    have hw : DestFile.write_data fs ar.files df ftc.data (ftc.action = .end_data) =
        .error (.transmission
          { code := Sum.inl .EISDIR
            file_id := df.file_id
            human_msg := strLit ("Cannot write data to a directory entry") }) := by
      simp [DestFile.write_data, hdir]
    refine ⟨?_, ?_⟩
    · simp [ActiveReceive.add_data, hdf, hfail, hw]
    · have hfiles : (ar.add_data fs now ftc).1.files =
          aset ftc.file_id (DestFile.close { df with failed := true }) ar.files := by
        simp [ActiveReceive.add_data, hdf, hfail, hw]
      rw [hfiles, alookup_aset]
      simp [DestFile.close]
      split <;> rfl

/-- A directory DestFile used to witness C6. -/
def c6df : DestFile :=
  { name := [47, 100]
    existing_stat := none
    needs_unlink := false
    mtime := -1
    file_id := [103]
    permissions := -1
    ftype := .directory
    ttype := .simple
    link_target := []
    needs_data_sent := false
    compression := .none
    closed := true
    actual_file := none
    failed := false
    bytes_written := 0 }

/-- A session holding the directory c6df, used to witness C6. -/
def c6ar : ActiveReceive :=
  { id := [50]
    bypass_ok := none
    files := [([103], c6df)]
    last_activity_at := 0
    send_acknowledgements := true
    send_errors := true }

/-- Claim C6, witness: writing data to a concrete directory DestFile fails
with EISDIR and leaves the filesystem and byte count untouched. -/
theorem C6_write_data_guards_witness :
    DestFile.write_data {} [] c6df [1, 2] true = .error (.transmission
      { code := Sum.inl .EISDIR
        file_id := [103]
        human_msg := strLit ("Cannot write data to a directory entry") }) ∧
      (c6ar.add_data {} 7
        { action := .data, id := [50], file_id := [103], data := [1, 2] }).2.1 =
        ({} : FS) :=
  ⟨by
    have h := (C6_write_data_guards {} [] c6df [1, 2] true
      { action := .data, id := [50], file_id := [103], data := [1, 2] } 7 c6ar).2.1
      (by decide)
    simpa using h,
   ((C6_write_data_guards {} [] c6df [1, 2] true
      { action := .data, id := [50], file_id := [103], data := [1, 2] } 7 c6ar).2.2.2
      (by decide) (by decide) (by decide)).1⟩

/-- Claim C8: commit visits exactly the directory-type DestFiles of the
session, in descending order of path length (a stable sort, so parents are
processed after their longer-named children), the commit result is the
fold of apply_metadata over that list, and an OSError on one directory is
swallowed: the fold continues with the remaining directories and the
filesystem unchanged by the failing step. -/
theorem C8_commit_directories (fs : FS) (ar : ActiveReceive) :
    ar.commitDirs.Perm
        ((ar.files.map Prod.snd).filter (fun df => df.ftype = .directory)) ∧
    ar.commitDirs.Pairwise (fun a b => b.name.length ≤ a.name.length) ∧
    ActiveReceive.commit fs ar =
      ar.commitDirs.foldl
        (fun fs2 df =>
          match DestFile.apply_metadata fs2 df false with
          | .ok fs3 => fs3
          | .error _ => fs2)
        fs ∧
    (∀ (fs2 : FS) (df : DestFile) (rest : List DestFile) (e : OSError),
      DestFile.apply_metadata fs2 df false = .error e →
      (df :: rest).foldl
          (fun fs3 d =>
            match DestFile.apply_metadata fs3 d false with
            | .ok fs4 => fs4
            | .error _ => fs3)
          fs2 =
        rest.foldl
          (fun fs3 d =>
            match DestFile.apply_metadata fs3 d false with
            | .ok fs4 => fs4
            | .error _ => fs3)
          fs2) := by
  refine ⟨sortDescLen_perm _, sortDescLen_pairwise _, rfl, ?_⟩
  intro fs2 df rest e herr
  simp [List.foldl_cons, herr]

/-- A directory DestFile with metadata to apply, used to witness C8. -/
def c8df : DestFile :=
  { name := [47, 120]
    existing_stat := none
    needs_unlink := false
    mtime := 5
    file_id := [104]
    permissions := 420
    ftype := .directory
    ttype := .simple
    link_target := []
    needs_data_sent := false
    compression := .none
    closed := true
    actual_file := none
    failed := false
    bytes_written := 0 }

/-- Claim C8, witness: applying metadata for a directory missing from the
filesystem fails with an OSError and the commit fold swallows it. -/
theorem C8_commit_directories_witness :
    DestFile.apply_metadata {} c8df false = .error { errname := strLit ("ENOENT") } ∧
      [c8df].foldl
          (fun fs3 d =>
            match DestFile.apply_metadata fs3 d false with
            | .ok fs4 => fs4
            | .error _ => fs3)
          ({} : FS) =
        ([] : List DestFile).foldl
          (fun fs3 d =>
            match DestFile.apply_metadata fs3 d false with
            | .ok fs4 => fs4
            | .error _ => fs3)
          ({} : FS) :=
  ⟨by rfl,
    (C8_commit_directories {}
      { id := [51], bypass_ok := none, files := [], last_activity_at := 0,
        send_acknowledgements := true, send_errors := true }).2.2.2
      {} c8df [] { errname := strLit ("ENOENT") } (by rfl)⟩

/-- Modelled from the spec: the bypass token the spec describes, namely
the literal prefix sha256: followed by the lowercase hex digest of the
SHA-256 hash of the UTF-8 bytes of the request id, then the byte 59
(";"), then the UTF-8 bytes of the passphrase. -/
def encode_bypass_spec (request_id bypass : Str) : Str :=
  strLit ("sha256:") ++
    bytesToHex (sha256 (utf8Encode request_id ++ [59] ++ utf8Encode bypass))

/-- Claim C2: encode_bypass agrees with the spec-side encoding, and a
session's bypass_ok is some true exactly when the command carried a
bypass token, the configured passphrase is non-empty and the token equals
the encoding for the session's request id; with no token bypass_ok stays
None.  (The spec's constant-time clause concerns timing, which a
functional embedding cannot observe; the source compares with plain ==.) -/
theorem C2_bypass_check (request_id bypass cfgBypass : Str) (quiet : Int) (now : Nat) :
    encode_bypass request_id cfgBypass = encode_bypass_spec request_id cfgBypass ∧
    ((ActiveReceive.init request_id quiet bypass cfgBypass now).bypass_ok = some true ↔
      bypass ≠ [] ∧ cfgBypass ≠ [] ∧ encode_bypass request_id cfgBypass = bypass) ∧
    ((ActiveReceive.init request_id quiet bypass cfgBypass now).bypass_ok = none ↔
      bypass = []) := by
  refine ⟨?_, ?_, ?_⟩
  · unfold encode_bypass encode_bypass_spec
    rw [utf8Encode_append]
    simp [utf8Encode, utf8EncodeChar, semi]
  · constructor
    · intro h
      by_cases hb : bypass = []
      · simp [ActiveReceive.init, hb] at h
      · by_cases hc : cfgBypass = []
        · simp [ActiveReceive.init, hb, hc] at h
        · refine ⟨hb, hc, ?_⟩
          simp [ActiveReceive.init, hb, hc] at h
          exact h
    · rintro ⟨hb, hc, he⟩
      simp [ActiveReceive.init, hb, hc, he]
  · constructor
    · intro h
      by_contra hb
      simp [ActiveReceive.init, hb] at h
    · intro hb
      simp [ActiveReceive.init, hb]

/-- The hard-link deduplication map of iter_file_metadata: groups of
commands keyed by (st_dev, st_ino), in first-insertion order (a Python
defaultdict of lists, lines 73 and 94-95). -/
abbrev FileMap := List ((Nat × Nat) × List FTC)

def fmLookup (k : Nat × Nat) : FileMap → Option (List FTC)
  | [] => none
  | (k2, v) :: rest => if k2 = k then some v else fmLookup k rest

/-- Append a command to its inode group, creating the group at the end on
first sight (defaultdict(list) append, line 95). -/
def fmAdd (k : Nat × Nat) (c : FTC) : FileMap → FileMap
  | [] => [(k, [c])]
  | (k2, v) :: rest =>
    if k2 = k then (k2, v ++ [c]) :: rest else (k2, v) :: fmAdd k c rest

/-- The walker's mutable state: the inode map and the status counter
(count(), line 74). -/
structure WalkSt where
  fm : FileMap
  counter : Nat

/-- The FileType for a stat result, None for the ValueError branch of
make_ftc (lines 82-89). -/
def ftypeOf : FileKind → Option FileType
  | .symlink => some .symlink
  | .directory => some .directory
  | .regular => some .regular
  | .other => none

/-- Source: the make_ftc closure of iter_file_metadata (lines 79-95) with
the stat result already taken: build the metadata command with the next
counter value as its status and register it under its inode key; None is
the ValueError for an inappropriate file type. -/
def makeFtc (st : WalkSt) (path spec_id : Str) (sr : FSStat) (parent : Str) :
    Option (WalkSt × FTC) :=
  match ftypeOf sr.kind with
  | none => none
  | some ft =>
    let ftc : FTC :=
      { action := .file, file_id := spec_id, mtime := sr.st_mtime_ns,
        permissions := sr.perm, name := path, status := decimalNat st.counter,
        size := sr.st_size, ftype := ft, parent := parent }
    some ({ fm := fmAdd (sr.st_dev, sr.st_ino) ftc st.fm, counter := st.counter + 1 }, ftc)

/-- Source: the add_dir closure of iter_file_metadata (lines 97-107):
list the directory (OSError means skip), make a command for each child
(stat or type errors skip the child) and recurse into child directories.
Recursion is fuelled by the directory nesting depth. -/
def addDir (fs : FS) (fuel : Nat) (spec_id : Str) (st : WalkSt) (ftc : FTC) : WalkSt :=
  match fuel with
  | 0 => st
  | fuel + 1 =>
    match FS.listdir fs ftc.name with
    | none => st
    | some entries =>
      entries.foldl
        (fun st2 entry =>
          let child := os_path_join ftc.name entry
          match FS.lstat fs child with
          | none => st2
          | some sr =>
            match makeFtc st2 child spec_id sr ftc.status with
            | none => st2
            | some (st3, cftc) =>
              if cftc.ftype = .directory then addDir fs fuel spec_id st3 cftc else st3)
        st

/-- The absolute-path resolution applied to each spec (lines 111-114):
expand a home-relative spec, else anchor it at the home directory. -/
def resolveSpecPath (fs : FS) (path0 : Str) : Str :=
  if os_path_isabs path0 then path0
  else
    let p1 := os_path_expanduser fs path0
    if os_path_isabs p1 then p1 else os_path_join fs.home p1

/-- Source: the per-spec body of iter_file_metadata (lines 110-132): make
the path absolute, stat it (failure yields a Failed-to-read error, the
errno name modelled as ENOENT for a missing path), check readability
(EPERM), build the command (EINVAL for a bad file type) and walk
directories recursively. -/
def walkSpec (fs : FS) (fuel : Nat) (acc : WalkSt × List TransmissionError)
    (sp : Str × Str) : WalkSt × List TransmissionError :=
  let spec_id := sp.1
  let path := resolveSpecPath fs sp.2
  match FS.lstat fs path with
  | none =>
    (acc.1, acc.2 ++
      [{ code := Sum.inr (strLit ("ENOENT")), file_id := spec_id,
         human_msg := strLit ("Failed to read spec") }])
  | some sr =>
    if FS.access_r fs path then
      match makeFtc acc.1 path spec_id sr [] with
      | none =>
        (acc.1, acc.2 ++
          [{ code := Sum.inl .EINVAL, file_id := spec_id,
             human_msg := strLit ("Not a valid filetype") }])
      | some (st2, ftc) =>
        (if ftc.ftype = .directory then addDir fs fuel spec_id st2 ftc else st2, acc.2)
    else
      (acc.1, acc.2 ++
        [{ code := Sum.inl .EPERM, file_id := spec_id,
           human_msg := strLit ("No permission to read spec") }])

def walkSpecs (fs : FS) (fuel : Nat) (specs : List (Str × Str)) :
    WalkSt × List TransmissionError :=
  specs.foldl (walkSpec fs fuel) (⟨[], 0⟩, [])

/-- Source: the resolve_symlink closure (lines 135-150): point a symlink
command's data at the status of the inode group its OS-resolved target
belongs to, when there is one. -/
def resolve_symlink (fs : FS) (fm : FileMap) (ftc : FTC) : FTC :=
  if ftc.ftype = .symlink then
    match FS.realpath fs ftc.name with
    | none => ftc
    | some dest =>
      match FS.lstat fs dest with
      | none => ftc
      | some s =>
        match fmLookup (s.st_dev, s.st_ino) fm with
        | some (t0 :: _) => { ftc with data := utf8Encode t0.status }
        | _ => ftc
  else ftc

/-- Source: the emission loop of iter_file_metadata (lines 152-159): for
each inode group yield the first (canonical) command, then, when the
canonical is a regular file with siblings, each later regular sibling
re-typed as a link whose data is the canonical status. -/
def emitGroup (fs : FS) (fm : FileMap) (g : (Nat × Nat) × List FTC) : List FTC :=
  match g.2 with
  | [] => []
  | base :: rest =>
    resolve_symlink fs fm base ::
      (if rest ≠ [] ∧ base.ftype = .regular then
        (rest.filter (fun q => q.ftype = .regular)).map
          (fun q => { q with ftype := .link, data := utf8Encode base.status })
      else [])

/-- Source: iter_file_metadata (lines 72-159): the spec-walk phase yields
only TransmissionErrors and the emission phase yields only commands, so
the stream is the errors in spec order followed by the per-group
emissions in first-seen inode order. -/
def iter_file_metadata (fs : FS) (fuel : Nat) (specs : List (Str × Str)) :
    List (Except TransmissionError FTC) :=
  let wp := walkSpecs fs fuel specs
  wp.2.map .error ++ wp.1.fm.flatMap (fun g => (emitGroup fs wp.1.fm g).map .ok)

/-- A walker inode group is non-empty, its statuses are counter values
below the bound, and it lists its commands in creation order. -/
def GroupCtr (bound : Nat) (cmds : List FTC) : Prop :=
  cmds ≠ [] ∧
  (∀ c ∈ cmds, ∃ m, c.status = decimalNat m ∧ m < bound) ∧
  cmds.Pairwise (fun a b => ∃ m n, a.status = decimalNat m ∧ b.status = decimalNat n ∧ m < n)

/-- Every group of the walker state satisfies GroupCtr at the current
counter. -/
def WalkInv (st : WalkSt) : Prop := ∀ g ∈ st.fm, GroupCtr st.counter g.2

theorem groupCtr_mono (b b2 : Nat) (cmds : List FTC) (hb : b ≤ b2)
    (h : GroupCtr b cmds) : GroupCtr b2 cmds := by
  obtain ⟨h1, h2, h3⟩ := h
  refine ⟨h1, ?_, h3⟩
  intro c hc
  obtain ⟨m, hm, hlt⟩ := h2 c hc
  exact ⟨m, hm, lt_of_lt_of_le hlt hb⟩

theorem fmAdd_inv (k : Nat × Nat) (c : FTC) (ctr : Nat)
    (hc : c.status = decimalNat ctr) :
    ∀ fm : FileMap, (∀ g ∈ fm, GroupCtr ctr g.2) →
      ∀ g ∈ fmAdd k c fm, GroupCtr (ctr + 1) g.2 := by
  intro fm
  induction fm with
  | nil =>
    intro _ g hg
    simp only [fmAdd, List.mem_singleton] at hg
    subst hg
    refine ⟨by simp, ?_, by simp⟩
    intro c2 hc2
    simp only [List.mem_singleton] at hc2
    subst hc2
    exact ⟨ctr, hc, Nat.lt_succ_self ctr⟩
  | cons p rest ih =>
    intro hall g hg
    simp only [fmAdd] at hg
    by_cases hk : p.1 = k
    · rw [if_pos hk] at hg
      rcases List.mem_cons.mp hg with hg | hg
      · subst hg
        have hold := hall p (List.mem_cons_self _ _)
        obtain ⟨o1, o2, o3⟩ := hold
        refine ⟨by simp [o1], ?_, ?_⟩
        · intro c2 hc2
          rcases List.mem_append.mp hc2 with hc2 | hc2
          · obtain ⟨m, hm, hlt⟩ := o2 c2 hc2
            exact ⟨m, hm, Nat.lt_succ_of_lt hlt⟩
          · simp only [List.mem_singleton] at hc2
            subst hc2
            exact ⟨ctr, hc, Nat.lt_succ_self ctr⟩
        · rw [List.pairwise_append]
          refine ⟨o3, by simp, ?_⟩
          intro a ha b hb
          simp only [List.mem_singleton] at hb
          subst hb
          obtain ⟨m, hm, hlt⟩ := o2 a ha
          exact ⟨m, ctr, hm, hc, hlt⟩
      · exact groupCtr_mono ctr (ctr + 1) g.2 (Nat.le_succ ctr)
          (hall g (List.mem_cons_of_mem _ hg))
    · rw [if_neg hk] at hg
      rcases List.mem_cons.mp hg with hg | hg
      · subst hg
        exact groupCtr_mono ctr (ctr + 1) p.2 (Nat.le_succ ctr)
          (hall p (List.mem_cons_self _ _))
      · exact ih (fun g2 hg2 => hall g2 (List.mem_cons_of_mem _ hg2)) g hg

theorem makeFtc_inv (st : WalkSt) (path spec_id : Str) (sr : FSStat) (parent : Str)
    (st2 : WalkSt) (ftc : FTC)
    (h : makeFtc st path spec_id sr parent = some (st2, ftc))
    (hinv : WalkInv st) : WalkInv st2 := by
  unfold makeFtc at h
  cases hft : ftypeOf sr.kind with
  | none => rw [hft] at h; exact absurd h (by simp)
  | some ft =>
    rw [hft] at h
    simp only [Option.some.injEq, Prod.mk.injEq] at h
    obtain ⟨hst2, hftc⟩ := h
    rw [← hst2]
    intro g hg
    exact fmAdd_inv (sr.st_dev, sr.st_ino) _ st.counter rfl st.fm hinv g hg

theorem foldl_pres {α σ : Type} (P : σ → Prop) (f : σ → α → σ)
    (hf : ∀ s a, P s → P (f s a)) : ∀ (l : List α) (s : σ), P s → P (l.foldl f s) := by
  intro l
  induction l with
  | nil => intro s hs; exact hs
  | cons a rest ih => intro s hs; exact ih (f s a) (hf s a hs)

theorem addDir_inv (fs : FS) (spec_id : Str) :
    ∀ (fuel : Nat) (st : WalkSt) (ftc : FTC), WalkInv st →
      WalkInv (addDir fs fuel spec_id st ftc) := by
  intro fuel
  induction fuel with
  | zero => intro st ftc h; exact h
  | succ fuel ih =>
    intro st ftc h
    unfold addDir
    cases FS.listdir fs ftc.name with
    | none => exact h
    | some entries =>
      refine foldl_pres WalkInv _ ?_ entries st h
      intro s a hs
      dsimp only []
      split
      · exact hs
      · split
        · exact hs
        · rename_i sr hls st3 cftc hmk
          have hinv2 := makeFtc_inv s _ _ _ _ st3 cftc hmk hs
          split
          · exact ih st3 cftc hinv2
          · exact hinv2

theorem walkSpec_inv (fs : FS) (fuel : Nat) (acc : WalkSt × List TransmissionError)
    (sp : Str × Str) (h : WalkInv acc.1) : WalkInv (walkSpec fs fuel acc sp).1 := by
  unfold walkSpec
  dsimp only []
  split
  · exact h
  · split
    · split
      · exact h
      · rename_i sr hls st2 ftc hmk
        have hinv2 := makeFtc_inv acc.1 _ _ _ _ st2 ftc hmk h
        dsimp only []
        split
        · exact addDir_inv fs sp.1 fuel st2 ftc hinv2
        · exact hinv2
    · exact h

theorem walkSpecs_inv (fs : FS) (fuel : Nat) (specs : List (Str × Str)) :
    WalkInv (walkSpecs fs fuel specs).1 := by
  unfold walkSpecs
  have hbase : WalkInv (⟨[], 0⟩ : WalkSt) := by
    intro g hg
    exact absurd hg (List.not_mem_nil g)
  exact foldl_pres (fun acc => WalkInv acc.1) (walkSpec fs fuel)
    (fun s a hs => walkSpec_inv fs fuel s a hs) specs (⟨[], 0⟩, []) hbase

theorem resolve_symlink_status (fs : FS) (fm : FileMap) (b : FTC) :
    (resolve_symlink fs fm b).status = b.status := by
  unfold resolve_symlink
  split
  · split
    · rfl
    · split
      · rfl
      · split
        · rfl
        · rfl
  · rfl

/-- Claim C7: every inode group produced by the walk is non-empty with its
canonical (first-seen) entry at the head, created strictly before every
same-inode sibling (the status counters witness the order); the emission
for a group yields the canonical entry first, and every later entry it
yields is a regular sibling re-typed to link whose data is the UTF-8
bytes of the canonical entry's status counter value. -/
theorem C7_hardlink_dedup (fs : FS) (fuel : Nat) (specs : List (Str × Str)) :
    iter_file_metadata fs fuel specs =
      (walkSpecs fs fuel specs).2.map .error ++
        (walkSpecs fs fuel specs).1.fm.flatMap
          (fun g => (emitGroup fs (walkSpecs fs fuel specs).1.fm g).map .ok) ∧
    ∀ key cmds, (key, cmds) ∈ (walkSpecs fs fuel specs).1.fm →
      ∃ base rest, cmds = base :: rest ∧
        (∀ q ∈ rest, ∃ m n, base.status = decimalNat m ∧ q.status = decimalNat n ∧ m < n) ∧
        emitGroup fs (walkSpecs fs fuel specs).1.fm (key, cmds) =
          resolve_symlink fs (walkSpecs fs fuel specs).1.fm base ::
            (if rest ≠ [] ∧ base.ftype = .regular then
              (rest.filter (fun q => q.ftype = .regular)).map
                (fun q => { q with ftype := .link, data := utf8Encode base.status })
            else []) ∧
        (resolve_symlink fs (walkSpecs fs fuel specs).1.fm base).status = base.status ∧
        ∀ q ∈ (emitGroup fs (walkSpecs fs fuel specs).1.fm (key, cmds)).tail,
          q.ftype = .link ∧ q.data = utf8Encode base.status := by
  refine ⟨rfl, ?_⟩
  intro key cmds hmem
  obtain ⟨hne, hbnd, hpw⟩ := walkSpecs_inv fs fuel specs (key, cmds) hmem
  cases cmds with
  | nil => exact absurd rfl hne
  | cons base rest =>
    refine ⟨base, rest, rfl, ?_, rfl, resolve_symlink_status fs _ base, ?_⟩
    · intro q hq
      rcases List.pairwise_cons.mp hpw with ⟨h1, h2⟩
      exact h1 q hq
    · intro q hq
      simp only [emitGroup, List.tail_cons] at hq
      split at hq
      · rcases List.mem_map.mp hq with ⟨q0, hq0, rfl⟩
        exact ⟨rfl, rfl⟩
      · exact absurd hq (List.not_mem_nil q)

/-- The shared stat of the two hard-linked paths in the C7 witness. -/
def c7stat : FSStat :=
  { st_dev := 0, st_ino := 5, kind := .regular, perm := 420, st_mtime_ns := 2, st_size := 3 }

/-- A filesystem with two hard-linked regular files /a and /b. -/
def c7fs : FS :=
  { table := [([47, 97], { stat := c7stat }), ([47, 98], { stat := c7stat })] }

def c7specs : List (Str × Str) := [([49], [47, 97]), ([50], [47, 98])]

/-- The canonical walker entry for /a. -/
def c7a : FTC :=
  { action := .file, file_id := [49], mtime := 2, permissions := 420, name := [47, 97],
    status := [48], size := 3, ftype := .regular, parent := [] }

/-- The same-inode sibling entry for /b. -/
def c7b : FTC :=
  { action := .file, file_id := [50], mtime := 2, permissions := 420, name := [47, 98],
    status := [49], size := 3, ftype := .regular, parent := [] }

/-- Claim C7, witness: the two hard-linked specs land in one inode group
and the stated canonical-first and alias properties hold there. -/
theorem C7_hardlink_dedup_witness :
    ((0, 5), [c7a, c7b]) ∈ (walkSpecs c7fs 1 c7specs).1.fm ∧
      ∃ base rest, [c7a, c7b] = base :: rest ∧
        (∀ q ∈ rest, ∃ m n, base.status = decimalNat m ∧ q.status = decimalNat n ∧ m < n) ∧
        emitGroup c7fs (walkSpecs c7fs 1 c7specs).1.fm ((0, 5), [c7a, c7b]) =
          resolve_symlink c7fs (walkSpecs c7fs 1 c7specs).1.fm base ::
            (if rest ≠ [] ∧ base.ftype = .regular then
              (rest.filter (fun q => q.ftype = .regular)).map
                (fun q => { q with ftype := .link, data := utf8Encode base.status })
            else []) ∧
        (resolve_symlink c7fs (walkSpecs c7fs 1 c7specs).1.fm base).status = base.status ∧
        ∀ q ∈ (emitGroup c7fs (walkSpecs c7fs 1 c7specs).1.fm ((0, 5), [c7a, c7b])).tail,
          q.ftype = .link ∧ q.data = utf8Encode base.status :=
  ⟨by decide, (C7_hardlink_dedup c7fs 1 c7specs).2 (0, 5) [c7a, c7b] (by decide)⟩

/-- Source: class FileTransmission (lines 707-714), with the write channel
of TestFileTransmission (lines 1119-1128): the child always accepts a
payload, recorded in responses in submission order, so the
pending_receive_responses queue stays empty.  window_id and the pending
timer have no observable effect under this writer and are omitted. -/
structure FileTransmission where
  active_receives : List (Str × ActiveReceive) := []
  active_sends : List (Str × ActiveSend) := []
  pending_receive_responses : List FTC := []
  responses : List FTC := []
deriving DecidableEq

/-- Source: TestFileTransmission.write_ftc_to_child (lines 1126-1128): the
payload is always accepted and recorded. -/
def FileTransmission.write_ftc (e : FileTransmission) (p : FTC) : FileTransmission × Bool :=
  ({ e with responses := e.responses ++ [p] }, true)

/-- Source: FileTransmission.send_status_response (lines 1018-1026). -/
def FileTransmission.send_status (e : FileTransmission) (code : ErrorCode ⊕ Str)
    (request_id file_id msg name : Str) (size : Int) (ttype : TransmissionType) :
    FileTransmission :=
  (e.write_ftc (TransmissionError.as_ftc
    { code := code, human_msg := msg, file_id := file_id, name := name, size := size,
      ttype := ttype } request_id)).1

/-- Source: FileTransmission.send_transmission_error (lines 1028-1031). -/
def FileTransmission.send_transmission_error (e : FileTransmission) (request_id : Str)
    (err : TransmissionError) : FileTransmission :=
  if err.transmit then (e.write_ftc (err.as_ftc request_id)).1 else e

/-- Source: FileTransmission.drop_receive (lines 744-747); ActiveReceive.close
only clears the session's own file map, which is discarded with it. -/
def FileTransmission.drop_receive (e : FileTransmission) (rid : Str) : FileTransmission :=
  { e with active_receives := aerase rid e.active_receives }

/-- Source: FileTransmission.drop_send (lines 749-752). -/
def FileTransmission.drop_send (e : FileTransmission) (sid : Str) : FileTransmission :=
  { e with active_sends := aerase sid e.active_sends }

/-- Source: FileTransmission.prune_expired (lines 754-760): dropping every
expired key in iteration order is the order-preserving filter. -/
def FileTransmission.prune_expired (now : Nat) (e : FileTransmission) : FileTransmission :=
  { e with
    active_receives := e.active_receives.filter
      (fun kv => ! ActiveReceive.is_expired now kv.2),
    active_sends := e.active_sends.filter (fun kv => ! ActiveSend.is_expired now kv.2) }

/-- Modelled from the spec (§6.6): the librsync signature stream of a file
is produced by an opaque library and no claim observes signature payloads,
so the stream is modelled as empty and the transmit loop goes straight to
its end_data marker. -/
def signature_of_file (fs : FS) (p : Str) : Except OSError (List Bytes) := .ok []

/-- Source: FileTransmission.transmit_rsync_signature (lines 981-1017)
flattened under the always-accepting writer and immediate callbacks: all
chunks are split and written, then the end_data marker; with no session
for receive_id nothing happens.  (The real loop re-checks the session per
callback and stops at an empty chunk; writes never change the session map
and the modelled stream has no empty chunks.) -/
def FileTransmission.transmit_rsync_signature (e : FileTransmission) (chunks : List Bytes)
    (receive_id file_id : Str) : FileTransmission :=
  match alookup receive_id e.active_receives with
  | none => e
  | some _ =>
    let e2 := chunks.foldl
      (fun acc ch =>
        (split_for_transfer ch receive_id file_id false).foldl
          (fun a d => (a.write_ftc d).1) acc)
      e
    (e2.write_ftc { action := .end_data, id := receive_id, file_id := file_id }).1

/-- One step of the metadata emission loop (lines 843-851): a walker error
is forwarded when errors are wanted, a command is written with the
session id filled in. -/
def emitItem (asd : ActiveSend) (acc : FileTransmission)
    (it : Except TransmissionError FTC) : FileTransmission :=
  match it with
  | .error te => if asd.send_errors then acc.send_transmission_error asd.id te else acc
  | .ok ftc => (acc.write_ftc { ftc with id := asd.id }).1

/-- Source: FileTransmission.send_metadata_for_send_transfer (lines
841-857): emit the walker stream for the collected specs; if anything was
emitted acknowledge with OK (name = home) and mark metadata_sent on the
stored session, else report ENOENT No files found and drop the session.
The stored session is only updated when the id is still present, matching
the in-place object mutation of the source. -/
def FileTransmission.send_metadata_for_send_transfer (fs : FS) (fuel : Nat)
    (e : FileTransmission) (asd : ActiveSend) : FileTransmission :=
  let items := iter_file_metadata fs fuel asd.file_specs
  let e2 := items.foldl (emitItem asd) e
  if items.isEmpty then
    let e3 := e2.send_status (Sum.inl .ENOENT) asd.id [] (strLit ("No files found")) []
      (-1) .simple
    e3.drop_send asd.id
  else
    let e3 := e2.send_status (Sum.inl .OK) asd.id [] [] fs.home (-1) .simple
    { e3 with
      active_sends := if (alookup asd.id e3.active_sends).isSome then
          aset asd.id { asd with metadata_sent := true } e3.active_sends
        else e3.active_sends }

/-- Source: FileTransmission.pump_send_chunks (lines 859-874) under the
always-accepting writer: pull and write chunks until the session has none
ready.  The loop fuel bounds the number of pulls. -/
def FileTransmission.pump_send_chunks (fuelP fuelC now : Nat) (fs : FS)
    (e : FileTransmission) (asd : ActiveSend) : FileTransmission × ActiveSend :=
  match fuelP with
  | 0 => (e, asd)
  | fuelP + 1 =>
    match ActiveSend.next_chunk fuelC now fs asd with
    | (asd2, none) => (e, asd2)
    | (asd2, some ftc) =>
      FileTransmission.pump_send_chunks fuelP fuelC now fs
        (e.write_ftc { ftc with id := asd2.id }).1 asd2

/-- Source: FileTransmission.handle_receive_confirmation (lines 1063-1078)
(the send-side confirmation callback): y marks the session accepted, n
drops it; an accepted session gets an OK acknowledgement (quiet < 1) and,
once its specs are complete, the metadata emission; a refused one gets
EPERM (quiet < 2). -/
def FileTransmission.handle_receive_confirmation (fs : FS) (fuel : Nat)
    (e : FileTransmission) (cmd_id : Str) (yes : Bool) : FileTransmission :=
  match alookup cmd_id e.active_sends with
  | none => e
  | some asd =>
    let asd2 := if yes then { asd with accepted := true } else asd
    let e2 := if yes then
        { e with active_sends := aset cmd_id asd2 e.active_sends }
      else e.drop_send asd.id
    if asd2.accepted then
      let e3 := if asd2.send_acknowledgements then
          e2.send_status (Sum.inl .OK) asd2.id [] [] [] (-1) .simple
        else e2
      if asd2.spec_complete then e3.send_metadata_for_send_transfer fs fuel asd2 else e3
    else
      if asd2.send_errors then
        e2.send_status (Sum.inl .EPERM) asd2.id [] (strLit ("User refused the transfer"))
          [] (-1) .simple
      else e2

/-- Source: FileTransmission.handle_send_confirmation (lines 1095-1107)
(the receive-side confirmation callback). -/
def FileTransmission.handle_send_confirmation (e : FileTransmission) (cmd_id : Str)
    (yes : Bool) : FileTransmission :=
  match alookup cmd_id e.active_receives with
  | none => e
  | some ar =>
    let ar2 := if yes then { ar with accepted := true } else ar
    let e2 := if yes then
        { e with active_receives := aset cmd_id ar2 e.active_receives }
      else e.drop_receive ar.id
    if ar2.accepted then
      if ar2.send_acknowledgements then
        e2.send_status (Sum.inl .OK) ar2.id [] [] [] (-1) .simple
      else e2
    else
      if ar2.send_errors then
        e2.send_status (Sum.inl .EPERM) ar2.id [] (strLit ("User refused the transfer"))
          [] (-1) .simple
      else e2

/-- Source: FileTransmission.start_receive (lines 1081-1093): a carried
bypass token resolves the confirmation immediately; otherwise the user is
prompted and the confirmation arrives later as its own event. -/
def FileTransmission.start_receive (e : FileTransmission) (ar_id : Str) :
    FileTransmission :=
  match alookup ar_id e.active_receives with
  | none => e
  | some ar =>
    match ar.bypass_ok with
    | some b => e.handle_send_confirmation ar_id b
    | none => e

/-- Source: FileTransmission.start_send (lines 1049-1061). -/
def FileTransmission.start_send (fs : FS) (fuel : Nat) (e : FileTransmission)
    (asd_id : Str) : FileTransmission :=
  match alookup asd_id e.active_sends with
  | none => e
  | some asd =>
    match asd.bypass_ok with
    | some b => FileTransmission.handle_receive_confirmation fs fuel e asd_id b
    | none => e

/-- The transmission type granted by the STARTED acknowledgement (lines
925-927): rsync only for a regular file with a stat-ed existing size. -/
def startedTType (sz : Int) (df : DestFile) : TransmissionType :=
  if sz > -1 ∧ df.ttype = .rsync ∧ df.ftype = .regular then .rsync else .simple

/-- The continuation of the file action of handle_receive_cmd (lines
900-936), taking the start_file result. -/
def hrcFileRes (fs : FS) (now : Nat) (cmd : FTC) (e1 : FileTransmission)
    (ar2 : ActiveReceive) (res : Except PyErr DestFile) : FileTransmission × FS :=
  let e2 := { e1 with active_receives := aset cmd.id ar2 e1.active_receives }
  match res with
  | .error (.transmission err) =>
    ((if ar2.send_errors then e2.send_transmission_error ar2.id err else e2), fs)
  | .error (.os o) =>
    ((if ar2.send_errors then
        e2.send_transmission_error ar2.id
          { code := Sum.inl .EINVAL, human_msg := o.errname, file_id := cmd.file_id }
      else e2), fs)
  | .error (.generic s) =>
    ((if ar2.send_errors then
        e2.send_transmission_error ar2.id
          { code := Sum.inl .EINVAL, human_msg := s, file_id := cmd.file_id }
      else e2), fs)
  | .ok df =>
    if df.ftype = .directory then
      match FS.makedirs fs df.name with
      | .error oserr =>
        ((if ar2.send_errors then
            e2.send_status (Sum.inr oserr.errname) ar2.id df.file_id
              (strLit ("Failed to create directory")) [] (-1) .simple
          else e2), fs)
      | .ok fs2 =>
        (e2.send_status (Sum.inl .OK) ar2.id df.file_id [] df.name (-1) .simple, fs2)
    else
      if ar2.send_acknowledgements then
        let sz : Int := match df.existing_stat with
          | some st => st.st_size
          | none => -1
        let ttype := startedTType sz df
        let e3 := e2.send_status (Sum.inl .STARTED) ar2.id df.file_id [] df.name
          sz ttype
        let ar3 := { ar2 with
          files := aset cmd.file_id { df with ttype := ttype } ar2.files }
        let e4 := { e3 with active_receives := aset cmd.id ar3 e3.active_receives }
        if ttype = .rsync then
          match signature_of_file fs df.name with
          | .error oserr =>
            ((if ar3.send_errors then
                e4.send_status (Sum.inr oserr.errname) ar3.id df.file_id
                  (strLit ("Failed to open file to read signature")) [] (-1) .simple
              else e4), fs)
          | .ok chunks =>
            (e4.transmit_rsync_signature chunks ar3.id df.file_id, fs)
        else (e4, fs)
      else (e2, fs)

/-- The continuation of the data/end_data action of handle_receive_cmd
(lines 937-961), taking the add_data result. -/
def hrcDataRes (cmd : FTC) (e1 : FileTransmission) (before : Int)
    (ar2 : ActiveReceive) (fs2 : FS) (res : Except PyErr DestFile) :
    FileTransmission × FS :=
  let e2 := { e1 with active_receives := aset cmd.id ar2 e1.active_receives }
  match res with
  | .ok df =>
    if df.failed then (e2, fs2)
    else if ar2.send_acknowledgements then
      if df.closed then
        (e2.send_status (Sum.inl .OK) ar2.id df.file_id [] df.name df.bytes_written
          .simple, fs2)
      else if df.bytes_written > before then
        (e2.send_status (Sum.inl .PROGRESS) ar2.id df.file_id [] []
          df.bytes_written .simple, fs2)
      else (e2, fs2)
    else (e2, fs2)
  | .error (.transmission err) =>
    ((if ar2.send_errors then e2.send_transmission_error ar2.id err else e2), fs2)
  | .error (.os o) =>
    ((if ar2.send_errors then
        e2.send_transmission_error ar2.id
          { code := Sum.inl .EINVAL, human_msg := o.errname, file_id := cmd.file_id }
      else e2), fs2)
  | .error (.generic s) =>
    ((if ar2.send_errors then
        e2.send_transmission_error ar2.id
          { code := Sum.inl .EINVAL, human_msg := s, file_id := cmd.file_id }
      else e2), fs2)

/-- Source: FileTransmission.handle_receive_cmd (lines 881-979).  For a
known id, a send action or a still-pending session drops the session and
returns; otherwise the session clock is touched and the action is
dispatched (cancel, file, data/end_data, finish).  For an unknown id only
a send action within the session limit creates and starts a session.
PyErr.os and PyErr.generic from the session operations correspond to the
generic except branches of the source, with str(err) modelled by the
carried error text. -/
def FileTransmission.handle_receive_cmd (fs : FS) (now fuel : Nat) (cfg : Str)
    (e : FileTransmission) (cmd : FTC) : FileTransmission × FS :=
  match alookup cmd.id e.active_receives with
  | some ar0 =>
    if cmd.action = .send then (e.drop_receive cmd.id, fs)
    else if ¬ ar0.accepted then (e.drop_receive cmd.id, fs)
    else
      let ar := { ar0 with last_activity_at := now }
      let e1 := { e with active_receives := aset cmd.id ar e.active_receives }
      if cmd.action = .cancel then
        let e2 := e1.drop_receive ar.id
        ((if ar.send_acknowledgements then
            e2.send_status (Sum.inl .CANCELED) ar.id [] [] [] (-1) .simple
          else e2), fs)
      else if cmd.action = .file then
        hrcFileRes fs now cmd e1 (ActiveReceive.start_file fs now ar cmd).1
          (ActiveReceive.start_file fs now ar cmd).2
      else if cmd.action = .data ∨ cmd.action = .end_data then
        let before : Int := match alookup cmd.file_id ar.files with
          | some bf => bf.bytes_written
          | none => 0
        hrcDataRes cmd e1 before (ActiveReceive.add_data fs now ar cmd).1
          (ActiveReceive.add_data fs now ar cmd).2.1
          (ActiveReceive.add_data fs now ar cmd).2.2
      else if cmd.action = .finish then
        (e1.drop_receive ar.id, ActiveReceive.commit fs ar)
      else (e1, fs)
  | none =>
    if cmd.action ≠ .send then (e, fs)
    else if MAX_ACTIVE_RECEIVES ≤ e.active_receives.length then (e, fs)
    else
      let ar := ActiveReceive.init cmd.id cmd.quiet cmd.bypass cfg now
      let e2 := { e with active_receives := aset cmd.id ar e.active_receives }
      (e2.start_receive cmd.id, fs)

/-- The continuation of the file action of handle_send_cmd (lines
791-808), taking the add_send_file or add_file_spec result. -/
def hscFileRes (fs : FS) (now fuel : Nat) (cmd : FTC) (e : FileTransmission)
    (asd2 : ActiveSend) (res : Except PyErr Unit) : FileTransmission :=
  match res with
  | .error (.os oserr) =>
    let e2 := if asd2.send_errors then
        e.send_status (Sum.inr oserr.errname) asd2.id cmd.file_id
          (strLit ("Failed to add send file")) [] (-1) .simple
      else e
    e2.drop_send asd2.id
  | .error (.transmission err) =>
    let e2 := e.drop_send asd2.id
    if asd2.send_errors then e2.send_transmission_error asd2.id err else e2
  | .error (.generic s) => e
  | .ok _ =>
    let e2 := { e with active_sends := aset cmd.id asd2 e.active_sends }
    if asd2.metadata_sent then
      let p := FileTransmission.pump_send_chunks fuel fuel now fs e2 asd2
      { p.1 with active_sends := aset cmd.id p.2 p.1.active_sends }
    else if asd2.spec_complete ∧ asd2.accepted then
      e2.send_metadata_for_send_transfer fs fuel asd2
    else e2

/-- The fall-through tail of handle_send_cmd (lines 820-829): early
returns pass through, a pending session is dropped, otherwise the stored
session clock is touched and cancel is acknowledged. -/
def hscTail (now : Nat) (cmd : FTC) (step : FileTransmission × ActiveSend × Bool) :
    FileTransmission :=
  let e2 := step.1
  let asdL := step.2.1
  if step.2.2 then e2
  else if ¬ asdL.accepted then e2.drop_send cmd.id
  else
    let e3 := match alookup cmd.id e2.active_sends with
      | some a =>
        { e2 with
          active_sends := aset cmd.id { a with last_activity_at := now }
            e2.active_sends }
      | none => e2
    if cmd.action = .cancel then
      let e4 := e3.drop_send asdL.id
      if asdL.send_acknowledgements then
        e4.send_status (Sum.inl .CANCELED) asdL.id [] [] [] (-1) .simple
      else e4
    else e3

/-- The data/end_data step of handle_send_cmd (lines 809-817), taking the
add_signature_data result; the Bool marks an early return. -/
def hscDataRes (fs : FS) (now fuel : Nat) (cmd : FTC) (e : FileTransmission)
    (asd2 : ActiveSend) (res : Except PyErr Unit) :
    FileTransmission × ActiveSend × Bool :=
  match res with
  | .error (.transmission err) =>
    let ea := e.drop_send asd2.id
    ((if asd2.send_errors then ea.send_transmission_error asd2.id err else ea),
      asd2, false)
  | .error _ => (e, asd2, false)
  | .ok _ =>
    let ea := { e with active_sends := aset cmd.id asd2 e.active_sends }
    let p := FileTransmission.pump_send_chunks fuel fuel now fs ea asd2
    ({ p.1 with active_sends := aset cmd.id p.2 p.1.active_sends }, p.2, false)

/-- Source: FileTransmission.handle_send_cmd (lines 784-839).  The
data/end_data branch falls through to the pending-id check, as do actions
outside the dispatched set; file, receive, status and finish return
directly.  For an unknown id only a receive action within the session
limit creates and starts a session. -/
def FileTransmission.handle_send_cmd (fs : FS) (now fuel : Nat) (cfg : Str)
    (e : FileTransmission) (cmd : FTC) : FileTransmission :=
  match alookup cmd.id e.active_sends with
  | some asd =>
    if cmd.action = .receive then e.drop_send cmd.id
    else if cmd.action = .file then
      hscFileRes fs now fuel cmd e
        (if asd.metadata_sent then (ActiveSend.add_send_file fs now asd cmd).1
          else (ActiveSend.add_file_spec now asd cmd).1)
        (if asd.metadata_sent then (ActiveSend.add_send_file fs now asd cmd).2
          else (ActiveSend.add_file_spec now asd cmd).2)
    else
      let step : FileTransmission × ActiveSend × Bool :=
        if cmd.action = .data ∨ cmd.action = .end_data then
          hscDataRes fs now fuel cmd e (ActiveSend.add_signature_data fs now asd cmd).1
            (ActiveSend.add_signature_data fs now asd cmd).2
        else if cmd.action = .status ∨ cmd.action = .finish then
          (e.drop_send asd.id, asd, true)
        else (e, asd, false)
      hscTail now cmd step
  | none =>
    if cmd.action ≠ .receive then e
    else if MAX_ACTIVE_SENDS ≤ e.active_sends.length then e
    else
      let asd := ActiveSend.init cmd.id cmd.quiet cmd.bypass cmd.size cfg now
      let e2 := { e with active_sends := aset cmd.id asd e.active_sends }
      FileTransmission.start_send fs fuel e2 cmd.id

/-- Source: FileTransmission.handle_serialized_command (lines 762-782):
parse, drop idless commands, special-case cancel for known ids, then
prune expired sessions and route through the two independently tested
conditions, the second evaluated on the state the first left behind. -/
def FileTransmission.handle_serialized_command (fs : FS) (now fuel : Nat) (cfg : Str)
    (e : FileTransmission) (data : Bytes) : FileTransmission × FS :=
  match FileTransmissionCommand.deserialize data with
  | none => (e, fs)
  | some cmd =>
    if cmd.id = [] then (e, fs)
    else if cmd.action = .cancel ∧ (alookup cmd.id e.active_receives).isSome then
      FileTransmission.handle_receive_cmd fs now fuel cfg e cmd
    else if cmd.action = .cancel ∧ (alookup cmd.id e.active_sends).isSome then
      (FileTransmission.handle_send_cmd fs now fuel cfg e cmd, fs)
    else
      let e2 := FileTransmission.prune_expired now e
      let r := if (alookup cmd.id e2.active_receives).isSome ∨ cmd.action = .send then
          FileTransmission.handle_receive_cmd fs now fuel cfg e2 cmd
        else (e2, fs)
      if (alookup cmd.id r.1.active_sends).isSome ∨ cmd.action = .receive then
        (FileTransmission.handle_send_cmd r.2 now fuel cfg r.1 cmd, r.2)
      else r


theorem aset_length_of_lookup {α : Type} (k : Str) (v w : α) (l : List (Str × α))
    (h : alookup k l = some w) : (aset k v l).length = l.length := by
  induction l with
  | nil => simp [alookup] at h
  | cons p rest ih =>
    simp only [alookup] at h
    simp only [aset]
    split
    · simp
    · rename_i hne
      rw [if_neg hne] at h
      simp [ih h]

theorem aset_length_le {α : Type} (k : Str) (v : α) (l : List (Str × α)) :
    (aset k v l).length ≤ l.length + 1 := by
  induction l with
  | nil => simp [aset]
  | cons p rest ih =>
    simp only [aset]
    split
    · simp
    · simpa using Nat.succ_le_succ ih

theorem aerase_length_le {α : Type} (k : Str) (l : List (Str × α)) :
    (aerase k l).length ≤ l.length := by
  induction l with
  | nil => simp [aerase]
  | cons p rest ih =>
    simp only [aerase]
    split
    · exact Nat.le_succ _
    · simpa using Nat.succ_le_succ ih

@[simp] theorem write_ftc_receives (e : FileTransmission) (p : FTC) :
    (e.write_ftc p).1.active_receives = e.active_receives := rfl

@[simp] theorem write_ftc_sends (e : FileTransmission) (p : FTC) :
    (e.write_ftc p).1.active_sends = e.active_sends := rfl

@[simp] theorem send_status_receives (e : FileTransmission) (c : ErrorCode ⊕ Str)
    (r f m n : Str) (s : Int) (t : TransmissionType) :
    (e.send_status c r f m n s t).active_receives = e.active_receives := rfl

@[simp] theorem send_status_sends (e : FileTransmission) (c : ErrorCode ⊕ Str)
    (r f m n : Str) (s : Int) (t : TransmissionType) :
    (e.send_status c r f m n s t).active_sends = e.active_sends := rfl

@[simp] theorem send_transmission_error_receives (e : FileTransmission) (r : Str)
    (err : TransmissionError) :
    (e.send_transmission_error r err).active_receives = e.active_receives := by
  unfold FileTransmission.send_transmission_error
  split <;> rfl

@[simp] theorem send_transmission_error_sends (e : FileTransmission) (r : Str)
    (err : TransmissionError) :
    (e.send_transmission_error r err).active_sends = e.active_sends := by
  unfold FileTransmission.send_transmission_error
  split <;> rfl

@[simp] theorem drop_receive_receives (e : FileTransmission) (r : Str) :
    (e.drop_receive r).active_receives = aerase r e.active_receives := rfl

@[simp] theorem drop_receive_sends (e : FileTransmission) (r : Str) :
    (e.drop_receive r).active_sends = e.active_sends := rfl

@[simp] theorem drop_send_receives (e : FileTransmission) (r : Str) :
    (e.drop_send r).active_receives = e.active_receives := rfl

@[simp] theorem drop_send_sends (e : FileTransmission) (r : Str) :
    (e.drop_send r).active_sends = aerase r e.active_sends := rfl

theorem foldl_write_receives (l : List FTC) :
    ∀ e : FileTransmission,
      (l.foldl (fun a d => (a.write_ftc d).1) e).active_receives = e.active_receives := by
  induction l with
  | nil => intro e; rfl
  | cons d rest ih => intro e; exact (ih _).trans rfl

theorem foldl_write_sends (l : List FTC) :
    ∀ e : FileTransmission,
      (l.foldl (fun a d => (a.write_ftc d).1) e).active_sends = e.active_sends := by
  induction l with
  | nil => intro e; rfl
  | cons d rest ih => intro e; exact (ih _).trans rfl

@[simp] theorem transmit_rsync_signature_receives (e : FileTransmission)
    (chunks : List Bytes) (rid fid : Str) :
    (e.transmit_rsync_signature chunks rid fid).active_receives = e.active_receives := by
  unfold FileTransmission.transmit_rsync_signature
  split
  · rfl
  · rename_i v hv
    clear hv
    dsimp only []
    rw [write_ftc_receives]
    induction chunks generalizing e with
    | nil => rfl
    | cons ch rest ih => exact (ih _).trans (foldl_write_receives _ _)

@[simp] theorem transmit_rsync_signature_sends (e : FileTransmission)
    (chunks : List Bytes) (rid fid : Str) :
    (e.transmit_rsync_signature chunks rid fid).active_sends = e.active_sends := by
  unfold FileTransmission.transmit_rsync_signature
  split
  · rfl
  · rename_i v hv
    clear hv
    dsimp only []
    rw [write_ftc_sends]
    induction chunks generalizing e with
    | nil => rfl
    | cons ch rest ih => exact (ih _).trans (foldl_write_sends _ _)

@[simp] theorem emitItem_receives (asd : ActiveSend) (acc : FileTransmission)
    (it : Except TransmissionError FTC) :
    (emitItem asd acc it).active_receives = acc.active_receives := by
  unfold emitItem
  split
  · split <;> simp
  · rfl

@[simp] theorem emitItem_sends (asd : ActiveSend) (acc : FileTransmission)
    (it : Except TransmissionError FTC) :
    (emitItem asd acc it).active_sends = acc.active_sends := by
  unfold emitItem
  split
  · split <;> simp
  · rfl

theorem foldl_emit_receives (asd : ActiveSend)
    (items : List (Except TransmissionError FTC)) :
    ∀ e : FileTransmission,
      (items.foldl (emitItem asd) e).active_receives = e.active_receives := by
  induction items with
  | nil => intro e; rfl
  | cons it rest ih => intro e; exact (ih _).trans (emitItem_receives asd e it)

theorem foldl_emit_sends (asd : ActiveSend)
    (items : List (Except TransmissionError FTC)) :
    ∀ e : FileTransmission,
      (items.foldl (emitItem asd) e).active_sends = e.active_sends := by
  induction items with
  | nil => intro e; rfl
  | cons it rest ih => intro e; exact (ih _).trans (emitItem_sends asd e it)

@[simp] theorem send_metadata_receives (fs : FS) (fuel : Nat) (e : FileTransmission)
    (asd : ActiveSend) :
    (FileTransmission.send_metadata_for_send_transfer fs fuel e asd).active_receives =
      e.active_receives := by
  unfold FileTransmission.send_metadata_for_send_transfer
  dsimp only []
  split
  · simp [foldl_emit_receives]
  · simp [foldl_emit_receives]

theorem send_metadata_sends_len (fs : FS) (fuel : Nat) (e : FileTransmission)
    (asd : ActiveSend) :
    (FileTransmission.send_metadata_for_send_transfer fs fuel e asd).active_sends.length ≤
      e.active_sends.length := by
  unfold FileTransmission.send_metadata_for_send_transfer
  dsimp only []
  split
  · simp only [drop_send_sends, send_status_sends, foldl_emit_sends]
    exact aerase_length_le _ _
  · simp only [send_status_sends, foldl_emit_sends]
    split
    · rename_i hsome
      obtain ⟨w, hw⟩ := Option.isSome_iff_exists.mp hsome
      rw [aset_length_of_lookup _ _ w _ hw]
    · exact le_refl _

theorem pump_receives (fuelP fuelC now : Nat) (fs : FS) :
    ∀ (e : FileTransmission) (asd : ActiveSend),
      (FileTransmission.pump_send_chunks fuelP fuelC now fs e asd).1.active_receives =
        e.active_receives := by
  induction fuelP with
  | zero => intro e asd; rfl
  | succ fuelP ih =>
    intro e asd
    unfold FileTransmission.pump_send_chunks
    split
    · rfl
    · exact (ih _ _).trans (write_ftc_receives _ _)

theorem pump_sends (fuelP fuelC now : Nat) (fs : FS) :
    ∀ (e : FileTransmission) (asd : ActiveSend),
      (FileTransmission.pump_send_chunks fuelP fuelC now fs e asd).1.active_sends =
        e.active_sends := by
  induction fuelP with
  | zero => intro e asd; rfl
  | succ fuelP ih =>
    intro e asd
    unfold FileTransmission.pump_send_chunks
    split
    · rfl
    · exact (ih _ _).trans (write_ftc_sends _ _)

@[simp] theorem handle_send_confirmation_sends (e : FileTransmission) (cid : Str)
    (yes : Bool) :
    (e.handle_send_confirmation cid yes).active_sends = e.active_sends := by
  unfold FileTransmission.handle_send_confirmation
  split
  · rfl
  · dsimp only []
    repeat' split
    all_goals simp [apply_ite FileTransmission.active_sends]

theorem handle_send_confirmation_receives_len (e : FileTransmission) (cid : Str)
    (yes : Bool) :
    (e.handle_send_confirmation cid yes).active_receives.length ≤
      e.active_receives.length := by
  unfold FileTransmission.handle_send_confirmation
  split
  · exact le_refl _
  · rename_i ar har
    have hlen := aset_length_of_lookup cid { ar with accepted := true } ar
      e.active_receives har
    dsimp only []
    repeat' split
    all_goals (try dsimp only [])
    all_goals (repeat' split)
    all_goals first
      | exact le_refl _
      | exact aerase_length_le _ _
      | simp [hlen]
      | (simp only [send_status_receives, drop_receive_receives]
         exact aerase_length_le _ _)

@[simp] theorem handle_receive_confirmation_receives (fs : FS) (fuel : Nat)
    (e : FileTransmission) (cid : Str) (yes : Bool) :
    (FileTransmission.handle_receive_confirmation fs fuel e cid yes).active_receives =
      e.active_receives := by
  unfold FileTransmission.handle_receive_confirmation
  split
  · rfl
  · dsimp only []
    repeat' split
    all_goals simp [apply_ite FileTransmission.active_receives]

theorem handle_receive_confirmation_sends_len (fs : FS) (fuel : Nat)
    (e : FileTransmission) (cid : Str) (yes : Bool) :
    (FileTransmission.handle_receive_confirmation fs fuel e cid yes).active_sends.length ≤
      e.active_sends.length := by
  unfold FileTransmission.handle_receive_confirmation
  split
  · exact le_refl _
  · rename_i asd hasd
    have hlen := aset_length_of_lookup cid { asd with accepted := true } asd
      e.active_sends hasd
    dsimp only []
    repeat' split
    all_goals (try dsimp only [])
    all_goals (repeat' split)
    all_goals first
      | exact le_refl _
      | exact aerase_length_le _ _
      | (simp only [send_status_sends, drop_send_sends]
         exact aerase_length_le _ _)
      | (refine le_trans (send_metadata_sends_len _ _ _ _) ?_
         first
           | exact aerase_length_le _ _
           | (simp only [send_status_sends, drop_send_sends]
              exact aerase_length_le _ _)
           | simp [hlen])
      | simp [hlen]

@[simp] theorem start_receive_sends (e : FileTransmission) (rid : Str) :
    (e.start_receive rid).active_sends = e.active_sends := by
  unfold FileTransmission.start_receive
  split
  · rfl
  · split
    · exact handle_send_confirmation_sends _ _ _
    · rfl

theorem start_receive_receives_len (e : FileTransmission) (rid : Str) :
    (e.start_receive rid).active_receives.length ≤ e.active_receives.length := by
  unfold FileTransmission.start_receive
  split
  · exact le_refl _
  · split
    · exact handle_send_confirmation_receives_len _ _ _
    · exact le_refl _

@[simp] theorem start_send_receives (fs : FS) (fuel : Nat) (e : FileTransmission)
    (sid : Str) :
    (FileTransmission.start_send fs fuel e sid).active_receives = e.active_receives := by
  unfold FileTransmission.start_send
  split
  · rfl
  · split
    · exact handle_receive_confirmation_receives _ _ _ _ _
    · rfl

theorem start_send_sends_len (fs : FS) (fuel : Nat) (e : FileTransmission) (sid : Str) :
    (FileTransmission.start_send fs fuel e sid).active_sends.length ≤
      e.active_sends.length := by
  unfold FileTransmission.start_send
  split
  · exact le_refl _
  · split
    · exact handle_receive_confirmation_sends_len _ _ _ _ _
    · exact le_refl _

theorem aerase_len_bound {α : Type} (k : Str) (l : List (Str × α)) (m : Nat)
    (h : l.length ≤ m) : (aerase k l).length ≤ m :=
  le_trans (aerase_length_le k l) h

theorem hrcFileRes_sends (fs : FS) (now : Nat) (cmd : FTC) (e1 : FileTransmission)
    (ar2 : ActiveReceive) (res : Except PyErr DestFile) :
    (hrcFileRes fs now cmd e1 ar2 res).1.active_sends = e1.active_sends := by
  unfold hrcFileRes
  repeat' split
  all_goals (try simp)
  all_goals (repeat' split)
  all_goals simp

theorem hrcDataRes_sends (cmd : FTC) (e1 : FileTransmission) (before : Int)
    (ar2 : ActiveReceive) (fs2 : FS) (res : Except PyErr DestFile) :
    (hrcDataRes cmd e1 before ar2 fs2 res).1.active_sends = e1.active_sends := by
  unfold hrcDataRes
  repeat' split
  all_goals simp

theorem hrcFileRes_receives_len (fs : FS) (now : Nat) (cmd : FTC)
    (e1 : FileTransmission) (ar2 : ActiveReceive) (res : Except PyErr DestFile) (m : Nat)
    (h1 : ∀ v : ActiveReceive, (aset cmd.id v e1.active_receives).length ≤ m) :
    (hrcFileRes fs now cmd e1 ar2 res).1.active_receives.length ≤ m := by
  have h2 : ∀ v w : ActiveReceive,
      (aset cmd.id v (aset cmd.id w e1.active_receives)).length ≤ m := by
    intro v w
    rw [aset_length_of_lookup _ _ _ _ (alookup_aset cmd.id w e1.active_receives)]
    exact h1 w
  unfold hrcFileRes
  repeat' split
  all_goals (try dsimp only [])
  all_goals (try simp only [apply_ite FileTransmission.active_receives,
    send_status_receives, send_transmission_error_receives,
    transmit_rsync_signature_receives, apply_ite List.length])
  all_goals (repeat' split)
  all_goals first
    | exact h1 _
    | exact h2 _ _
    | (rw [transmit_rsync_signature_receives]
       first
         | exact h1 _
         | exact h2 _ _)

theorem hrcDataRes_receives_len (cmd : FTC) (e1 : FileTransmission) (before : Int)
    (ar2 : ActiveReceive) (fs2 : FS) (res : Except PyErr DestFile) (m : Nat)
    (h1 : ∀ v : ActiveReceive, (aset cmd.id v e1.active_receives).length ≤ m) :
    (hrcDataRes cmd e1 before ar2 fs2 res).1.active_receives.length ≤ m := by
  unfold hrcDataRes
  repeat' split
  all_goals first
    | exact h1 _
    | (simp only [send_status_receives, send_transmission_error_receives]
       exact h1 _)

theorem hscFileRes_receives (fs : FS) (now fuel : Nat) (cmd : FTC)
    (e : FileTransmission) (asd2 : ActiveSend) (res : Except PyErr Unit) :
    (hscFileRes fs now fuel cmd e asd2 res).active_receives = e.active_receives := by
  unfold hscFileRes
  repeat' split
  all_goals simp [pump_receives]

theorem hscDataRes_receives (fs : FS) (now fuel : Nat) (cmd : FTC)
    (e : FileTransmission) (asd2 : ActiveSend) (res : Except PyErr Unit) :
    (hscDataRes fs now fuel cmd e asd2 res).1.active_receives = e.active_receives := by
  unfold hscDataRes
  repeat' split
  all_goals simp [pump_receives]

theorem hscTail_receives (now : Nat) (cmd : FTC)
    (step : FileTransmission × ActiveSend × Bool) :
    (hscTail now cmd step).active_receives = step.1.active_receives := by
  unfold hscTail
  repeat' split
  all_goals (try simp [apply_ite FileTransmission.active_receives])
  all_goals (repeat' split)
  all_goals simp [apply_ite FileTransmission.active_receives]

theorem hscFileRes_sends_len (fs : FS) (now fuel : Nat) (cmd : FTC)
    (e : FileTransmission) (asd2 : ActiveSend) (res : Except PyErr Unit) (m : Nat)
    (h : e.active_sends.length ≤ m)
    (h1 : ∀ v : ActiveSend, (aset cmd.id v e.active_sends).length ≤ m) :
    (hscFileRes fs now fuel cmd e asd2 res).active_sends.length ≤ m := by
  have h2 : ∀ v w : ActiveSend,
      (aset cmd.id v (aset cmd.id w e.active_sends)).length ≤ m := by
    intro v w
    rw [aset_length_of_lookup _ _ _ _ (alookup_aset cmd.id w e.active_sends)]
    exact h1 w
  unfold hscFileRes
  repeat' split
  all_goals first
    | exact h
    | exact h1 _
    | exact aerase_len_bound _ _ _ h
    | (simp only [send_status_sends, send_transmission_error_sends, drop_send_sends,
        pump_sends]
       first
         | exact h
         | exact h1 _
         | exact h2 _ _
         | exact aerase_len_bound _ _ _ h
         | exact aerase_len_bound _ _ _ (h1 _))
    | (refine le_trans (send_metadata_sends_len _ _ _ _) ?_
       simp only [send_status_sends, send_transmission_error_sends, drop_send_sends]
       first
         | exact h
         | exact h1 _
         | exact aerase_len_bound _ _ _ h)

theorem hscDataRes_sends_len (fs : FS) (now fuel : Nat) (cmd : FTC)
    (e : FileTransmission) (asd2 : ActiveSend) (res : Except PyErr Unit) (m : Nat)
    (h : e.active_sends.length ≤ m)
    (h1 : ∀ v : ActiveSend, (aset cmd.id v e.active_sends).length ≤ m) :
    (hscDataRes fs now fuel cmd e asd2 res).1.active_sends.length ≤ m := by
  have h2 : ∀ v w : ActiveSend,
      (aset cmd.id v (aset cmd.id w e.active_sends)).length ≤ m := by
    intro v w
    rw [aset_length_of_lookup _ _ _ _ (alookup_aset cmd.id w e.active_sends)]
    exact h1 w
  unfold hscDataRes
  repeat' split
  all_goals first
    | exact h
    | exact h1 _
    | exact aerase_len_bound _ _ _ h
    | (simp only [send_status_sends, send_transmission_error_sends, drop_send_sends,
        pump_sends]
       first
         | exact h
         | exact h1 _
         | exact h2 _ _
         | exact aerase_len_bound _ _ _ h
         | exact aerase_len_bound _ _ _ (h1 _))

theorem hscTail_sends_len (now : Nat) (cmd : FTC)
    (step : FileTransmission × ActiveSend × Bool) (m : Nat)
    (h : step.1.active_sends.length ≤ m) :
    (hscTail now cmd step).active_sends.length ≤ m := by
  unfold hscTail
  dsimp only []
  split
  · exact h
  · split
    · exact aerase_len_bound _ _ _ h
    · cases ha : alookup cmd.id step.1.active_sends with
      | some a =>
        have hb : (aset cmd.id { a with last_activity_at := now }
            step.1.active_sends).length ≤ m := by
          rw [aset_length_of_lookup _ _ _ _ ha]
          exact h
        split
        · split
          · simp only [send_status_sends, drop_send_sends]
            exact aerase_len_bound _ _ _ hb
          · exact aerase_len_bound _ _ _ hb
        · exact hb
      | none =>
        split
        · split
          · simp only [send_status_sends, drop_send_sends]
            exact aerase_len_bound _ _ _ h
          · exact aerase_len_bound _ _ _ h
        · exact h

theorem handle_receive_cmd_sends (fs : FS) (now fuel : Nat) (cfg : Str)
    (e : FileTransmission) (cmd : FTC) :
    (FileTransmission.handle_receive_cmd fs now fuel cfg e cmd).1.active_sends =
      e.active_sends := by
  unfold FileTransmission.handle_receive_cmd
  repeat' split
  all_goals (try dsimp only [])
  all_goals (repeat' split)
  all_goals first
    | rfl
    | exact (hrcFileRes_sends _ _ _ _ _ _).trans rfl
    | exact (hrcDataRes_sends _ _ _ _ _ _).trans rfl
    | simp

theorem handle_send_cmd_receives (fs : FS) (now fuel : Nat) (cfg : Str)
    (e : FileTransmission) (cmd : FTC) :
    (FileTransmission.handle_send_cmd fs now fuel cfg e cmd).active_receives =
      e.active_receives := by
  unfold FileTransmission.handle_send_cmd
  repeat' split
  all_goals (try dsimp only [])
  all_goals (repeat' split)
  all_goals first
    | rfl
    | exact (hscFileRes_receives _ _ _ _ _ _ _).trans rfl
    | exact (hscTail_receives _ _ _).trans ((hscDataRes_receives _ _ _ _ _ _ _).trans rfl)
    | exact (hscTail_receives _ _ _).trans rfl
    | simp

theorem handle_receive_cmd_receives_len (fs : FS) (now fuel : Nat) (cfg : Str)
    (e : FileTransmission) (cmd : FTC)
    (h : e.active_receives.length ≤ MAX_ACTIVE_RECEIVES) :
    (FileTransmission.handle_receive_cmd fs now fuel cfg e cmd).1.active_receives.length ≤
      MAX_ACTIVE_RECEIVES := by
  unfold FileTransmission.handle_receive_cmd
  cases hlook : alookup cmd.id e.active_receives with
  | some ar0 =>
    have h1 : ∀ v : ActiveReceive,
        (aset cmd.id v e.active_receives).length ≤ MAX_ACTIVE_RECEIVES := by
      intro v
      rw [aset_length_of_lookup _ _ _ _ hlook]
      exact h
    have h2 : ∀ v : ActiveReceive,
        ∀ l : List (Str × ActiveReceive), l = aset cmd.id v e.active_receives →
        ∀ w : ActiveReceive, (aset cmd.id w l).length ≤ MAX_ACTIVE_RECEIVES := by
      intro v l hl w
      subst hl
      rw [aset_length_of_lookup _ _ _ _ (alookup_aset cmd.id v e.active_receives)]
      exact h1 v
    repeat' split
    all_goals (try dsimp only [])
    all_goals (repeat' split)
    all_goals first
      | exact h
      | exact aerase_len_bound _ _ _ h
      | exact hrcFileRes_receives_len _ _ _ _ _ _ _ (fun v => h2 _ _ rfl v)
      | exact hrcDataRes_receives_len _ _ _ _ _ _ _ (fun v => h2 _ _ rfl v)
      | exact aerase_len_bound _ _ _ (h1 _)
      | exact h1 _
      | (simp only [send_status_receives, send_transmission_error_receives]
         first
           | exact aerase_len_bound _ _ _ (h1 _)
           | exact h1 _)
      | (exfalso
         simp_all
         done)
  | none =>
    repeat' split
    all_goals (try dsimp only [])
    all_goals (repeat' split)
    all_goals first
      | exact h
      | (exfalso
         simp_all
         done)
      | (refine le_trans (start_receive_receives_len _ _) ?_
         refine le_trans (aset_length_le _ _ _) ?_
         omega)

theorem handle_send_cmd_sends_len (fs : FS) (now fuel : Nat) (cfg : Str)
    (e : FileTransmission) (cmd : FTC)
    (h : e.active_sends.length ≤ MAX_ACTIVE_SENDS) :
    (FileTransmission.handle_send_cmd fs now fuel cfg e cmd).active_sends.length ≤
      MAX_ACTIVE_SENDS := by
  unfold FileTransmission.handle_send_cmd
  cases hlook : alookup cmd.id e.active_sends with
  | some asd0 =>
    have h1 : ∀ v : ActiveSend,
        (aset cmd.id v e.active_sends).length ≤ MAX_ACTIVE_SENDS := by
      intro v
      rw [aset_length_of_lookup _ _ _ _ hlook]
      exact h
    repeat' split
    all_goals (try dsimp only [])
    all_goals (repeat' split)
    all_goals first
      | exact h
      | exact aerase_len_bound _ _ _ h
      | exact hscFileRes_sends_len _ _ _ _ _ _ _ _ h h1
      | exact hscTail_sends_len _ _ _ _ (hscDataRes_sends_len _ _ _ _ _ _ _ _ h h1)
      | exact hscTail_sends_len _ _ _ _ h
      | exact hscTail_sends_len _ _ _ _ (aerase_len_bound _ _ _ h)
      | (exfalso
         simp_all
         done)
  | none =>
    repeat' split
    all_goals (try dsimp only [])
    all_goals (repeat' split)
    all_goals first
      | exact h
      | (exfalso
         simp_all
         done)
      | (refine le_trans (start_send_sends_len _ _ _ _) ?_
         refine le_trans (aset_length_le _ _ _) ?_
         omega)

/-- Both session maps are within their limits (lines 36-37). -/
def SessionLimits (e : FileTransmission) : Prop :=
  e.active_receives.length ≤ MAX_ACTIVE_RECEIVES ∧
    e.active_sends.length ≤ MAX_ACTIVE_SENDS

theorem hrc_limits (fs : FS) (now fuel : Nat) (cfg : Str) (e : FileTransmission)
    (cmd : FTC) (h : SessionLimits e) :
    SessionLimits (FileTransmission.handle_receive_cmd fs now fuel cfg e cmd).1 := by
  refine ⟨handle_receive_cmd_receives_len fs now fuel cfg e cmd h.1, ?_⟩
  rw [handle_receive_cmd_sends]
  exact h.2

theorem hsc_limits (fs : FS) (now fuel : Nat) (cfg : Str) (e : FileTransmission)
    (cmd : FTC) (h : SessionLimits e) :
    SessionLimits (FileTransmission.handle_send_cmd fs now fuel cfg e cmd) := by
  refine ⟨?_, handle_send_cmd_sends_len fs now fuel cfg e cmd h.2⟩
  rw [handle_send_cmd_receives]
  exact h.1

theorem prune_limits (now : Nat) (e : FileTransmission) (h : SessionLimits e) :
    SessionLimits (FileTransmission.prune_expired now e) := by
  exact ⟨le_trans (List.length_filter_le _ _) h.1, le_trans (List.length_filter_le _ _) h.2⟩

theorem send_conf_limits (e : FileTransmission) (cid : Str) (yes : Bool)
    (h : SessionLimits e) : SessionLimits (e.handle_send_confirmation cid yes) := by
  refine ⟨le_trans (handle_send_confirmation_receives_len e cid yes) h.1, ?_⟩
  rw [handle_send_confirmation_sends]
  exact h.2

theorem receive_conf_limits (fs : FS) (fuel : Nat) (e : FileTransmission) (cid : Str)
    (yes : Bool) (h : SessionLimits e) :
    SessionLimits (FileTransmission.handle_receive_confirmation fs fuel e cid yes) := by
  refine ⟨?_, le_trans (handle_receive_confirmation_sends_len fs fuel e cid yes) h.2⟩
  rw [handle_receive_confirmation_receives]
  exact h.1

theorem handle_serialized_command_limits (fs : FS) (now fuel : Nat) (cfg : Str)
    (e : FileTransmission) (data : Bytes) (h : SessionLimits e) :
    SessionLimits (FileTransmission.handle_serialized_command fs now fuel cfg e data).1 := by
  unfold FileTransmission.handle_serialized_command
  split
  · exact h
  · dsimp only []
    split
    · exact h
    · split
      · exact hrc_limits _ _ _ _ _ _ h
      · split
        · exact hsc_limits _ _ _ _ _ _ h
        · have hp := prune_limits now e h
          repeat' split
          all_goals first
            | exact hp
            | exact hrc_limits _ _ _ _ _ _ hp
            | exact hsc_limits _ _ _ _ _ _ hp
            | exact hsc_limits _ _ _ _ _ _ (hrc_limits _ _ _ _ _ _ hp)

/-- The engine states reachable from a fresh FileTransmission through its
entry points: a serialized command from the child, and the two
confirmation callbacks (user prompt or bypass resolution). -/
inductive Reachable : FileTransmission → Prop
  | init : Reachable {}
  | cmd_step (e : FileTransmission) (fs : FS) (now fuel : Nat) (cfg : Str) (data : Bytes) :
      Reachable e →
      Reachable (FileTransmission.handle_serialized_command fs now fuel cfg e data).1
  | receive_conf (e : FileTransmission) (fs : FS) (fuel : Nat) (cid : Str) (yes : Bool) :
      Reachable e →
      Reachable (FileTransmission.handle_receive_confirmation fs fuel e cid yes)
  | send_conf (e : FileTransmission) (cid : Str) (yes : Bool) :
      Reachable e → Reachable (e.handle_send_confirmation cid yes)

theorem reachable_limits (e : FileTransmission) (h : Reachable e) : SessionLimits e := by
  induction h with
  | init => exact ⟨by simp [MAX_ACTIVE_RECEIVES], by simp [MAX_ACTIVE_SENDS]⟩
  | cmd_step e fs now fuel cfg data _ ih =>
    exact handle_serialized_command_limits fs now fuel cfg e data ih
  | receive_conf e fs fuel cid yes _ ih => exact receive_conf_limits fs fuel e cid yes ih
  | send_conf e cid yes _ ih => exact send_conf_limits e cid yes ih

/-- Claim C3: every reachable engine state holds at most 10 active
receives and 10 active sends, and a new-session command (send on the
receive side, receive on the send side) arriving at the limit is
rejected with no state change: the handler returns the engine and
filesystem untouched, emitting nothing. -/
theorem C3_session_limits (e : FileTransmission) (fs : FS) (now fuel : Nat) (cfg : Str)
    (cmd : FTC) :
    (Reachable e →
      e.active_receives.length ≤ 10 ∧ e.active_sends.length ≤ 10) ∧
    (alookup cmd.id e.active_receives = none → cmd.action = .send →
      10 ≤ e.active_receives.length →
      FileTransmission.handle_receive_cmd fs now fuel cfg e cmd = (e, fs)) ∧
    (alookup cmd.id e.active_sends = none → cmd.action = .receive →
      10 ≤ e.active_sends.length →
      FileTransmission.handle_send_cmd fs now fuel cfg e cmd = e) := by
  refine ⟨fun h => reachable_limits e h, ?_, ?_⟩
  · intro hnone hact hlen
    unfold FileTransmission.handle_receive_cmd
    rw [hnone]
    dsimp only [MAX_ACTIVE_RECEIVES]
    rw [if_neg (by simp [hact])]
    rw [if_pos hlen]
  · intro hnone hact hlen
    unfold FileTransmission.handle_send_cmd
    rw [hnone]
    dsimp only [MAX_ACTIVE_SENDS]
    rw [if_neg (by simp [hact])]
    rw [if_pos hlen]

/-- A pending receive session used in the C3 witness map. -/
def c3ar : ActiveReceive :=
  { id := [], bypass_ok := none, files := [], last_activity_at := 0,
    send_acknowledgements := true, send_errors := true }

/-- An engine already holding ten receive sessions. -/
def c3e10 : FileTransmission :=
  { active_receives := (List.range 10).map (fun i => ([48 + i], c3ar)) }

/-- Claim C3, witness: the empty engine is reachable and within limits,
and an eleventh send command bounces off the full concrete engine
unchanged. -/
theorem C3_session_limits_witness :
    (({} : FileTransmission).active_receives.length ≤ 10 ∧
      ({} : FileTransmission).active_sends.length ≤ 10) ∧
    FileTransmission.handle_receive_cmd {} 0 1 [] c3e10 { action := .send, id := [120] } =
      (c3e10, ({} : FS)) :=
  ⟨(C3_session_limits {} {} 0 1 [] { action := .send, id := [120] }).1 Reachable.init,
   (C3_session_limits c3e10 {} 0 1 [] { action := .send, id := [120] }).2.1
     (by decide) (by decide) (by decide)⟩

/-- A pending (not yet accepted) receive session for the C4 theorems. -/
def c4ar : ActiveReceive :=
  { id := [49], bypass_ok := none, files := [], last_activity_at := 0,
    send_acknowledgements := true, send_errors := true }

/-- An engine whose only receive session is pending confirmation. -/
def c4e : FileTransmission := { active_receives := [([49], c4ar)] }

/-- Claim C4, counterexample: on a pending receive session a data command
does not leave the session in place — the session is dropped — and a
cancel command is not acknowledged: the session is dropped with no
response written.  Both contradict the claimed
reject-but-keep-until-confirmation behaviour. -/
theorem C4_pending_counterexample :
    (FileTransmission.handle_receive_cmd {} 5 1 [] c4e
        { action := .data, id := [49] }).1.active_receives = [] ∧
    FileTransmission.handle_receive_cmd {} 5 1 [] c4e { action := .cancel, id := [49] } =
      ({ active_receives := [], active_sends := [],
         pending_receive_responses := [], responses := [] }, ({} : FS)) := by
  constructor
  · rfl
  · rfl

/-- Claim C4, amended: any command whose id names a pending (not yet
accepted) receive session — cancel included — drops that session from the
map, leaving everything else (other sessions, responses, the filesystem)
unchanged. -/
theorem C4_pending_drop (fs : FS) (now fuel : Nat) (cfg : Str) (e : FileTransmission)
    (cmd : FTC) (ar : ActiveReceive)
    (h : alookup cmd.id e.active_receives = some ar)
    (hacc : ar.accepted = false) :
    FileTransmission.handle_receive_cmd fs now fuel cfg e cmd =
      ({ e with active_receives := aerase cmd.id e.active_receives }, fs) := by
  unfold FileTransmission.handle_receive_cmd
  rw [h]
  dsimp only []
  by_cases hsend : cmd.action = .send
  · rw [if_pos hsend]
    rfl
  · rw [if_neg hsend]
    rw [if_pos (by simp [hacc])]
    rfl

/-- Claim C4, witness for the amended theorem: the concrete pending
session is dropped by a data command. -/
theorem C4_pending_drop_witness :
    alookup [49] c4e.active_receives = some c4ar ∧ c4ar.accepted = false ∧
      FileTransmission.handle_receive_cmd {} 5 1 [] c4e { action := .data, id := [49] } =
        ({ c4e with active_receives := aerase [49] c4e.active_receives }, ({} : FS)) :=
  ⟨by decide, by decide,
    C4_pending_drop {} 5 1 [] c4e { action := .data, id := [49] } c4ar
      (by decide) (by decide)⟩

/-- Claim C9: when a parsed command's non-empty id is present in both the
(pruned) receive and send maps and its action is not cancel,
handle_serialized_command runs the receive-side handler and then the
send-side handler on the state it left, in the same call — the two
routing conditions are tested independently; the second still fires
because the receive handler never touches the send map. -/
theorem C9_dual_dispatch (fs : FS) (now fuel : Nat) (cfg : Str) (e : FileTransmission)
    (data : Bytes) (cmd : FTC)
    (hde : FileTransmissionCommand.deserialize data = some cmd)
    (hid : ¬ cmd.id = [])
    (hcancel : ¬ cmd.action = .cancel)
    (hr : (alookup cmd.id (FileTransmission.prune_expired now e).active_receives).isSome)
    (hs : (alookup cmd.id (FileTransmission.prune_expired now e).active_sends).isSome) :
    FileTransmission.handle_serialized_command fs now fuel cfg e data =
      (FileTransmission.handle_send_cmd
        (FileTransmission.handle_receive_cmd fs now fuel cfg
          (FileTransmission.prune_expired now e) cmd).2
        now fuel cfg
        (FileTransmission.handle_receive_cmd fs now fuel cfg
          (FileTransmission.prune_expired now e) cmd).1 cmd,
       (FileTransmission.handle_receive_cmd fs now fuel cfg
         (FileTransmission.prune_expired now e) cmd).2) ∧
    (FileTransmission.handle_receive_cmd fs now fuel cfg
      (FileTransmission.prune_expired now e) cmd).1.active_sends =
      (FileTransmission.prune_expired now e).active_sends := by
  have hsends := handle_receive_cmd_sends fs now fuel cfg
    (FileTransmission.prune_expired now e) cmd
  refine ⟨?_, hsends⟩
  unfold FileTransmission.handle_serialized_command
  rw [hde]
  dsimp only []
  rw [if_neg hid]
  rw [if_neg (by simp [hcancel])]
  rw [if_neg (by simp [hcancel])]
  rw [if_pos (Or.inl hr)]
  rw [if_pos (Or.inl (by rw [hsends]; exact hs))]

/-- The accepted receive session of the C9 witness. -/
def c9ar : ActiveReceive :=
  { id := [49], bypass_ok := none, files := [], last_activity_at := 0,
    send_acknowledgements := true, send_errors := true, accepted := true }

/-- The accepted send session of the C9 witness, sharing the same id. -/
def c9asd : ActiveSend :=
  { id := [49], expected_num_of_args := 1, bypass_ok := none, accepted := true,
    last_activity_at := 0, send_acknowledgements := true, send_errors := true,
    file_specs := [([102], [47, 97])], queued_files_map := [], active_file := none,
    pending_chunks := [], metadata_sent := false }

/-- An engine holding the same id in both session maps. -/
def c9e : FileTransmission :=
  { active_receives := [([49], c9ar)], active_sends := [([49], c9asd)] }

/-- The C9 witness command: a status command for the shared id. -/
def c9cmd : FTC := { action := .status, id := [49] }

/-- Claim C9, witness: a serialized status command for the shared id goes
through both handlers on the concrete engine. -/
theorem C9_dual_dispatch_witness :
    FileTransmissionCommand.deserialize (FileTransmissionCommand.serialize c9cmd false) =
        some c9cmd ∧
      FileTransmission.handle_serialized_command {} 0 1 [] c9e
          (FileTransmissionCommand.serialize c9cmd false) =
        (FileTransmission.handle_send_cmd
          (FileTransmission.handle_receive_cmd {} 0 1 []
            (FileTransmission.prune_expired 0 c9e) c9cmd).2
          0 1 []
          (FileTransmission.handle_receive_cmd {} 0 1 []
            (FileTransmission.prune_expired 0 c9e) c9cmd).1 c9cmd,
         (FileTransmission.handle_receive_cmd {} 0 1 []
           (FileTransmission.prune_expired 0 c9e) c9cmd).2) :=
  ⟨by decide,
    (C9_dual_dispatch {} 0 1 [] c9e (FileTransmissionCommand.serialize c9cmd false) c9cmd
      (by decide) (by decide) (by decide) (by decide) (by decide)).1⟩

theorem iter_file_metadata_nil (fs : FS) (fuel : Nat) :
    iter_file_metadata fs fuel [] = [] := rfl

/-- Claim C10: a receive command that keeps the default size -1 creates an
ActiveSend with expected_num_of_args = -1, already spec-complete with no
collected specs; and accepting such a session immediately runs metadata
emission over the empty spec list, answers with the OK acknowledgement
(when quiet < 1) followed by an ENOENT No-files-found status, and drops
the session without ever collecting a file spec. -/
theorem C10_sizeless_receive (fs : FS) (now fuel : Nat) (cfg : Str) (rid bypass : Str)
    (quiet : Int) (e : FileTransmission) (cmd : FTC) (sid : Str) (asd : ActiveSend) :
    ((ActiveSend.init rid quiet bypass (-1) cfg now).expected_num_of_args = -1 ∧
      (ActiveSend.init rid quiet bypass (-1) cfg now).spec_complete = true ∧
      (ActiveSend.init rid quiet bypass (-1) cfg now).file_specs = []) ∧
    (alookup cmd.id e.active_sends = none → cmd.action = .receive →
      e.active_sends.length < 10 → cmd.size = -1 →
      FileTransmission.handle_send_cmd fs now fuel cfg e cmd =
        FileTransmission.start_send fs fuel
          { e with
            active_sends :=
              aset cmd.id (ActiveSend.init cmd.id cmd.quiet cmd.bypass (-1) cfg now)
                e.active_sends }
          cmd.id) ∧
    (alookup sid e.active_sends = some asd → asd.id = sid →
      asd.expected_num_of_args = -1 → asd.file_specs = [] →
      FileTransmission.handle_receive_confirmation fs fuel e sid true =
        { e with
          active_sends :=
            aerase sid (aset sid { asd with accepted := true } e.active_sends),
          responses := (e.responses ++
            (if asd.send_acknowledgements = true then
              [TransmissionError.as_ftc { code := Sum.inl .OK, human_msg := [] } sid]
            else [])) ++
            [TransmissionError.as_ftc
              { code := Sum.inl .ENOENT, human_msg := strLit ("No files found") }
              sid] }) := by
  refine ⟨⟨rfl, by simp [ActiveSend.init, ActiveSend.spec_complete], rfl⟩, ?_, ?_⟩
  · intro hnone hact hlen hsize
    unfold FileTransmission.handle_send_cmd
    rw [hnone]
    dsimp only [MAX_ACTIVE_SENDS]
    rw [if_neg (by simp [hact])]
    rw [if_neg (by omega)]
    rw [hsize]
  · intro h1 hid hexp hspecs
    have hsc : ActiveSend.spec_complete { asd with accepted := true } = true := by
      simp [ActiveSend.spec_complete, hexp, hspecs]
    unfold FileTransmission.handle_receive_confirmation
    rw [h1]
    dsimp only []
    rw [if_pos rfl]
    rw [if_pos rfl]
    rw [if_pos hsc]
    by_cases hack : asd.send_acknowledgements = true
    · simp [FileTransmission.send_metadata_for_send_transfer, hspecs,
        iter_file_metadata_nil, FileTransmission.send_status, FileTransmission.write_ftc,
        FileTransmission.drop_send, hid, hack]
    · simp [FileTransmission.send_metadata_for_send_transfer, hspecs,
        iter_file_metadata_nil, FileTransmission.send_status, FileTransmission.write_ftc,
        FileTransmission.drop_send, hid, hack]

/-- The sizeless (expected = -1) pending send session of the C10 witness. -/
def c10asd : ActiveSend :=
  { id := [49], expected_num_of_args := -1, bypass_ok := none, accepted := false,
    last_activity_at := 0, send_acknowledgements := true, send_errors := true,
    file_specs := [], queued_files_map := [], active_file := none, pending_chunks := [],
    metadata_sent := false }

/-- An engine holding only that session. -/
def c10e : FileTransmission := { active_sends := [([49], c10asd)] }

/-- Claim C10, witness: a sizeless init is spec-complete at once, a
sizeless receive command creates such a session, and accepting the
concrete pending session yields the OK acknowledgement, the ENOENT
No-files-found status, and the drop. -/
theorem C10_sizeless_receive_witness :
    (ActiveSend.init [51] 0 [] (-1) [] 7).spec_complete = true ∧
      FileTransmission.handle_send_cmd {} 7 1 [] c10e { action := .receive, id := [50] } =
        FileTransmission.start_send {} 1
          { c10e with
            active_sends :=
              aset [50] (ActiveSend.init [50] 0 [] (-1) [] 7) c10e.active_sends }
          [50] ∧
      FileTransmission.handle_receive_confirmation {} 1 c10e [49] true =
        { c10e with
          active_sends :=
            aerase [49] (aset [49] { c10asd with accepted := true } c10e.active_sends),
          responses := (c10e.responses ++
            (if c10asd.send_acknowledgements = true then
              [TransmissionError.as_ftc { code := Sum.inl .OK, human_msg := [] } [49]]
            else [])) ++
            [TransmissionError.as_ftc
              { code := Sum.inl .ENOENT, human_msg := strLit ("No files found") }
              [49]] } :=
  ⟨(C10_sizeless_receive {} 7 1 [] [51] [] 0 c10e { action := .receive, id := [50] }
      [49] c10asd).1.2.1,
   (C10_sizeless_receive {} 7 1 [] [51] [] 0 c10e { action := .receive, id := [50] }
      [49] c10asd).2.1 (by decide) rfl (by decide) rfl,
   (C10_sizeless_receive {} 7 1 [] [51] [] 0 c10e { action := .receive, id := [50] }
      [49] c10asd).2.2 (by decide) rfl rfl rfl⟩

end KittyFT
